import Mathlib

/-!
# Component uninstall orchestration of the platform operator

A shallow embedding of
`platform-operator/controllers/verrazzano/reconcile/uninstall_component.go`.

The Go code is effectful: it calls component hooks, the status recorder, the
logger and two platform queries.  The embedding makes every such call explicit:

* every call to an external collaborator is recorded, with what it returned, as
  an `Event`; a `History` is the chronological list of the events so far;
* what a collaborator returns is a function of the history at the moment of the
  call, so a collaborator may answer differently from one call to the next;
* a Go `error` result is an `Option GoError` (`none` is `nil`), and a Go
  `(bool, error)` result is a pair;
* `componentState` is a Go string type and is embedded as `String`, so the zero
  value `""` that the code returns next to an error is a value of the type;
* the `for` loop of `uninstallSingleComponent` has no bound in the source; the
  embedding counts its iterations with a fuel argument and returns `none` when
  the fuel does not suffice.
-/

namespace reconcile

/-- A Go error value that is not nil. -/
structure GoError where
  msg : String
deriving DecidableEq, Repr

/-- The Go type `componentState`, a string type. -/
abbrev componentState := String

/-- State in which a component is starting the uninstall flow. -/
def compStateUninstallStart : componentState := "compStateUninstallStart"

/-- State in which a component does a pre-uninstall. -/
def compStatePreUninstall : componentState := "compStatePreUninstall"

/-- State in which a component does an uninstall. -/
def compStateUninstall : componentState := "compStateUninstall"

/-- State in which a component is waiting to be uninstalled. -/
def compStateWaitUninstalled : componentState := "compStateWaitUninstalled"

/-- State in which the component uninstall is done. -/
def compStateUninstalleDone : componentState := "compStateUninstalleDone"

/-- The terminal state. -/
def compStateUninstallEnd : componentState := "compStateUninstallEnd"

/-- The two condition kinds of `v1alpha1` that the uninstall flow records. -/
inductive ConditionType where
  | CondUninstallStarted
  | CondUninstallComplete
deriving DecidableEq, Repr

/-- The controller-runtime type `ctrl.Result`; its zero value is `⟨false, 0⟩`. -/
structure Result where
  Requeue : Bool
  RequeueAfter : Nat
deriving DecidableEq, Repr

/-- One call to an external collaborator, with the value the call returned. -/
inductive Event where
  | NewContext (err : Option GoError)
  | IsClusterProvisionedByRancher (ret : Bool) (err : Option GoError)
  | IsInstalled (comp : String) (ret : Bool) (err : Option GoError)
  | PreUninstall (comp : String) (err : Option GoError)
  | Uninstall (comp : String) (err : Option GoError)
  | PostUninstall (comp : String) (err : Option GoError)
  | updateComponentStatus (comp : String) (msg : String) (cond : ConditionType)
      (err : Option GoError)
  | Oncef (msg : String)
  | Errorf (msg : String)
  | Progressf (msg : String)
deriving DecidableEq, Repr

/-- The calls made so far, oldest first. -/
abbrev History := List Event

/-- The part of `spi.Component` that the uninstall flow uses.  Each hook answers
as a function of the history at the moment it is called. -/
structure Component where
  Name : String
  IsOperatorUninstallSupported : Bool
  IsInstalled : History → Bool × Option GoError
  PreUninstall : History → Option GoError
  Uninstall : History → Option GoError
  PostUninstall : History → Option GoError

/-- The reconciler together with the collaborators it reaches from the uninstall
flow: `spi.NewContext`, `rancher.IsClusterProvisionedByRancher`,
`r.updateComponentStatus`, `ctrlerrors.IsRetryableError`, the constant
`rancher.ComponentName`, the delay drawn by `newRequeueWithDelay`, and the list
returned by `registry.GetComponents`.  None of them is defined in the file that
is embedded, so they are parameters. -/
structure Reconciler where
  NewContext : History → Option GoError
  IsClusterProvisionedByRancher : History → Bool × Option GoError
  updateComponentStatus : String → String → ConditionType → History → Option GoError
  IsRetryableError : GoError → Bool
  ComponentName : String
  requeueDelay : History → Nat
  GetComponents : List Component

/-- Modelled from the spec: `newRequeueWithDelay` is defined outside the embedded
file; by the spec it is the result that signals a requeue to the scheduler, the
delay itself being left to the implementation. -/
def newRequeueWithDelay (r : Reconciler) (h : History) : Result :=
  { Requeue := true, RequeueAfter := r.requeueDelay h }

/-- The uninstall context of one component. -/
structure componentUninstallContext where
  state : componentState
deriving DecidableEq, Repr

/-- The Go type `UninstallTracker`: a map from component name to the uninstall
context of that component. -/
structure UninstallTracker where
  compMap : String → Option componentUninstallContext

/-- The tracker with no entry. -/
def UninstallTracker.empty : UninstallTracker := ⟨fun _ => none⟩

/-- The write through the pointer that `getComponentUninstallContext` returned:
the entry of `compName` becomes `context`. -/
def UninstallTracker.store (vuc : UninstallTracker) (compName : String)
    (context : componentUninstallContext) : UninstallTracker :=
  ⟨fun n => if n = compName then some context else vuc.compMap n⟩

/-- The method `getComponentUninstallContext`: gets the uninstall context of the
component, creating it in state `compStateUninstallStart` when it is absent. -/
def UninstallTracker.getComponentUninstallContext (vuc : UninstallTracker)
    (compName : String) : componentUninstallContext × UninstallTracker :=
  match vuc.compMap compName with
  | some context => (context, vuc)
  | none => (⟨compStateUninstallStart⟩, vuc.store compName ⟨compStateUninstallStart⟩)

/-- The method `executeComponentUninstallState`: one step of the uninstall state
machine of a component.  Returns the Go result pair and the events of this
step, oldest first; `h` is the history before the step. -/
def executeComponentUninstallState (r : Reconciler) (comp : Component)
    (currentState : componentState) (h : History) :
    (componentState × Option GoError) × List Event :=
  let compName := comp.Name
  let q := r.IsClusterProvisionedByRancher h
  let e0 : List Event := [Event.IsClusterProvisionedByRancher q.1 q.2]
  match q.2 with
  | some err => (("", some err), e0)
  | none =>
    let rancherProvisioned := q.1
    if currentState = compStateUninstallStart then
      if comp.IsOperatorUninstallSupported = false then
        ((compStateUninstallEnd, none), e0)
      else if comp.Name = r.ComponentName ∧ rancherProvisioned = true then
        ((compStateUninstallEnd, none),
          e0 ++ [Event.Oncef ("Cluster was provisioned by Rancher. Component "
            ++ r.ComponentName ++ " will not be uninstalled.")])
      else
        let i := comp.IsInstalled (h ++ e0)
        let e1 := e0 ++ [Event.IsInstalled compName i.1 i.2]
        match i.2 with
        | some err =>
          ((compStateUninstallEnd, none),
            e1 ++ [Event.Errorf ("Failed checking if component " ++ compName
              ++ " is installed: " ++ err.msg)])
        | none =>
          if i.1 = false then
            ((compStateUninstallEnd, none),
              e1 ++ [Event.Oncef ("Component " ++ compName
                ++ " is not installed, nothing to do for uninstall")])
          else
            let u := r.updateComponentStatus compName "Uninstall started"
              ConditionType.CondUninstallStarted (h ++ e1)
            let e2 := e1 ++ [Event.updateComponentStatus compName "Uninstall started"
              ConditionType.CondUninstallStarted u]
            match u with
            | some err => (("", some err), e2)
            | none =>
              ((compStatePreUninstall, none),
                e2 ++ [Event.Oncef ("Component " ++ compName ++ " is starting to uninstall")])
    else if currentState = compStatePreUninstall then
      let e1 := e0 ++ [Event.Oncef ("Component " ++ compName ++ " is calling pre-uninstall")]
      let p := comp.PreUninstall (h ++ e1)
      let e2 := e1 ++ [Event.PreUninstall compName p]
      match p with
      | some err => ((currentState, some err), e2)
      | none => ((compStateUninstall, none), e2)
    else if currentState = compStateUninstall then
      let e1 := e0 ++ [Event.Progressf ("Component " ++ compName ++ " is calling uninstall")]
      let u := comp.Uninstall (h ++ e1)
      let e2 := e1 ++ [Event.Uninstall compName u]
      match u with
      | some err =>
        if r.IsRetryableError err = false then
          (("", some err),
            e2 ++ [Event.Errorf ("Failed uninstalling component " ++ compName
              ++ ", will retry: " ++ err.msg)])
        else (("", some err), e2)
      | none => ((compStateWaitUninstalled, none), e2)
    else if currentState = compStateWaitUninstalled then
      let i := comp.IsInstalled (h ++ e0)
      let e1 := e0 ++ [Event.IsInstalled compName i.1 i.2]
      match i.2 with
      | some err =>
        ((currentState, some err),
          e1 ++ [Event.Errorf ("Failed checking if component " ++ compName
            ++ " is installed: " ++ err.msg)])
      | none =>
        if i.1 = true then
          ((currentState, none),
            e1 ++ [Event.Progressf ("Waiting for component " ++ compName
              ++ " to be uninstalled")])
        else
          let e2 := e1 ++ [Event.Progressf ("Component " ++ compName
            ++ " has been uninstalled, running post-uninstall")]
          let p := comp.PostUninstall (h ++ e2)
          let e3 := e2 ++ [Event.PostUninstall compName p]
          match p with
          | some err =>
            if r.IsRetryableError err = false then
              ((currentState, none),
                e3 ++ [Event.Errorf ("PostUninstall for component " ++ compName
                  ++ " failed: " ++ err.msg)])
            else ((currentState, none), e3)
          | none => ((compStateUninstalleDone, none), e3)
    else if currentState = compStateUninstalleDone then
      let u := r.updateComponentStatus compName "Uninstall complete"
        ConditionType.CondUninstallComplete (h ++ e0)
      let e1 := e0 ++ [Event.updateComponentStatus compName "Uninstall complete"
        ConditionType.CondUninstallComplete u]
      match u with
      | some err => ((currentState, some err), e1)
      | none =>
        ((compStateUninstallEnd, none),
          e1 ++ [Event.Oncef ("Component " ++ compName ++ " has successfully uninstalled")])
    else
      (("", none), e0)

/-- The method `uninstallSingleComponent`: steps the state machine of one
component until it is in the terminal state or a step returns an error.  The
context is passed by pointer in the source and is returned here with the state
that the loop left in it: the state is assigned before the error is tested, as in
the source.  Building the component context from `spiCtx` calls no collaborator
and is left out.  `fuel` bounds the number of loop iterations and the result is
`none` when the loop needs more. -/
def uninstallSingleComponent (r : Reconciler) :
    Nat → componentUninstallContext → Component → History →
      Option ((Result × Option GoError) × componentUninstallContext × History)
  | fuel, UninstallContext, comp, h =>
    if UninstallContext.state = compStateUninstallEnd then
      some ((⟨false, 0⟩, none), UninstallContext, h)
    else
      match fuel with
      | 0 => none
      | fuel + 1 =>
        let s := executeComponentUninstallState r comp UninstallContext.state h
        match s.1.2 with
        | some err => some ((newRequeueWithDelay r (h ++ s.2), some err), ⟨s.1.1⟩, h ++ s.2)
        | none => uninstallSingleComponent r fuel ⟨s.1.1⟩ comp (h ++ s.2)

/-- The `for` loop of `uninstallComponents` over the registered components,
carrying the local variable `requeue`, the tracker and the history.  The context
that `getComponentUninstallContext` returns is a pointer into the tracker; what
`uninstallSingleComponent` leaves in it is written back to the entry. -/
def uninstallComponentsLoop (r : Reconciler) (fuel : Nat) :
    List Component → Bool → UninstallTracker → History →
      Option (Bool × UninstallTracker × History)
  | [], requeue, tracker, h => some (requeue, tracker, h)
  | comp :: rest, requeue, tracker, h =>
    let g := tracker.getComponentUninstallContext comp.Name
    match uninstallSingleComponent r fuel g.1 comp h with
    | none => none
    | some (res, ctx, h1) =>
      uninstallComponentsLoop r fuel rest
        (if res.2.isSome ∨ res.1.Requeue = true then true else requeue)
        (g.2.store comp.Name ctx) h1

/-- The method `uninstallComponents`: uninstalls the components as required. -/
def uninstallComponents (r : Reconciler) (fuel : Nat) (tracker : UninstallTracker)
    (h : History) : Option ((Result × Option GoError) × UninstallTracker × History) :=
  let c := r.NewContext h
  let h0 := h ++ [Event.NewContext c]
  match c with
  | some err => some ((newRequeueWithDelay r h0, some err), tracker, h0)
  | none =>
    match uninstallComponentsLoop r fuel r.GetComponents false tracker h0 with
    | none => none
    | some (requeue, tracker1, h1) =>
      if requeue = true then some ((newRequeueWithDelay r h1, none), tracker1, h1)
      else some ((⟨false, 0⟩, none), tracker1, h1)

/-! ## Definitions used to state the properties -/

/-- Whether an event is a call of the `IsInstalled` hook of the component `name`. -/
def Event.isInstalledCheck (name : String) : Event → Bool
  | Event.IsInstalled c _ _ => c == name
  | _ => false

/-- Whether an event is a call of an `Uninstall` hook. -/
def Event.isUninstall : Event → Bool
  | Event.Uninstall _ _ => true
  | _ => false

/-- Whether an event is a call of a `PostUninstall` hook. -/
def Event.isPostUninstall : Event → Bool
  | Event.PostUninstall _ _ => true
  | _ => false

/-- Whether an event is a call of the `PostUninstall` hook of the component `name`. -/
def Event.isPostUninstallOf (name : String) : Event → Bool
  | Event.PostUninstall c _ => c == name
  | _ => false

/-- Whether an event is a call of the status recorder `updateComponentStatus`. -/
def Event.isStatusUpdate : Event → Bool
  | Event.updateComponentStatus _ _ _ _ => true
  | _ => false

/-- Whether an event is a call of one of the component hooks `IsInstalled`,
`PreUninstall`, `Uninstall` and `PostUninstall`. -/
def Event.isHookCall : Event → Bool
  | Event.IsInstalled _ _ _ => true
  | Event.PreUninstall _ _ => true
  | Event.Uninstall _ _ => true
  | Event.PostUninstall _ _ => true
  | _ => false

/-- The component on which an event is a hook call or a status update, if any. -/
def Event.component : Event → Option String
  | Event.IsInstalled c _ _ => some c
  | Event.PreUninstall c _ => some c
  | Event.Uninstall c _ => some c
  | Event.PostUninstall c _ => some c
  | Event.updateComponentStatus c _ _ _ => some c
  | _ => none

/-- How many times the `IsInstalled` hook of the component `name` was called in `h`. -/
def installedChecks (name : String) (h : History) : Nat :=
  h.countP (Event.isInstalledCheck name)

/-- How many times the `PostUninstall` hook of the component `name` was called in `h`. -/
def postUninstallCalls (name : String) (h : History) : Nat :=
  h.countP (Event.isPostUninstallOf name)

/-- Whether the `Uninstall` hook of the component `name` has returned without error
in `h`. -/
def uninstalledIn (name : String) : History → Bool
  | [] => false
  | Event.Uninstall c none :: t => c == name || uninstalledIn name t
  | _ :: t => uninstalledIn name t

/-- The states that repeated application of `executeComponentUninstallState` visits
from state `s` at history `h`: the state itself, then the states visited from the
state the step returns, until the terminal state is reached or `n` steps are taken. -/
def visitedStates (r : Reconciler) (comp : Component) :
    Nat → componentState → History → List componentState
  | 0, s, _ => [s]
  | n + 1, s, h =>
    if s = compStateUninstallEnd then [s]
    else
      s :: visitedStates r comp n (executeComponentUninstallState r comp s h).1.1
        (h ++ (executeComponentUninstallState r comp s h).2)

/-- What `uninstallSingleComponent` returned for each component, in order, in the
loop of `uninstallComponents` started with the given tracker and history. -/
def componentResults (r : Reconciler) (fuel : Nat) :
    List Component → UninstallTracker → History → Option (List (Result × Option GoError))
  | [], _, _ => some []
  | comp :: rest, tracker, h =>
    let g := tracker.getComponentUninstallContext comp.Name
    match uninstallSingleComponent r fuel g.1 comp h with
    | none => none
    | some (res, ctx, h1) =>
      (componentResults r fuel rest (g.2.store comp.Name ctx) h1).map (fun l => res :: l)

/-- The component succeeds fully: its `PreUninstall`, `Uninstall` and `PostUninstall`
hooks and the status updates for it never fail, its `IsInstalled` hook never fails,
and it reports the component as not installed once the `Uninstall` hook has
returned without error. -/
def succeedsFully (r : Reconciler) (c : Component) : Prop :=
  (∀ h, c.PreUninstall h = none) ∧ (∀ h, c.Uninstall h = none)
    ∧ (∀ h, c.PostUninstall h = none)
    ∧ (∀ msg cond h, r.updateComponentStatus c.Name msg cond h = none)
    ∧ (∀ h, (c.IsInstalled h).2 = none)
    ∧ (∀ h, Event.Uninstall c.Name none ∈ h → (c.IsInstalled h).1 = false)

/-! ## Concrete reconcilers and components on which the properties are evaluated -/

/-- A reconciler over the components `comps` whose collaborators all succeed, on a
cluster that was not provisioned by Rancher. -/
def healthyReconciler (comps : List Component) : Reconciler :=
  { NewContext := fun _ => none
    IsClusterProvisionedByRancher := fun _ => (false, none)
    updateComponentStatus := fun _ _ _ _ => none
    IsRetryableError := fun _ => false
    ComponentName := "rancher"
    requeueDelay := fun _ => 2
    GetComponents := comps }

/-- A reconciler over the components `comps` whose provisioning query fails. -/
def queryFailingReconciler (comps : List Component) : Reconciler :=
  { healthyReconciler comps with
    IsClusterProvisionedByRancher := fun _ => (false, some ⟨"no cluster"⟩) }

/-- A component whose hooks all succeed and which is installed until its `Uninstall`
hook has returned without error. -/
def plainComponent (name : String) : Component :=
  { Name := name
    IsOperatorUninstallSupported := true
    IsInstalled := fun h => (!(uninstalledIn name h), none)
    PreUninstall := fun _ => none
    Uninstall := fun _ => none
    PostUninstall := fun _ => none }

/-- A component whose hooks all succeed and whose `IsInstalled` hook answers true
on its first `polls + 1` calls and false afterwards. -/
def pollingComponent (name : String) (polls : Nat) : Component :=
  { plainComponent name with
    IsInstalled := fun h => (decide (installedChecks name h ≤ polls), none) }

/-- A component that does not support operator uninstall. -/
def unsupportedComponent (name : String) : Component :=
  { plainComponent name with IsOperatorUninstallSupported := false }

/-- A component that stays installed and whose `PreUninstall` hook always fails. -/
def preFailingComponent (name : String) : Component :=
  { plainComponent name with
    IsInstalled := fun _ => (true, none)
    PreUninstall := fun _ => some ⟨"pre-uninstall failed"⟩ }

/-- A component whose `Uninstall` hook always fails. -/
def uninstallFailingComponent (name : String) : Component :=
  { plainComponent name with Uninstall := fun _ => some ⟨"uninstall failed"⟩ }

/-- A component whose `IsInstalled` hook always fails. -/
def checkFailingComponent (name : String) : Component :=
  { plainComponent name with IsInstalled := fun _ => (false, some ⟨"check failed"⟩) }

/-- A component whose hooks all succeed and which stays installed for ever. -/
def stuckComponent (name : String) : Component :=
  { plainComponent name with IsInstalled := fun _ => (true, none) }

/-- The history of a run of `uninstallComponents` over `pollingComponent "c" 1` at the
moment the component reaches `compStateWaitUninstalled`. -/
def historyBeforeWait : History :=
  [Event.NewContext none,
    Event.IsClusterProvisionedByRancher false none,
    Event.IsInstalled "c" true none,
    Event.updateComponentStatus "c" "Uninstall started" ConditionType.CondUninstallStarted none,
    Event.Oncef "Component c is starting to uninstall",
    Event.IsClusterProvisionedByRancher false none,
    Event.Oncef "Component c is calling pre-uninstall",
    Event.PreUninstall "c" none,
    Event.IsClusterProvisionedByRancher false none,
    Event.Progressf "Component c is calling uninstall",
    Event.Uninstall "c" none]

/-- A reconciler over the components `comps` whose provisioning query succeeds until
a `PostUninstall` hook has been called and fails from then on; every other
collaborator succeeds. -/
def lateQueryFailingReconciler (comps : List Component) : Reconciler :=
  { healthyReconciler comps with
    IsClusterProvisionedByRancher := fun h =>
      if h.any Event.isPostUninstall then (false, some ⟨"no cluster"⟩) else (false, none) }

/-- A reconciler over the components `comps` whose status recorder fails to record
the condition `CondUninstallComplete`; every other collaborator succeeds. -/
def completeFailingReconciler (comps : List Component) : Reconciler :=
  { healthyReconciler comps with
    updateComponentStatus := fun _ _ cond _ =>
      if cond = ConditionType.CondUninstallComplete then some ⟨"status update failed"⟩
      else none }

/-! ## Further definitions used to state the properties -/

/-- Whether an event is a call of one of the hooks `PreUninstall`, `Uninstall` and
`PostUninstall`. -/
def Event.isUninstallHook : Event → Bool
  | Event.PreUninstall _ _ => true
  | Event.Uninstall _ _ => true
  | Event.PostUninstall _ _ => true
  | _ => false

/-- Whether an event is an entry of the error log. -/
def Event.isErrorf : Event → Bool
  | Event.Errorf _ => true
  | _ => false

/-- The events of the processing of each component, in order, in the loop of
`uninstallComponents` started with the given tracker and history: one list of events
for each call of `uninstallSingleComponent`. -/
def componentSegments (r : Reconciler) (fuel : Nat) :
    List Component → UninstallTracker → History → Option (List (List Event))
  | [], _, _ => some []
  | comp :: rest, tracker, h =>
    let g := tracker.getComponentUninstallContext comp.Name
    match uninstallSingleComponent r fuel g.1 comp h with
    | none => none
    | some (_, ctx, h1) =>
      (componentSegments r fuel rest (g.2.store comp.Name ctx) h1).map
        (fun l => h1.drop h.length :: l)

/-- A component that is gone until its `PostUninstall` hook has been called, whose
`PostUninstall` hook always fails, and that is reported as installed again once
that hook has been called. -/
def postFailingComponent (name : String) : Component :=
  { plainComponent name with
    IsInstalled := fun h => (h.any Event.isPostUninstall, none)
    PostUninstall := fun _ => some ⟨"post-uninstall failed"⟩ }

/-- A reconciler over the components `comps` whose status recorder fails to record
the condition `CondUninstallStarted`; every other collaborator succeeds. -/
def startedFailingReconciler (comps : List Component) : Reconciler :=
  { healthyReconciler comps with
    updateComponentStatus := fun _ _ cond _ =>
      if cond = ConditionType.CondUninstallStarted then some ⟨"status update failed"⟩
      else none }

/-- A reconciler over the components `comps` on a cluster that was provisioned by
Rancher; every collaborator succeeds. -/
def rancherProvisionedReconciler (comps : List Component) : Reconciler :=
  { healthyReconciler comps with IsClusterProvisionedByRancher := fun _ => (true, none) }


/-- The six states that the constant block of the source declares. -/
def declaredStates : List componentState :=
  [compStateUninstallStart, compStatePreUninstall, compStateUninstall,
    compStateWaitUninstalled, compStateUninstalleDone, compStateUninstallEnd]
end reconcile

/-!
# The repair of MySQL pods that wait for their readiness gates

The method `repairMySQLPodsWaitingReadinessGates` of the package `mysql` is tested in
`platform-operator/controllers/verrazzano/component/mysql/mysql_workarounds_test.go`;
the method itself is not among the sources.  Its branches are modelled from the
specification of the time-windowed repair, in the order that the test fixes: the
timestamp is looked at before the pods.  The test is embedded with the method under
test as a parameter, and the model passes it.
-/

namespace mysql

/-- The Kubernetes type `v1.ConditionStatus`. -/
inductive ConditionStatus where
  | ConditionTrue
  | ConditionFalse
  | ConditionUnknown
deriving DecidableEq, Repr

/-- The fields `Type` and `Status` of the Kubernetes type `v1.PodCondition`. -/
structure PodCondition where
  condType : String
  Status : ConditionStatus
deriving DecidableEq, Repr

/-- The fields of the Kubernetes type `v1.Pod` that the test sets: the name, the
namespace and the labels of the object, the condition types of the readiness gates
of the spec, and the conditions of the status. -/
structure Pod where
  Name : String
  Namespace : String
  Labels : List (String × String)
  ReadinessGates : List String
  Conditions : List PodCondition
deriving DecidableEq, Repr

/-- The pods that the client holds. -/
abbrev Cluster := List Pod

/-- The constants that the test names and that are declared outside the sources:
`ComponentNamespace`, `mySQLComponentLabel` and `mySQLDComponentName` of the package
`mysql`, `ComponentName` and `ComponentNamespace` of the package `mysqloperator`, and
the cooldown of the repair. -/
structure Constants where
  ComponentNamespace : String
  mySQLComponentLabel : String
  mySQLDComponentName : String
  operatorComponentName : String
  operatorComponentNamespace : String
  cooldown : Int

/-- The field of `mysqlComponent` that the repair uses.  A time is a number of
nanoseconds; `none` is the zero value of `time.Time`, which stands for never. -/
structure mysqlComponent where
  LastTimeReadinessGateRepairStarted : Option Int
deriving DecidableEq, Repr

/-- The method `IsZero` of `time.Time` on the timestamp of the component. -/
def mysqlComponent.IsZero (c : mysqlComponent) : Bool :=
  c.LastTimeReadinessGateRepairStarted.isNone

/-- What a call of the repair leaves: the error it returns, the pods of the client,
the component, and the pods it asked the client to delete, by namespace and name. -/
structure RepairOutcome where
  err : Option reconcile.GoError
  cluster : Cluster
  comp : mysqlComponent
  deleted : List (String × String)
deriving DecidableEq, Repr

/-- Whether the pod has a condition of the type of the gate with status true. -/
def gateIsTrue (p : Pod) (gate : String) : Bool :=
  p.Conditions.any (fun c => c.condType == gate && c.Status == ConditionStatus.ConditionTrue)

/-- Whether the pod is a MySQL pod: a pod of the namespace of the component that
carries the label of the MySQL server. -/
def isMySQLPod (k : Constants) (p : Pod) : Bool :=
  p.Namespace == k.ComponentNamespace
    && p.Labels.contains (k.mySQLComponentLabel, k.mySQLDComponentName)

/-- Modelled from the spec: the health predicate of the repair is not among the
sources; by the spec it holds when all the sub-conditions of the target are true,
here all readiness gates of all MySQL pods. -/
def allReadinessGatesTrue (k : Constants) (cli : Cluster) : Bool :=
  (cli.filter (isMySQLPod k)).all (fun p => p.ReadinessGates.all (gateIsTrue p))

/-- The pods left when the client deletes the pod of that namespace and name;
deleting a pod that is absent changes nothing. -/
def deletePod (cli : Cluster) (ns name : String) : Cluster :=
  cli.filter (fun p => !(p.Namespace == ns && p.Name == name))

/-- Whether the client finds a pod of that namespace and name. -/
def podExists (cli : Cluster) (ns name : String) : Bool :=
  cli.any (fun p => p.Namespace == ns && p.Name == name)

/-- Modelled from the spec: `repairMySQLPodsWaitingReadinessGates` is not among the
sources.  The branches are those of the spec: a timestamp at never is set to now
with no action; while `now - lastActionTimestamp < cooldown` no action is taken;
healthy pods reset the timestamp to never with no action; unhealthy pods after the
cooldown get the corrective action, the deletion of the pod of the MySQL operator,
and the timestamp is reset to never.  The order of the branches is the one that the
test of the sources fixes: its first call, on pods whose readiness gates are all
true, expects the zero timestamp to be initialised, and its third call sets the
timestamp back beyond the expiration to force a check of the readiness gates.  So
the timestamp is looked at first, and the pods only once the cooldown has elapsed. -/
def repairMySQLPodsWaitingReadinessGates (k : Constants) (now : Int) (c : mysqlComponent)
    (cli : Cluster) : RepairOutcome :=
  match c.LastTimeReadinessGateRepairStarted with
  | none => { err := none, cluster := cli, comp := ⟨some now⟩, deleted := [] }
  | some last =>
    if now - last < k.cooldown then
      { err := none, cluster := cli, comp := c, deleted := [] }
    else if allReadinessGatesTrue k cli then
      { err := none, cluster := cli, comp := ⟨none⟩, deleted := [] }
    else
      { err := none
        cluster := deletePod cli k.operatorComponentNamespace k.operatorComponentName
        comp := ⟨none⟩
        deleted := [(k.operatorComponentNamespace, k.operatorComponentName)] }

/-- The Go constant `time.Hour`, in nanoseconds. -/
def Hour : Int := 3600000000000

/-- The pod `mySQLOperatorPod` of the test. -/
def mySQLOperatorPod (k : Constants) : Pod :=
  { Name := k.operatorComponentName
    Namespace := k.operatorComponentNamespace
    Labels := [("name", k.operatorComponentName)]
    ReadinessGates := []
    Conditions := [] }

/-- The pod `mySQLPod` of the test, with the status of the condition `gate2` as set
by the test: true at first, false before the fourth call. -/
def mySQLPod (k : Constants) (gate2 : ConditionStatus) : Pod :=
  { Name := "mysql-0"
    Namespace := k.ComponentNamespace
    Labels := [(k.mySQLComponentLabel, k.mySQLDComponentName)]
    ReadinessGates := ["gate1", "gate2"]
    Conditions := [⟨"gate1", ConditionStatus.ConditionTrue⟩, ⟨"gate2", gate2⟩] }

/-- The test `TestRepairMySQLPodsWaitingReadinessGates`, with the method under test as
the parameter `repair` and the readings of the clock at the four calls as `t1` to
`t4`: whether all the assertions of the test hold. -/
def TestRepairMySQLPodsWaitingReadinessGates (k : Constants)
    (repair : Int → mysqlComponent → Cluster → RepairOutcome) (t1 t2 t3 t4 : Int) : Bool :=
  let cli : Cluster := [mySQLPod k ConditionStatus.ConditionTrue, mySQLOperatorPod k]
  let mysqlComp : mysqlComponent := ⟨none⟩
  -- first call: the timer gets initialized
  let a1 := mysqlComp.IsZero
  let o1 := repair t1 mysqlComp cli
  let a2 := o1.err.isNone
  let a3 := !o1.comp.IsZero
  -- second call: no error and the pod of the operator still exists
  let o2 := repair t2 o1.comp o1.cluster
  let a4 := o2.err.isNone
  let a5 := podExists o2.cluster k.operatorComponentNamespace k.operatorComponentName
  -- third call: the timer has expired and the readiness gates are true
  let o3 := repair t3 ⟨some (t3 - Hour * 2)⟩ o2.cluster
  let a6 := o3.err.isNone
  let a7 := podExists o3.cluster k.operatorComponentNamespace k.operatorComponentName
  -- fourth call: one of the readiness gates is false
  let cli4 : Cluster := [mySQLPod k ConditionStatus.ConditionFalse, mySQLOperatorPod k]
  let o4 := repair t4 ⟨some (t4 - Hour * 2)⟩ cli4
  let a8 := o4.err.isNone
  let a9 := o4.comp.IsZero
  let a10 := !podExists o4.cluster k.operatorComponentNamespace k.operatorComponentName
  a1 && a2 && a3 && a4 && a5 && a6 && a7 && a8 && a9 && a10

/-- Constants on which the properties are evaluated. -/
def exampleConstants : Constants :=
  { ComponentNamespace := "keycloak"
    mySQLComponentLabel := "component"
    mySQLDComponentName := "mysqld"
    operatorComponentName := "mysql-operator"
    operatorComponentNamespace := "mysql-operator"
    cooldown := Hour }

end mysql

namespace reconcile

end reconcile

/-!
# The validation of an update by the Fluent Operator component

The methods `ValidateUpdateV1Beta1` and `checkEnabled` of
`platform-operator/controllers/verrazzano/component/fluentoperator/fluentoperator_component.go`.
A Go pointer is an `Option`, with `none` for nil, and a call either returns or stops
with the runtime error of reading a field through a nil pointer.
-/

namespace fluentoperator

/-- The constant `ComponentJSONName`. -/
def ComponentJSONName : String := "fluentOperator"

/-- The type `v1beta1.Overrides` is declared outside the sources; an override is
kept as its text, which the validation only hands on. -/
abbrev Overrides := String

/-- The field of `v1beta1.FluentOperatorComponent` that the validation reads. -/
structure FluentOperatorComponent where
  ValueOverrides : List Overrides
deriving DecidableEq, Repr

/-- The type `v1beta1.VeleroComponent`; the validation only tests the pointer to it
against nil, so of its fields only the overrides are kept. -/
structure VeleroComponent where
  ValueOverrides : List Overrides
deriving DecidableEq, Repr

/-- The fields `Velero` and `FluentOperator` of `v1beta1.ComponentSpec`, both of them
pointers. -/
structure ComponentSpec where
  Velero : Option VeleroComponent
  FluentOperator : Option FluentOperatorComponent
deriving DecidableEq, Repr

/-- The field `Components` of `v1beta1.VerrazzanoSpec`. -/
structure VerrazzanoSpec where
  Components : ComponentSpec
deriving DecidableEq, Repr

/-- The field `Spec` of `v1beta1.Verrazzano`. -/
structure Verrazzano where
  Spec : VerrazzanoSpec
deriving DecidableEq, Repr

/-- The component together with the functions it calls that are defined outside the
sources: `vzcr.IsFluentOperatorEnabled`, `v1alpha1.ValidateInstallOverridesV1Beta1`
and the method `ValidateUpdateV1Beta1` of the embedded `helm.HelmComponent`. -/
structure fluentOperatorComponent where
  IsFluentOperatorEnabled : Verrazzano → Bool
  ValidateInstallOverridesV1Beta1 : List Overrides → Option reconcile.GoError
  HelmValidateUpdateV1Beta1 : Verrazzano → Verrazzano → Option reconcile.GoError

/-- The runtime error that stops a call. -/
inductive RuntimeError where
  | nilPointerDereference
deriving DecidableEq, Repr

/-- The method `IsEnabled`: the enabled check of the Fluent Operator. -/
def fluentOperatorComponent.IsEnabled (c : fluentOperatorComponent)
    (effectiveCR : Verrazzano) : Bool :=
  c.IsFluentOperatorEnabled effectiveCR

/-- The method `checkEnabled`: disabling the component after install is not allowed. -/
def fluentOperatorComponent.checkEnabled (c : fluentOperatorComponent)
    (old new : Verrazzano) : Option reconcile.GoError :=
  if c.IsEnabled old && !c.IsEnabled new then
    some ⟨"disabling component " ++ ComponentJSONName ++ " is not allowed"⟩
  else
    none

/-- The method `ValidateUpdateV1Beta1`: checks whether the new resource is valid for
this component to be updated.  The overrides are read through the pointer
`new.Spec.Components.FluentOperator`, under the test of the pointer
`new.Spec.Components.Velero`. -/
def fluentOperatorComponent.ValidateUpdateV1Beta1 (c : fluentOperatorComponent)
    (old new : Verrazzano) : Except RuntimeError (Option reconcile.GoError) :=
  match c.checkEnabled old new with
  | some err => Except.ok (some err)
  | none =>
    if new.Spec.Components.Velero.isSome then
      match new.Spec.Components.FluentOperator with
      | none => Except.error RuntimeError.nilPointerDereference
      | some fluentOperator =>
        match c.ValidateInstallOverridesV1Beta1 fluentOperator.ValueOverrides with
        | some err => Except.ok (some err)
        | none => Except.ok (c.HelmValidateUpdateV1Beta1 old new)
    else
      Except.ok (c.HelmValidateUpdateV1Beta1 old new)

/-- A resource in which Velero is configured and the Fluent Operator is not. -/
def veleroOnly : Verrazzano :=
  { Spec := { Components := { Velero := some ⟨[]⟩, FluentOperator := none } } }

/-- A component whose outside functions all accept: the Fluent Operator counts as
enabled when it is configured. -/
def acceptingComponent : fluentOperatorComponent :=
  { IsFluentOperatorEnabled := fun vz => vz.Spec.Components.FluentOperator.isSome
    ValidateInstallOverridesV1Beta1 := fun _ => none
    HelmValidateUpdateV1Beta1 := fun _ _ => none }

end fluentoperator

namespace reconcile

/-! ## The branches of one step -/

theorem query_ok_eq (r : Reconciler) (h : History)
    (hq : (r.IsClusterProvisionedByRancher h).2 = none) :
    r.IsClusterProvisionedByRancher h = ((r.IsClusterProvisionedByRancher h).1, none) :=
  Prod.ext rfl hq

theorem exec_query_err (r : Reconciler) (comp : Component) (s : componentState) (h : History)
    (b : Bool) (err : GoError) (hq : r.IsClusterProvisionedByRancher h = (b, some err)) :
    executeComponentUninstallState r comp s h
      = (("", some err), [Event.IsClusterProvisionedByRancher b (some err)]) := by
  unfold executeComponentUninstallState
  simp [hq]

theorem exec_start_unsupported (r : Reconciler) (comp : Component) (h : History) (b : Bool)
    (hq : r.IsClusterProvisionedByRancher h = (b, none))
    (hs : comp.IsOperatorUninstallSupported = false) :
    executeComponentUninstallState r comp compStateUninstallStart h
      = ((compStateUninstallEnd, none), [Event.IsClusterProvisionedByRancher b none]) := by
  unfold executeComponentUninstallState
  simp [hq, hs]

theorem exec_start_asks (r : Reconciler) (comp : Component) (h : History) (i : Bool)
    (e : Option GoError)
    (hi : Event.IsInstalled comp.Name i e
      ∈ (executeComponentUninstallState r comp compStateUninstallStart h).2) :
    ∃ b, r.IsClusterProvisionedByRancher h = (b, none)
      ∧ comp.IsOperatorUninstallSupported = true
      ∧ ¬ (comp.Name = r.ComponentName ∧ b = true)
      ∧ comp.IsInstalled (h ++ [Event.IsClusterProvisionedByRancher b none]) = (i, e) := by
  unfold executeComponentUninstallState at hi
  rcases hq : r.IsClusterProvisionedByRancher h with ⟨p, _ | qe⟩
  · rw [hq] at hi
    refine ⟨p, rfl, ?_⟩
    cases hs : comp.IsOperatorUninstallSupported
    · simp [hs] at hi
    · by_cases hk : comp.Name = r.ComponentName ∧ p = true
      · simp [hs, hk] at hi
      · rcases hc : comp.IsInstalled (h ++ [Event.IsClusterProvisionedByRancher p none])
          with ⟨i, _ | ie⟩
        · cases i <;> cases hu : r.updateComponentStatus comp.Name "Uninstall started"
            ConditionType.CondUninstallStarted
            (h ++ ([Event.IsClusterProvisionedByRancher p none]
              ++ [Event.IsInstalled comp.Name true none])) <;>
            simp_all
        · simp_all
  · rw [hq] at hi
    simp at hi

theorem exec_start_skip (r : Reconciler) (comp : Component) (h : History) (b : Bool)
    (hq : r.IsClusterProvisionedByRancher h = (b, none))
    (hs : comp.IsOperatorUninstallSupported = true)
    (hk : comp.Name = r.ComponentName ∧ b = true) :
    executeComponentUninstallState r comp compStateUninstallStart h
      = ((compStateUninstallEnd, none),
          [Event.IsClusterProvisionedByRancher b none,
            Event.Oncef ("Cluster was provisioned by Rancher. Component "
              ++ r.ComponentName ++ " will not be uninstalled.")]) := by
  unfold executeComponentUninstallState
  simp [hq, hs, hk]

theorem exec_start_installed (r : Reconciler) (comp : Component) (h : History) (b : Bool)
    (hq : r.IsClusterProvisionedByRancher h = (b, none))
    (hs : comp.IsOperatorUninstallSupported = true)
    (hk : ¬ (comp.Name = r.ComponentName ∧ b = true))
    (hi : comp.IsInstalled (h ++ [Event.IsClusterProvisionedByRancher b none]) = (true, none)) :
    executeComponentUninstallState r comp compStateUninstallStart h
      = (match r.updateComponentStatus comp.Name "Uninstall started"
            ConditionType.CondUninstallStarted
            (h ++ [Event.IsClusterProvisionedByRancher b none,
              Event.IsInstalled comp.Name true none]) with
          | some err =>
            (("", some err),
              [Event.IsClusterProvisionedByRancher b none,
                Event.IsInstalled comp.Name true none,
                Event.updateComponentStatus comp.Name "Uninstall started"
                  ConditionType.CondUninstallStarted (some err)])
          | none =>
            ((compStatePreUninstall, none),
              [Event.IsClusterProvisionedByRancher b none,
                Event.IsInstalled comp.Name true none,
                Event.updateComponentStatus comp.Name "Uninstall started"
                  ConditionType.CondUninstallStarted none,
                Event.Oncef ("Component " ++ comp.Name ++ " is starting to uninstall")])) := by
  unfold executeComponentUninstallState
  simp [hq, hs, hk, hi]
  split <;> simp_all

theorem exec_start_not_installed (r : Reconciler) (comp : Component) (h : History) (b : Bool)
    (hq : r.IsClusterProvisionedByRancher h = (b, none))
    (hs : comp.IsOperatorUninstallSupported = true)
    (hk : ¬ (comp.Name = r.ComponentName ∧ b = true))
    (hi : comp.IsInstalled (h ++ [Event.IsClusterProvisionedByRancher b none]) = (false, none)) :
    executeComponentUninstallState r comp compStateUninstallStart h
      = ((compStateUninstallEnd, none),
          [Event.IsClusterProvisionedByRancher b none, Event.IsInstalled comp.Name false none,
            Event.Oncef ("Component " ++ comp.Name
              ++ " is not installed, nothing to do for uninstall")]) := by
  unfold executeComponentUninstallState
  simp [hq, hs, hk, hi]

theorem exec_start_check_failed (r : Reconciler) (comp : Component) (h : History) (b i : Bool)
    (err : GoError)
    (hq : r.IsClusterProvisionedByRancher h = (b, none))
    (hs : comp.IsOperatorUninstallSupported = true)
    (hk : ¬ (comp.Name = r.ComponentName ∧ b = true))
    (hi : comp.IsInstalled (h ++ [Event.IsClusterProvisionedByRancher b none])
      = (i, some err)) :
    executeComponentUninstallState r comp compStateUninstallStart h
      = ((compStateUninstallEnd, none),
          [Event.IsClusterProvisionedByRancher b none,
            Event.IsInstalled comp.Name i (some err),
            Event.Errorf ("Failed checking if component " ++ comp.Name
              ++ " is installed: " ++ err.msg)]) := by
  unfold executeComponentUninstallState
  simp [hq, hs, hk, hi]

theorem exec_pre (r : Reconciler) (comp : Component) (h : History) (b : Bool)
    (hq : r.IsClusterProvisionedByRancher h = (b, none)) :
    executeComponentUninstallState r comp compStatePreUninstall h
      = ((match comp.PreUninstall (h ++ [Event.IsClusterProvisionedByRancher b none,
              Event.Oncef ("Component " ++ comp.Name ++ " is calling pre-uninstall")]) with
          | some err => (compStatePreUninstall, some err)
          | none => (compStateUninstall, none)),
          [Event.IsClusterProvisionedByRancher b none,
            Event.Oncef ("Component " ++ comp.Name ++ " is calling pre-uninstall"),
            Event.PreUninstall comp.Name (comp.PreUninstall
              (h ++ [Event.IsClusterProvisionedByRancher b none,
                Event.Oncef ("Component " ++ comp.Name ++ " is calling pre-uninstall")]))]) := by
  unfold executeComponentUninstallState
  simp [hq, compStatePreUninstall, compStateUninstallStart]
  split <;> simp_all

theorem exec_uninstall_ok (r : Reconciler) (comp : Component) (h : History) (b : Bool)
    (hq : r.IsClusterProvisionedByRancher h = (b, none))
    (hu : comp.Uninstall (h ++ [Event.IsClusterProvisionedByRancher b none,
      Event.Progressf ("Component " ++ comp.Name ++ " is calling uninstall")]) = none) :
    executeComponentUninstallState r comp compStateUninstall h
      = ((compStateWaitUninstalled, none),
          [Event.IsClusterProvisionedByRancher b none,
            Event.Progressf ("Component " ++ comp.Name ++ " is calling uninstall"),
            Event.Uninstall comp.Name none]) := by
  unfold executeComponentUninstallState
  simp [hq, hu, compStatePreUninstall, compStateUninstallStart, compStateUninstall]

theorem exec_uninstall_err (r : Reconciler) (comp : Component) (h : History) (b : Bool)
    (err : GoError)
    (hq : r.IsClusterProvisionedByRancher h = (b, none))
    (hu : comp.Uninstall (h ++ [Event.IsClusterProvisionedByRancher b none,
      Event.Progressf ("Component " ++ comp.Name ++ " is calling uninstall")]) = some err) :
    (executeComponentUninstallState r comp compStateUninstall h).1 = ("", some err) := by
  unfold executeComponentUninstallState
  simp [hq, hu, compStatePreUninstall, compStateUninstallStart, compStateUninstall]
  split <;> rfl

theorem exec_wait_installed (r : Reconciler) (comp : Component) (h : History) (b : Bool)
    (hq : r.IsClusterProvisionedByRancher h = (b, none))
    (hi : comp.IsInstalled (h ++ [Event.IsClusterProvisionedByRancher b none]) = (true, none)) :
    executeComponentUninstallState r comp compStateWaitUninstalled h
      = ((compStateWaitUninstalled, none),
          [Event.IsClusterProvisionedByRancher b none, Event.IsInstalled comp.Name true none,
            Event.Progressf ("Waiting for component " ++ comp.Name ++ " to be uninstalled")]) := by
  unfold executeComponentUninstallState
  simp [hq, hi, compStatePreUninstall, compStateUninstallStart, compStateUninstall,
    compStateWaitUninstalled]

theorem exec_wait_gone_ok (r : Reconciler) (comp : Component) (h : History) (b : Bool)
    (hq : r.IsClusterProvisionedByRancher h = (b, none))
    (hi : comp.IsInstalled (h ++ [Event.IsClusterProvisionedByRancher b none]) = (false, none))
    (hp : comp.PostUninstall (h ++ [Event.IsClusterProvisionedByRancher b none,
      Event.IsInstalled comp.Name false none,
      Event.Progressf ("Component " ++ comp.Name
        ++ " has been uninstalled, running post-uninstall")]) = none) :
    executeComponentUninstallState r comp compStateWaitUninstalled h
      = ((compStateUninstalleDone, none),
          [Event.IsClusterProvisionedByRancher b none, Event.IsInstalled comp.Name false none,
            Event.Progressf ("Component " ++ comp.Name
              ++ " has been uninstalled, running post-uninstall"),
            Event.PostUninstall comp.Name none]) := by
  unfold executeComponentUninstallState
  simp [hq, hi, hp, compStatePreUninstall, compStateUninstallStart, compStateUninstall,
    compStateWaitUninstalled]

theorem exec_done (r : Reconciler) (comp : Component) (h : History) (b : Bool)
    (hq : r.IsClusterProvisionedByRancher h = (b, none)) :
    executeComponentUninstallState r comp compStateUninstalleDone h
      = (match r.updateComponentStatus comp.Name "Uninstall complete"
            ConditionType.CondUninstallComplete
            (h ++ [Event.IsClusterProvisionedByRancher b none]) with
          | some err =>
            ((compStateUninstalleDone, some err),
              [Event.IsClusterProvisionedByRancher b none,
                Event.updateComponentStatus comp.Name "Uninstall complete"
                  ConditionType.CondUninstallComplete (some err)])
          | none =>
            ((compStateUninstallEnd, none),
              [Event.IsClusterProvisionedByRancher b none,
                Event.updateComponentStatus comp.Name "Uninstall complete"
                  ConditionType.CondUninstallComplete none,
                Event.Oncef ("Component " ++ comp.Name ++ " has successfully uninstalled")])) := by
  unfold executeComponentUninstallState
  simp [hq, compStatePreUninstall, compStateUninstallStart, compStateUninstall,
    compStateWaitUninstalled, compStateUninstalleDone]
  split <;> simp_all

theorem exec_empty (r : Reconciler) (comp : Component) (h : History) (b : Bool)
    (hq : r.IsClusterProvisionedByRancher h = (b, none)) :
    executeComponentUninstallState r comp "" h
      = (("", none), [Event.IsClusterProvisionedByRancher b none]) := by
  unfold executeComponentUninstallState
  simp [hq, compStatePreUninstall, compStateUninstallStart, compStateUninstall,
    compStateWaitUninstalled, compStateUninstalleDone]

/-! ## C1: the order of the states -/

theorem visitedStates_end (r : Reconciler) (comp : Component) (n : Nat) (h : History) :
    visitedStates r comp n compStateUninstallEnd h = [compStateUninstallEnd] := by
  cases n <;> simp [visitedStates]

theorem visitedStates_step (r : Reconciler) (comp : Component) (n : Nat) (s : componentState)
    (h : History) (hs : s ≠ compStateUninstallEnd) :
    visitedStates r comp (n + 1) s h
      = s :: visitedStates r comp n (executeComponentUninstallState r comp s h).1.1
          (h ++ (executeComponentUninstallState r comp s h).2) := by
  simp [visitedStates, hs]

theorem installedChecks_query (name : String) (h : History) (b : Bool) (e : Option GoError) :
    installedChecks name (h ++ [Event.IsClusterProvisionedByRancher b e])
      = installedChecks name h := by
  simp [installedChecks, Event.isInstalledCheck]

theorem visitedStates_wait (r : Reconciler) (comp : Component) (c0 c : Nat)
    (hq : ∀ h, (r.IsClusterProvisionedByRancher h).2 = none)
    (hst : ∀ msg cond h, r.updateComponentStatus comp.Name msg cond h = none)
    (hpost : ∀ h, comp.PostUninstall h = none)
    (hT : ∀ h, c0 < installedChecks comp.Name h → installedChecks comp.Name h < c →
      comp.IsInstalled h = (true, none))
    (hF : ∀ h, installedChecks comp.Name h = c → comp.IsInstalled h = (false, none)) :
    ∀ (m : Nat) (h : History) (fuel : Nat), installedChecks comp.Name h + m = c →
      c0 < installedChecks comp.Name h → m + 2 ≤ fuel →
      visitedStates r comp fuel compStateWaitUninstalled h
        = List.replicate (m + 1) compStateWaitUninstalled
            ++ [compStateUninstalleDone, compStateUninstallEnd] := by
  intro m
  induction m with
  | zero =>
    intro h fuel hc hlt hfuel
    obtain ⟨f, rfl⟩ : ∃ f, fuel = f + 2 := ⟨fuel - 2, by omega⟩
    have hq0 := query_ok_eq r h (hq h)
    have hi := hF (h ++ [Event.IsClusterProvisionedByRancher
      (r.IsClusterProvisionedByRancher h).1 none]) (by rw [installedChecks_query]; omega)
    rw [visitedStates_step _ _ _ _ _ (by simp [compStateWaitUninstalled, compStateUninstallEnd]),
      exec_wait_gone_ok r comp h _ hq0 hi (hpost _)]
    simp only []
    rw [visitedStates_step _ _ _ _ _ (by simp [compStateUninstalleDone, compStateUninstallEnd]),
      exec_done r comp _ _ (query_ok_eq r _ (hq _)), hst]
    simp [visitedStates_end]
  | succ m ih =>
    intro h fuel hc hlt hfuel
    obtain ⟨f, rfl⟩ : ∃ f, fuel = f + 1 := ⟨fuel - 1, by omega⟩
    have hq0 := query_ok_eq r h (hq h)
    have hi := hT (h ++ [Event.IsClusterProvisionedByRancher
      (r.IsClusterProvisionedByRancher h).1 none]) (by rw [installedChecks_query]; omega)
      (by rw [installedChecks_query]; omega)
    rw [visitedStates_step _ _ _ _ _ (by simp [compStateWaitUninstalled, compStateUninstallEnd]),
      exec_wait_installed r comp h _ hq0 hi]
    simp only []
    rw [ih _ f (by
      simp [installedChecks, Event.isInstalledCheck] at hc ⊢
      omega) (by
      simp [installedChecks, Event.isInstalledCheck] at hlt ⊢
      omega) (by omega)]
    simp [List.replicate_succ]

/-- C1: for a component whose hooks, status updates and queries all succeed, whose
`IsInstalled` hook is asked at Start and answers true, then answers true on its
next `n` calls and false on the call after them, repeated application of
`executeComponentUninstallState` from `compStateUninstallStart` visits Start,
PreUninstall, Uninstall, then WaitUninstalled `n + 1` times (once for each poll that
finds the component installed and once for the poll that does not), then Done and
End, and nothing else. -/
theorem C1_monotonic_progress (r : Reconciler) (comp : Component) (h0 : History)
    (n fuel : Nat)
    (hq : ∀ h, (r.IsClusterProvisionedByRancher h).2 = none)
    (hst : ∀ msg cond h, r.updateComponentStatus comp.Name msg cond h = none)
    (hpre : ∀ h, comp.PreUninstall h = none)
    (hun : ∀ h, comp.Uninstall h = none)
    (hpost : ∀ h, comp.PostUninstall h = none)
    (hstart : Event.IsInstalled comp.Name true none
      ∈ (executeComponentUninstallState r comp compStateUninstallStart h0).2)
    (hwaitT : ∀ h, installedChecks comp.Name h0 < installedChecks comp.Name h →
      installedChecks comp.Name h ≤ installedChecks comp.Name h0 + n →
      comp.IsInstalled h = (true, none))
    (hwaitF : ∀ h, installedChecks comp.Name h = installedChecks comp.Name h0 + n + 1 →
      comp.IsInstalled h = (false, none))
    (hfuel : n + 5 ≤ fuel) :
    visitedStates r comp fuel compStateUninstallStart h0
      = [compStateUninstallStart, compStatePreUninstall, compStateUninstall]
          ++ List.replicate (n + 1) compStateWaitUninstalled
          ++ [compStateUninstalleDone, compStateUninstallEnd] := by
  obtain ⟨f, rfl⟩ : ∃ f, fuel = f + 3 := ⟨fuel - 3, by omega⟩
  obtain ⟨b, hq0, hs, hk, hi⟩ := exec_start_asks r comp h0 true none hstart
  rw [visitedStates_step _ _ _ _ _ (by simp [compStateUninstallStart, compStateUninstallEnd]),
    exec_start_installed r comp h0 b hq0 hs hk hi, hst]
  simp only []
  rw [visitedStates_step _ _ _ _ _ (by simp [compStatePreUninstall, compStateUninstallEnd]),
    exec_pre r comp _ _ (query_ok_eq r _ (hq _)), hpre]
  simp only []
  rw [visitedStates_step _ _ _ _ _ (by simp [compStateUninstall, compStateUninstallEnd]),
    exec_uninstall_ok r comp _ _ (query_ok_eq r _ (hq _)) (hun _)]
  simp only []
  rw [visitedStates_wait r comp (installedChecks comp.Name h0)
    (installedChecks comp.Name h0 + n + 1) hq hst hpost
    (fun h h1 h2 => hwaitT h h1 (by omega)) hwaitF n _ f
    (by simp [installedChecks, Event.isInstalledCheck]; omega)
    (by simp [installedChecks, Event.isInstalledCheck]) (by omega)]
  simp


/-- C1 evaluated on a component that is still installed at two polls. -/
theorem C1_monotonic_progress_witness :
    visitedStates (healthyReconciler []) (pollingComponent "c" 2) 7 compStateUninstallStart []
      = [compStateUninstallStart, compStatePreUninstall, compStateUninstall]
          ++ List.replicate (2 + 1) compStateWaitUninstalled
          ++ [compStateUninstalleDone, compStateUninstallEnd] :=
  C1_monotonic_progress (healthyReconciler []) (pollingComponent "c" 2) [] 2 7
    (fun _ => rfl) (fun _ _ _ => rfl) (fun _ => rfl) (fun _ => rfl) (fun _ => rfl)
    (by decide)
    (fun h _ h2 => by
      have h3 : installedChecks "c" h ≤ 2 := h2
      simp [pollingComponent, h3])
    (fun h h1 => by
      have h3 : installedChecks "c" h = 3 := h1
      simp [pollingComponent, h3])
    (by decide)

/-! ## The loop of `uninstallSingleComponent` -/

theorem usc_end (r : Reconciler) (fuel : Nat) (comp : Component) (h : History) :
    uninstallSingleComponent r fuel ⟨compStateUninstallEnd⟩ comp h
      = some ((⟨false, 0⟩, none), ⟨compStateUninstallEnd⟩, h) := by
  unfold uninstallSingleComponent
  simp

theorem usc_zero (r : Reconciler) (s : componentState) (comp : Component) (h : History)
    (hs : s ≠ compStateUninstallEnd) :
    uninstallSingleComponent r 0 ⟨s⟩ comp h = none := by
  unfold uninstallSingleComponent
  simp [hs]

theorem usc_err (r : Reconciler) (fuel : Nat) (s : componentState) (comp : Component)
    (h : History) (err : GoError) (hs : s ≠ compStateUninstallEnd)
    (he : (executeComponentUninstallState r comp s h).1.2 = some err) :
    uninstallSingleComponent r (fuel + 1) ⟨s⟩ comp h
      = some ((newRequeueWithDelay r (h ++ (executeComponentUninstallState r comp s h).2),
          some err), ⟨(executeComponentUninstallState r comp s h).1.1⟩,
          h ++ (executeComponentUninstallState r comp s h).2) := by
  rw [uninstallSingleComponent]
  simp [hs, he]

theorem usc_ok (r : Reconciler) (fuel : Nat) (s : componentState) (comp : Component)
    (h : History) (hs : s ≠ compStateUninstallEnd)
    (he : (executeComponentUninstallState r comp s h).1.2 = none) :
    uninstallSingleComponent r (fuel + 1) ⟨s⟩ comp h
      = uninstallSingleComponent r fuel ⟨(executeComponentUninstallState r comp s h).1.1⟩ comp
          (h ++ (executeComponentUninstallState r comp s h).2) := by
  rw [uninstallSingleComponent]
  simp [hs, he]

theorem start_ne_end : compStateUninstallStart ≠ compStateUninstallEnd := by decide
theorem pre_ne_end : compStatePreUninstall ≠ compStateUninstallEnd := by decide
theorem uninstall_ne_end : compStateUninstall ≠ compStateUninstallEnd := by decide
theorem wait_ne_end : compStateWaitUninstalled ≠ compStateUninstallEnd := by decide
theorem done_ne_end : compStateUninstalleDone ≠ compStateUninstallEnd := by decide
theorem empty_ne_end : ("" : componentState) ≠ compStateUninstallEnd := by decide

/-- Once the provisioning query succeeds at every history, a component in the empty
state is stepped for ever: no amount of fuel lets the loop return. -/
theorem usc_empty_state_diverges (r : Reconciler) (comp : Component)
    (hq : ∀ h, (r.IsClusterProvisionedByRancher h).2 = none) :
    ∀ (fuel : Nat) (h : History), uninstallSingleComponent r fuel ⟨""⟩ comp h = none := by
  intro fuel
  induction fuel with
  | zero => intro h; exact usc_zero r "" comp h empty_ne_end
  | succ n ih =>
    intro h
    rw [usc_ok r n "" comp h empty_ne_end
      (by rw [exec_empty r comp h _ (query_ok_eq r h (hq h))]),
      exec_empty r comp h _ (query_ok_eq r h (hq h))]
    exact ih _

theorem usc_from_done (r : Reconciler) (c : Component) (h : History) (fuel : Nat)
    (hq : ∀ h, (r.IsClusterProvisionedByRancher h).2 = none)
    (hgood : succeedsFully r c) (hfuel : 1 ≤ fuel) :
    ∃ evs, uninstallSingleComponent r fuel ⟨compStateUninstalleDone⟩ c h
        = some ((⟨false, 0⟩, none), ⟨compStateUninstallEnd⟩, h ++ evs)
      ∧ evs.countP (Event.isPostUninstallOf c.Name) = 0 := by
  obtain ⟨hpre, hun, hpost, hst, hie, hgone⟩ := hgood
  obtain ⟨f, rfl⟩ : ∃ f, fuel = f + 1 := ⟨fuel - 1, by omega⟩
  have e1 := exec_done r c h _ (query_ok_eq r h (hq h))
  rw [hst] at e1
  simp only [] at e1
  rw [usc_ok r _ _ c h done_ne_end (by rw [e1]), e1]
  simp only []
  exact ⟨_, usc_end r f c _, by simp [Event.isPostUninstallOf]⟩

theorem usc_from_wait (r : Reconciler) (c : Component) (h : History) (fuel : Nat)
    (hq : ∀ h, (r.IsClusterProvisionedByRancher h).2 = none)
    (hi : c.IsInstalled (h ++ [Event.IsClusterProvisionedByRancher
      (r.IsClusterProvisionedByRancher h).1 none]) = (false, none))
    (hgood : succeedsFully r c) (hfuel : 2 ≤ fuel) :
    ∃ evs, uninstallSingleComponent r fuel ⟨compStateWaitUninstalled⟩ c h
        = some ((⟨false, 0⟩, none), ⟨compStateUninstallEnd⟩, h ++ evs)
      ∧ evs.countP (Event.isPostUninstallOf c.Name) = 1 := by
  obtain ⟨f, rfl⟩ : ∃ f, fuel = f + 1 := ⟨fuel - 1, by omega⟩
  have e1 := exec_wait_gone_ok r c h _ (query_ok_eq r h (hq h)) hi (hgood.2.2.1 _)
  rw [usc_ok r _ _ c h wait_ne_end (by rw [e1]), e1]
  simp only []
  obtain ⟨evs, h1, h2⟩ := usc_from_done r c
    (h ++ [Event.IsClusterProvisionedByRancher (r.IsClusterProvisionedByRancher h).1 none,
      Event.IsInstalled c.Name false none,
      Event.Progressf ("Component " ++ c.Name
        ++ " has been uninstalled, running post-uninstall"),
      Event.PostUninstall c.Name none]) f hq hgood (by omega)
  apply Exists.intro
  refine ⟨?_, ?_⟩
  · rw [h1, List.append_assoc]
  · simp [Event.isPostUninstallOf, h2]

theorem usc_from_uninstall (r : Reconciler) (c : Component) (h : History) (fuel : Nat)
    (hq : ∀ h, (r.IsClusterProvisionedByRancher h).2 = none)
    (hgood : succeedsFully r c) (hfuel : 3 ≤ fuel) :
    ∃ evs, uninstallSingleComponent r fuel ⟨compStateUninstall⟩ c h
        = some ((⟨false, 0⟩, none), ⟨compStateUninstallEnd⟩, h ++ evs)
      ∧ evs.countP (Event.isPostUninstallOf c.Name) = 1 := by
  obtain ⟨f, rfl⟩ : ∃ f, fuel = f + 1 := ⟨fuel - 1, by omega⟩
  have e1 := exec_uninstall_ok r c h _ (query_ok_eq r h (hq h)) (hgood.2.1 _)
  rw [usc_ok r _ _ c h uninstall_ne_end (by rw [e1]), e1]
  simp only []
  obtain ⟨evs, h1, h2⟩ := usc_from_wait r c
    (h ++ [Event.IsClusterProvisionedByRancher (r.IsClusterProvisionedByRancher h).1 none,
      Event.Progressf ("Component " ++ c.Name ++ " is calling uninstall"),
      Event.Uninstall c.Name none]) f hq
    (Prod.ext (hgood.2.2.2.2.2 _ (by simp)) (hgood.2.2.2.2.1 _)) hgood (by omega)
  apply Exists.intro
  refine ⟨?_, ?_⟩
  · rw [h1, List.append_assoc]
  · simp [Event.isPostUninstallOf, h2]

theorem usc_from_pre (r : Reconciler) (c : Component) (h : History) (fuel : Nat)
    (hq : ∀ h, (r.IsClusterProvisionedByRancher h).2 = none)
    (hgood : succeedsFully r c) (hfuel : 4 ≤ fuel) :
    ∃ evs, uninstallSingleComponent r fuel ⟨compStatePreUninstall⟩ c h
        = some ((⟨false, 0⟩, none), ⟨compStateUninstallEnd⟩, h ++ evs)
      ∧ evs.countP (Event.isPostUninstallOf c.Name) = 1 := by
  obtain ⟨f, rfl⟩ : ∃ f, fuel = f + 1 := ⟨fuel - 1, by omega⟩
  have e1 := exec_pre r c h _ (query_ok_eq r h (hq h))
  rw [hgood.1] at e1
  simp only [] at e1
  rw [usc_ok r _ _ c h pre_ne_end (by rw [e1]), e1]
  simp only []
  obtain ⟨evs, h1, h2⟩ := usc_from_uninstall r c
    (h ++ [Event.IsClusterProvisionedByRancher (r.IsClusterProvisionedByRancher h).1 none,
      Event.Oncef ("Component " ++ c.Name ++ " is calling pre-uninstall"),
      Event.PreUninstall c.Name none]) f hq hgood (by omega)
  apply Exists.intro
  refine ⟨?_, ?_⟩
  · rw [h1, List.append_assoc]
  · simp [Event.isPostUninstallOf, h2]

/-- A component that supports operator uninstall, is not skipped, is installed at
Start and succeeds fully is taken from Start to End within five steps, with exactly
one call of its `PostUninstall` hook. -/
theorem usc_full_uninstall (r : Reconciler) (c : Component) (h : History) (fuel : Nat)
    (hq : ∀ h, (r.IsClusterProvisionedByRancher h).2 = none)
    (hs : c.IsOperatorUninstallSupported = true)
    (hk : ¬ (c.Name = r.ComponentName ∧ (r.IsClusterProvisionedByRancher h).1 = true))
    (hi : c.IsInstalled (h ++ [Event.IsClusterProvisionedByRancher
      (r.IsClusterProvisionedByRancher h).1 none]) = (true, none))
    (hgood : succeedsFully r c) (hfuel : 5 ≤ fuel) :
    ∃ evs, uninstallSingleComponent r fuel ⟨compStateUninstallStart⟩ c h
        = some ((⟨false, 0⟩, none), ⟨compStateUninstallEnd⟩, h ++ evs)
      ∧ evs.countP (Event.isPostUninstallOf c.Name) = 1 := by
  obtain ⟨f, rfl⟩ : ∃ f, fuel = f + 1 := ⟨fuel - 1, by omega⟩
  have e1 := exec_start_installed r c h _ (query_ok_eq r h (hq h)) hs hk hi
  rw [hgood.2.2.2.1] at e1
  simp only [] at e1
  rw [usc_ok r _ _ c h start_ne_end (by rw [e1]), e1]
  simp only []
  obtain ⟨evs, h1, h2⟩ := usc_from_pre r c
    (h ++ [Event.IsClusterProvisionedByRancher (r.IsClusterProvisionedByRancher h).1 none,
      Event.IsInstalled c.Name true none,
      Event.updateComponentStatus c.Name "Uninstall started"
        ConditionType.CondUninstallStarted none,
      Event.Oncef ("Component " ++ c.Name ++ " is starting to uninstall")]) f hq hgood
    (by omega)
  apply Exists.intro
  refine ⟨?_, ?_⟩
  · rw [h1, List.append_assoc]
  · simp [Event.isPostUninstallOf, h2]

/-- A component that succeeds fully is taken from Start to End within five steps,
whether or not it supports operator uninstall, is skipped or is installed. -/
theorem usc_succeeds (r : Reconciler) (c : Component) (h : History) (fuel : Nat)
    (hq : ∀ h, (r.IsClusterProvisionedByRancher h).2 = none)
    (hgood : succeedsFully r c) (hfuel : 5 ≤ fuel) :
    ∃ evs, uninstallSingleComponent r fuel ⟨compStateUninstallStart⟩ c h
      = some ((⟨false, 0⟩, none), ⟨compStateUninstallEnd⟩, h ++ evs) := by
  obtain ⟨f, rfl⟩ : ∃ f, fuel = f + 1 := ⟨fuel - 1, by omega⟩
  have hq0 := query_ok_eq r h (hq h)
  cases hs : c.IsOperatorUninstallSupported with
  | false =>
    have e1 := exec_start_unsupported r c h _ hq0 hs
    rw [usc_ok r _ _ c h start_ne_end (by rw [e1]), e1]
    exact ⟨_, usc_end r f c _⟩
  | true =>
    by_cases hk : c.Name = r.ComponentName ∧ (r.IsClusterProvisionedByRancher h).1 = true
    · have e1 := exec_start_skip r c h _ hq0 hs hk
      rw [usc_ok r _ _ c h start_ne_end (by rw [e1]), e1]
      exact ⟨_, usc_end r f c _⟩
    · cases hi : (c.IsInstalled (h ++ [Event.IsClusterProvisionedByRancher
        (r.IsClusterProvisionedByRancher h).1 none])).1 with
      | false =>
        have e1 := exec_start_not_installed r c h _ hq0 hs hk
          (Prod.ext hi (hgood.2.2.2.2.1 _))
        rw [usc_ok r _ _ c h start_ne_end (by rw [e1]), e1]
        exact ⟨_, usc_end r f c _⟩
      | true =>
        obtain ⟨evs, h1, _⟩ := usc_full_uninstall r c h (f + 1) hq hs hk
          (Prod.ext hi (hgood.2.2.2.2.1 _)) hgood hfuel
        exact ⟨evs, h1⟩

/-! ## What one step can return and which calls it makes -/

theorem pre_event_state (r : Reconciler) (comp : Component) (s : componentState) (h : History)
    (c : String) (e : Option GoError)
    (hmem : Event.PreUninstall c e ∈ (executeComponentUninstallState r comp s h).2) :
    s = compStatePreUninstall ∧ ∃ b, r.IsClusterProvisionedByRancher h = (b, none) := by
  unfold executeComponentUninstallState at hmem
  rcases hq : r.IsClusterProvisionedByRancher h with ⟨b, _ | qe⟩
  · refine ⟨?_, b, rfl⟩
    by_contra hne
    rw [hq] at hmem
    simp only [hne, if_false] at hmem
    repeat' split at hmem
    all_goals simp at hmem
  · rw [hq] at hmem
    simp at hmem

theorem exec_events_component_all (r : Reconciler) (comp : Component) (s : componentState)
    (h : History) :
    (executeComponentUninstallState r comp s h).2.all
      (fun e => e.component == none || e.component == some comp.Name) = true := by
  unfold executeComponentUninstallState
  rcases hq : r.IsClusterProvisionedByRancher h with ⟨b, _ | qe⟩
  · simp only []
    repeat' split
    all_goals simp [Event.component]
  · simp [Event.component]

/-- Every hook call and status update of a step is a call on the component stepped. -/
theorem exec_events_component (r : Reconciler) (comp : Component) (s : componentState)
    (h : History) :
    ∀ e ∈ (executeComponentUninstallState r comp s h).2,
      e.component = none ∨ e.component = some comp.Name := by
  intro e he
  have hall := exec_events_component_all r comp s h
  rw [List.all_eq_true] at hall
  simpa using hall e he

/-- With the provisioning query succeeding, a step from Start returns End, or the
state of the pre-uninstall, or the empty state together with an error. -/
theorem exec_start_result (r : Reconciler) (comp : Component) (h : History)
    (hq : (r.IsClusterProvisionedByRancher h).2 = none) :
    (executeComponentUninstallState r comp compStateUninstallStart h).1
        = (compStateUninstallEnd, none)
      ∨ (executeComponentUninstallState r comp compStateUninstallStart h).1
        = (compStatePreUninstall, none)
      ∨ ∃ e, (executeComponentUninstallState r comp compStateUninstallStart h).1
        = ("", some e) := by
  unfold executeComponentUninstallState
  rw [query_ok_eq r h hq]
  simp only [↓reduceIte]
  repeat' split
  all_goals simp

/-! ## The tracker and the loop over the components -/

theorem store_same (t : UninstallTracker) (n : String) (c : componentUninstallContext) :
    (t.store n c).compMap n = some c := by
  simp [UninstallTracker.store]

theorem store_other (t : UninstallTracker) (n m : String) (c : componentUninstallContext)
    (hne : m ≠ n) : (t.store n c).compMap m = t.compMap m := by
  simp [UninstallTracker.store, hne]

theorem get_absent (t : UninstallTracker) (n : String) (hn : t.compMap n = none) :
    t.getComponentUninstallContext n
      = (⟨compStateUninstallStart⟩, t.store n ⟨compStateUninstallStart⟩) := by
  simp [UninstallTracker.getComponentUninstallContext, hn]

theorem get_present (t : UninstallTracker) (n : String) (c : componentUninstallContext)
    (hn : t.compMap n = some c) :
    t.getComponentUninstallContext n = (c, t) := by
  simp [UninstallTracker.getComponentUninstallContext, hn]

theorem get_other (t : UninstallTracker) (n m : String) (hne : m ≠ n) :
    (t.getComponentUninstallContext n).2.compMap m = t.compMap m := by
  unfold UninstallTracker.getComponentUninstallContext
  split
  · rfl
  · exact store_other t n m _ hne

theorem loop_nil (r : Reconciler) (fuel : Nat) (rq : Bool) (t : UninstallTracker)
    (h : History) : uninstallComponentsLoop r fuel [] rq t h = some (rq, t, h) := rfl

theorem loop_cons (r : Reconciler) (fuel : Nat) (comp : Component) (rest : List Component)
    (rq : Bool) (t : UninstallTracker) (h h1 : History) (res : Result × Option GoError)
    (ctx : componentUninstallContext)
    (hu : uninstallSingleComponent r fuel (t.getComponentUninstallContext comp.Name).1 comp h
      = some (res, ctx, h1)) :
    uninstallComponentsLoop r fuel (comp :: rest) rq t h
      = uninstallComponentsLoop r fuel rest
          (if res.2.isSome ∨ res.1.Requeue = true then true else rq)
          ((t.getComponentUninstallContext comp.Name).2.store comp.Name ctx) h1 := by
  rw [uninstallComponentsLoop]
  simp only [hu]

theorem loop_cons_none (r : Reconciler) (fuel : Nat) (comp : Component)
    (rest : List Component) (rq : Bool) (t : UninstallTracker) (h : History)
    (hu : uninstallSingleComponent r fuel (t.getComponentUninstallContext comp.Name).1 comp h
      = none) :
    uninstallComponentsLoop r fuel (comp :: rest) rq t h = none := by
  rw [uninstallComponentsLoop]
  simp only [hu]

/-- The history that `uninstallSingleComponent` returns extends the history it was
given by calls that are on no component or on the component processed. -/
theorem usc_frame (r : Reconciler) (comp : Component) :
    ∀ (fuel : Nat) (ctx ctx1 : componentUninstallContext) (h h1 : History)
      (res : Result × Option GoError),
      uninstallSingleComponent r fuel ctx comp h = some (res, ctx1, h1) →
      ∃ evs, h1 = h ++ evs
        ∧ ∀ e ∈ evs, e.component = none ∨ e.component = some comp.Name := by
  intro fuel
  induction fuel with
  | zero =>
    intro ctx ctx1 h h1 res hu
    rw [uninstallSingleComponent] at hu
    split at hu
    · simp only [Option.some.injEq, Prod.mk.injEq] at hu
      exact ⟨[], by simp [hu.2.2], by simp⟩
    · simp at hu
  | succ n ih =>
    intro ctx ctx1 h h1 res hu
    rw [uninstallSingleComponent] at hu
    split at hu
    · simp only [Option.some.injEq, Prod.mk.injEq] at hu
      exact ⟨[], by simp [hu.2.2], by simp⟩
    · simp only [] at hu
      split at hu
      · simp only [Option.some.injEq, Prod.mk.injEq] at hu
        exact ⟨_, hu.2.2.symm, exec_events_component r comp ctx.state h⟩
      · obtain ⟨evs, he, hc⟩ := ih _ _ _ _ _ hu
        refine ⟨(executeComponentUninstallState r comp ctx.state h).2 ++ evs, ?_, ?_⟩
        · rw [he, List.append_assoc]
        · intro e hmem
          rcases List.mem_append.1 hmem with hm | hm
          · exact exec_events_component r comp ctx.state h e hm
          · exact hc e hm

/-! ## Facts about the concrete components -/

theorem uninstalledIn_of_mem (n : String) :
    ∀ h : History, Event.Uninstall n none ∈ h → uninstalledIn n h = true
  | [], hm => by simp at hm
  | e :: t, hm => by
    rcases List.mem_cons.1 hm with rfl | hm
    · simp [uninstalledIn]
    · have ih := uninstalledIn_of_mem n t hm
      unfold uninstalledIn
      split <;> simp_all

theorem plainComponent_succeedsFully (comps : List Component) (n : String) :
    succeedsFully (healthyReconciler comps) (plainComponent n) :=
  ⟨fun _ => rfl, fun _ => rfl, fun _ => rfl, fun _ _ _ => rfl, fun _ => rfl,
    fun h hm => by simp [plainComponent, uninstalledIn_of_mem n h hm]⟩

theorem mem_of_uninstalledIn (n : String) :
    ∀ h : History, uninstalledIn n h = true → Event.Uninstall n none ∈ h
  | [], hu => by simp [uninstalledIn] at hu
  | e :: t, hu => by
    cases e with
    | Uninstall c err =>
      cases err with
      | none =>
        simp only [uninstalledIn, Bool.or_eq_true, beq_iff_eq] at hu
        rcases hu with rfl | hu
        · exact List.mem_cons_self _ _
        · exact List.mem_cons_of_mem _ (mem_of_uninstalledIn n t hu)
      | some _ =>
        simp only [uninstalledIn] at hu
        exact List.mem_cons_of_mem _ (mem_of_uninstalledIn n t hu)
    | _ =>
      simp only [uninstalledIn] at hu
      exact List.mem_cons_of_mem _ (mem_of_uninstalledIn n t hu)

/-! ## C2: components without operator uninstall support -/

theorem usc_unsupported (r : Reconciler) (c : Component) (h : History) (fuel : Nat)
    (hq : ∀ h, (r.IsClusterProvisionedByRancher h).2 = none)
    (hs : c.IsOperatorUninstallSupported = false) (hfuel : 1 ≤ fuel) :
    uninstallSingleComponent r fuel ⟨compStateUninstallStart⟩ c h
      = some ((⟨false, 0⟩, none), ⟨compStateUninstallEnd⟩,
          h ++ [Event.IsClusterProvisionedByRancher (r.IsClusterProvisionedByRancher h).1 none]) := by
  obtain ⟨f, rfl⟩ : ∃ f, fuel = f + 1 := ⟨fuel - 1, by omega⟩
  have e1 := exec_start_unsupported r c h _ (query_ok_eq r h (hq h)) hs
  rw [usc_ok r _ _ c h start_ne_end (by rw [e1]), e1]
  exact usc_end r f c _

theorem loop_unsupported (r : Reconciler) (fuel : Nat)
    (hq : ∀ h, (r.IsClusterProvisionedByRancher h).2 = none) (hfuel : 1 ≤ fuel) :
    ∀ (cs : List Component) (rq : Bool) (t : UninstallTracker) (h : History),
      (∀ c ∈ cs, c.IsOperatorUninstallSupported = false) →
      (∀ n, t.compMap n = none ∨ t.compMap n = some ⟨compStateUninstallEnd⟩) →
      ∃ t1 evs, uninstallComponentsLoop r fuel cs rq t h = some (rq, t1, h ++ evs)
        ∧ (∀ n, t1.compMap n = none ∨ t1.compMap n = some ⟨compStateUninstallEnd⟩)
        ∧ (∀ n, t.compMap n = some ⟨compStateUninstallEnd⟩ →
            t1.compMap n = some ⟨compStateUninstallEnd⟩)
        ∧ (∀ c ∈ cs, t1.compMap c.Name = some ⟨compStateUninstallEnd⟩)
        ∧ evs.countP Event.isStatusUpdate = 0 ∧ evs.countP Event.isHookCall = 0 := by
  intro cs
  induction cs with
  | nil =>
    intro rq t h _ hinv
    exact ⟨t, [], by simp [loop_nil], hinv, fun _ hn => hn, by simp, by simp, by simp⟩
  | cons c rest ih =>
    intro rq t h hall hinv
    have hs := hall c (List.mem_cons_self _ _)
    have hrest : ∀ c ∈ rest, c.IsOperatorUninstallSupported = false :=
      fun c hc => hall c (List.mem_cons_of_mem _ hc)
    have hstore : ∀ t0 : UninstallTracker,
        (∀ n, t0.compMap n = none ∨ t0.compMap n = some ⟨compStateUninstallEnd⟩) →
        ∀ n, (t0.store c.Name ⟨compStateUninstallEnd⟩).compMap n = none
          ∨ (t0.store c.Name ⟨compStateUninstallEnd⟩).compMap n
            = some ⟨compStateUninstallEnd⟩ := by
      intro t0 h0 n
      by_cases hn : n = c.Name
      · subst hn; exact Or.inr (store_same _ _ _)
      · rw [store_other _ _ _ _ hn]; exact h0 n
    rcases hinv c.Name with hnone | hend
    · have hg := get_absent t c.Name hnone
      have hu := usc_unsupported r c h fuel hq hs hfuel
      rw [loop_cons r fuel c rest rq t h _ _ _ (by rw [hg]; exact hu), hg]
      simp only [Option.isSome_none, Bool.false_eq_true, or_self, if_false]
      obtain ⟨t1, evs, hl, hinv1, hkeep, hdone, hc1, hc2⟩ := ih rq
        ((t.store c.Name ⟨compStateUninstallStart⟩).store c.Name ⟨compStateUninstallEnd⟩)
        (h ++ [Event.IsClusterProvisionedByRancher (r.IsClusterProvisionedByRancher h).1 none])
        hrest (by
          intro n
          by_cases hn : n = c.Name
          · subst hn; exact Or.inr (store_same _ _ _)
          · rw [store_other _ _ _ _ hn, store_other _ _ _ _ hn]; exact hinv n)
      refine ⟨t1, [Event.IsClusterProvisionedByRancher
        (r.IsClusterProvisionedByRancher h).1 none] ++ evs,
        by rw [hl, List.append_assoc], hinv1, ?_, ?_, ?_, ?_⟩
      · intro n hn
        apply hkeep
        by_cases hne : n = c.Name
        · subst hne; exact store_same _ _ _
        · rw [store_other _ _ _ _ hne, store_other _ _ _ _ hne]; exact hn
      · intro c1 hc
        rcases List.mem_cons.1 hc with rfl | hc
        · exact hkeep _ (store_same _ _ _)
        · exact hdone c1 hc
      · simp [Event.isStatusUpdate, hc1]
      · simp [Event.isHookCall, hc2]
    · have hg := get_present t c.Name _ hend
      rw [loop_cons r fuel c rest rq t h _ _ _ (by rw [hg]; exact usc_end r fuel c h), hg]
      simp only [Option.isSome_none, Bool.false_eq_true, or_self, if_false]
      obtain ⟨t1, evs, hl, hinv1, hkeep, hdone, hc1, hc2⟩ := ih rq
        (t.store c.Name ⟨compStateUninstallEnd⟩) h hrest (hstore t hinv)
      refine ⟨t1, evs, hl, hinv1, ?_, ?_, hc1, hc2⟩
      · intro n hn
        apply hkeep
        by_cases hne : n = c.Name
        · subst hne; exact store_same _ _ _
        · rw [store_other _ _ _ _ hne]; exact hn
      · intro c1 hc
        rcases List.mem_cons.1 hc with rfl | hc
        · exact hkeep _ (store_same _ _ _)
        · exact hdone c1 hc

/-- C2 (counterexample): a component that does not support operator uninstall is
stepped from Start while the provisioning query fails.  The step returns the empty
state with the error of the query, not End with no error, and the run over this
one component asks for a requeue. -/
theorem C2_counterexample :
    (unsupportedComponent "x").IsOperatorUninstallSupported = false
      ∧ (executeComponentUninstallState (queryFailingReconciler [unsupportedComponent "x"])
          (unsupportedComponent "x") compStateUninstallStart []).1
        = ("", some ⟨"no cluster"⟩)
      ∧ (executeComponentUninstallState (queryFailingReconciler [unsupportedComponent "x"])
          (unsupportedComponent "x") compStateUninstallStart []).1
        ≠ (compStateUninstallEnd, none)
      ∧ (uninstallComponents (queryFailingReconciler [unsupportedComponent "x"]) 3
          UninstallTracker.empty []).map (fun x => x.1.1.Requeue) = some true := by
  decide

/-- C2 (amended): for a component that does not support operator uninstall, every
step from Start at which the provisioning query succeeds returns End with no error
and makes no call but that query, so none of `IsInstalled`, `PreUninstall`,
`Uninstall`, `PostUninstall` and `updateComponentStatus`.  A run of
`uninstallComponents` from the empty tracker over components that all lack the
support, in which the context is created and the query succeeds, returns the result
without requeue and no error, leaves every component in End, and makes no hook call
and no status update. -/
theorem C2_unsupported_component_is_skipped (r : Reconciler) (comp : Component)
    (h : History) (fuel : Nat)
    (hs : comp.IsOperatorUninstallSupported = false)
    (hq : ∀ h, (r.IsClusterProvisionedByRancher h).2 = none)
    (hreg : ∀ c ∈ r.GetComponents, c.IsOperatorUninstallSupported = false)
    (hctx : r.NewContext h = none) (hfuel : 1 ≤ fuel) :
    executeComponentUninstallState r comp compStateUninstallStart h
        = ((compStateUninstallEnd, none),
          [Event.IsClusterProvisionedByRancher (r.IsClusterProvisionedByRancher h).1 none])
      ∧ ∃ t evs, uninstallComponents r fuel UninstallTracker.empty h
          = some ((⟨false, 0⟩, none), t, h ++ evs)
        ∧ (∀ c ∈ r.GetComponents, t.compMap c.Name = some ⟨compStateUninstallEnd⟩)
        ∧ evs.countP Event.isStatusUpdate = 0 ∧ evs.countP Event.isHookCall = 0 := by
  refine ⟨exec_start_unsupported r comp h _ (query_ok_eq r h (hq h)) hs, ?_⟩
  obtain ⟨t1, evs, hl, _, _, hdone, hc1, hc2⟩ := loop_unsupported r fuel hq hfuel
    r.GetComponents false UninstallTracker.empty (h ++ [Event.NewContext none]) hreg
    (fun n => Or.inl rfl)
  refine ⟨t1, [Event.NewContext none] ++ evs, ?_, hdone, ?_, ?_⟩
  · unfold uninstallComponents
    simp only [hctx, hl]
    simp
  · simp [Event.isStatusUpdate, hc1]
  · simp [Event.isHookCall, hc2]

/-- C2 (amended) evaluated on a registry of two components without the support. -/
theorem C2_unsupported_component_is_skipped_witness :
    executeComponentUninstallState
        (healthyReconciler [unsupportedComponent "x", unsupportedComponent "y"])
        (unsupportedComponent "x") compStateUninstallStart []
        = ((compStateUninstallEnd, none), [Event.IsClusterProvisionedByRancher false none])
      ∧ ∃ t evs, uninstallComponents
            (healthyReconciler [unsupportedComponent "x", unsupportedComponent "y"]) 1
            UninstallTracker.empty []
          = some ((⟨false, 0⟩, none), t, [] ++ evs)
        ∧ (∀ c ∈ (healthyReconciler [unsupportedComponent "x",
              unsupportedComponent "y"]).GetComponents,
            t.compMap c.Name = some ⟨compStateUninstallEnd⟩)
        ∧ evs.countP Event.isStatusUpdate = 0 ∧ evs.countP Event.isHookCall = 0 :=
  C2_unsupported_component_is_skipped
    (healthyReconciler [unsupportedComponent "x", unsupportedComponent "y"])
    (unsupportedComponent "x") [] 1 rfl (fun _ => rfl)
    (by simp [healthyReconciler, unsupportedComponent]) rfl (by decide)

/-! ## C3: failure isolation -/

/-- A component whose `Uninstall` hook always fails is processed in at most three
steps: its processing returns. -/
theorem usc_uninstall_failing_returns (r : Reconciler) (c : Component) (h : History)
    (fuel : Nat) (hq : ∀ h, (r.IsClusterProvisionedByRancher h).2 = none)
    (hfail : ∀ h, ∃ e, c.Uninstall h = some e) (hfuel : 3 ≤ fuel) :
    ∃ x, uninstallSingleComponent r fuel ⟨compStateUninstallStart⟩ c h = some x := by
  obtain ⟨f, rfl⟩ : ∃ f, fuel = f + 3 := ⟨fuel - 3, by omega⟩
  rcases exec_start_result r c h (hq h) with hres | hres | ⟨e, hres⟩
  · rw [usc_ok r _ _ c h start_ne_end (by rw [hres]), hres]
    exact ⟨_, usc_end r _ c _⟩
  · rw [usc_ok r _ _ c h start_ne_end (by rw [hres]), hres]
    simp only []
    generalize h ++ _ = h1
    have e2 := exec_pre r c h1 _ (query_ok_eq r h1 (hq h1))
    rcases hp : c.PreUninstall (h1 ++ [Event.IsClusterProvisionedByRancher
        (r.IsClusterProvisionedByRancher h1).1 none,
        Event.Oncef ("Component " ++ c.Name ++ " is calling pre-uninstall")]) with _ | pe
    · rw [hp] at e2
      simp only [] at e2
      rw [usc_ok r _ _ c h1 pre_ne_end (by rw [e2]), e2]
      simp only []
      generalize h1 ++ _ = h2
      obtain ⟨ue, hu⟩ := hfail (h2 ++ [Event.IsClusterProvisionedByRancher
        (r.IsClusterProvisionedByRancher h2).1 none,
        Event.Progressf ("Component " ++ c.Name ++ " is calling uninstall")])
      have e3 := exec_uninstall_err r c h2 _ ue (query_ok_eq r h2 (hq h2)) hu
      rw [usc_err r _ _ c h2 ue uninstall_ne_end (by rw [e3])]
      exact ⟨_, rfl⟩
    · rw [hp] at e2
      simp only [] at e2
      rw [usc_err r _ _ c h1 pe pre_ne_end (by rw [e2])]
      exact ⟨_, rfl⟩
  · rw [usc_err r _ _ c h e start_ne_end (by rw [hres])]
    exact ⟨_, rfl⟩

theorem loop_isolation (r : Reconciler) (fuel : Nat)
    (hq : ∀ h, (r.IsClusterProvisionedByRancher h).2 = none) (hfuel : 5 ≤ fuel) :
    ∀ (cs : List Component) (rq : Bool) (t : UninstallTracker) (h : History),
      (cs.map (fun c => c.Name)).Nodup →
      (∀ c ∈ cs, t.compMap c.Name = none) →
      (∀ c ∈ cs, succeedsFully r c ∨ ∀ h, ∃ e, c.Uninstall h = some e) →
      ∃ rq1 t1 h1, uninstallComponentsLoop r fuel cs rq t h = some (rq1, t1, h1)
        ∧ (∀ c ∈ cs, succeedsFully r c → t1.compMap c.Name = some ⟨compStateUninstallEnd⟩)
        ∧ (∀ n, (∀ c ∈ cs, c.Name ≠ n) → t1.compMap n = t.compMap n) := by
  intro cs
  induction cs with
  | nil =>
    intro rq t h _ _ _
    exact ⟨rq, t, h, rfl, by simp, fun _ _ => rfl⟩
  | cons c rest ih =>
    intro rq t h hnd hnone hkind
    rw [List.map_cons, List.nodup_cons] at hnd
    have hfresh : ∀ c1 ∈ rest, c1.Name ≠ c.Name := by
      intro c1 hc1 heq
      exact hnd.1 (List.mem_map.2 ⟨c1, hc1, heq⟩)
    have hg := get_absent t c.Name (hnone c (List.mem_cons_self _ _))
    have hstep : ∃ res ctx h1,
        uninstallSingleComponent r fuel ⟨compStateUninstallStart⟩ c h = some (res, ctx, h1)
          ∧ (succeedsFully r c → ctx = ⟨compStateUninstallEnd⟩) := by
      rcases hkind c (List.mem_cons_self _ _) with hgood | hbad
      · obtain ⟨evs, hu⟩ := usc_succeeds r c h fuel hq hgood hfuel
        exact ⟨_, _, _, hu, fun _ => rfl⟩
      · obtain ⟨⟨res, ctx, h1⟩, hu⟩ := usc_uninstall_failing_returns r c h fuel hq hbad
          (by omega)
        refine ⟨res, ctx, h1, hu, fun hgood => ?_⟩
        obtain ⟨e, he⟩ := hbad []
        rw [hgood.2.1 []] at he
        cases he
    obtain ⟨res, ctx, h1, hu, hctx⟩ := hstep
    rw [loop_cons r fuel c rest rq t h h1 res ctx (by rw [hg]; exact hu), hg]
    simp only []
    obtain ⟨rq1, t1, h2, hl, hdone, hframe⟩ := ih
      (if res.2.isSome ∨ res.1.Requeue = true then true else rq)
      ((t.store c.Name ⟨compStateUninstallStart⟩).store c.Name ctx) h1 hnd.2
      (by
        intro c1 hc1
        rw [store_other _ _ _ _ (hfresh c1 hc1), store_other _ _ _ _ (hfresh c1 hc1)]
        exact hnone c1 (List.mem_cons_of_mem _ hc1))
      (fun c1 hc1 => hkind c1 (List.mem_cons_of_mem _ hc1))
    refine ⟨rq1, t1, h2, hl, ?_, ?_⟩
    · intro c1 hc1 hgood
      rcases List.mem_cons.1 hc1 with rfl | hc1
      · rw [hframe _ hfresh, store_same, hctx hgood]
      · exact hdone c1 hc1 hgood
    · intro n hn
      have hne : n ≠ c.Name := fun heq => hn c (List.mem_cons_self _ _) heq.symm
      rw [hframe n (fun c1 hc1 => hn c1 (List.mem_cons_of_mem _ hc1)),
        store_other _ _ _ _ hne, store_other _ _ _ _ hne]

/-- C3 (counterexample): of three registered components the middle one always fails
to uninstall and the other two have hooks that always succeed, are installed at
Start and gone after their `Uninstall`; the status updates succeed.  The
provisioning query starts to fail once the first `PostUninstall` has been called.
The run from the empty tracker returns and leaves the two other components in the
empty state, not in End. -/
theorem C3_counterexample :
    (∀ h, ∃ e, (uninstallFailingComponent "b").Uninstall h = some e)
      ∧ (∀ n h, (plainComponent n).PreUninstall h = none
          ∧ (plainComponent n).Uninstall h = none ∧ (plainComponent n).PostUninstall h = none)
      ∧ (∀ n msg cond h,
          (lateQueryFailingReconciler [plainComponent "a", uninstallFailingComponent "b",
            plainComponent "c"]).updateComponentStatus n msg cond h = none)
      ∧ (∀ n, (plainComponent n).IsInstalled [] = (true, none)
          ∧ (plainComponent n).IsInstalled [Event.Uninstall n none] = (false, none))
      ∧ (uninstallComponents
          (lateQueryFailingReconciler [plainComponent "a", uninstallFailingComponent "b",
            plainComponent "c"]) 5 UninstallTracker.empty []).map
            (fun x => (x.2.1.compMap "a", x.2.1.compMap "c"))
        = some (some ⟨""⟩, some ⟨""⟩) := by
  refine ⟨fun _ => ⟨_, rfl⟩, fun _ _ => ⟨rfl, rfl, rfl⟩, fun _ _ _ _ => rfl, fun n => ?_,
    by decide⟩
  simp [plainComponent, uninstalledIn]

/-- C3 (amended, failure isolation): in a registry of components with distinct
names, let the `Uninstall` hook of the component at position `k` always return an
error and let every component at another position succeed fully (its hooks and
status updates succeed and it is no longer installed once its `Uninstall` has run),
in a run whose context is created and whose provisioning query succeeds.  Then one
run of `uninstallComponents` from the empty tracker returns and leaves every
component at a position other than `k` in `compStateUninstallEnd`, wherever `k`
is. -/
theorem C3_failure_isolation (r : Reconciler) (k : Nat) (h0 : History) (fuel : Nat)
    (hnodup : (r.GetComponents.map (fun c => c.Name)).Nodup)
    (hk : ∀ c, r.GetComponents[k]? = some c → ∀ h, ∃ e, c.Uninstall h = some e)
    (hothers : ∀ i c, i ≠ k → r.GetComponents[i]? = some c → succeedsFully r c)
    (hctx : r.NewContext h0 = none)
    (hq : ∀ h, (r.IsClusterProvisionedByRancher h).2 = none) (hfuel : 5 ≤ fuel) :
    ∃ res t h1, uninstallComponents r fuel UninstallTracker.empty h0 = some (res, t, h1)
      ∧ ∀ i c, i ≠ k → r.GetComponents[i]? = some c →
          t.compMap c.Name = some ⟨compStateUninstallEnd⟩ := by
  obtain ⟨rq1, t1, h1, hl, hdone, _⟩ := loop_isolation r fuel hq hfuel r.GetComponents false
    UninstallTracker.empty (h0 ++ [Event.NewContext none]) hnodup (fun _ _ => rfl)
    (by
      intro c hc
      obtain ⟨i, hi⟩ := List.mem_iff_getElem?.1 hc
      by_cases hik : i = k
      · exact Or.inr (hk c (hik ▸ hi))
      · exact Or.inl (hothers i c hik hi))
  have hrun : ∃ res, uninstallComponents r fuel UninstallTracker.empty h0
      = some (res, t1, h1) := by
    unfold uninstallComponents
    simp only [hctx, hl]
    split <;> exact ⟨_, rfl⟩
  obtain ⟨res, hres⟩ := hrun
  refine ⟨res, t1, h1, hres, ?_⟩
  intro i c hik hi
  exact hdone c (List.mem_iff_getElem?.2 ⟨i, hi⟩) (hothers i c hik hi)

/-- C3 (amended) evaluated on three components of which the middle one fails to uninstall. -/
theorem C3_failure_isolation_witness :
    ∃ res t h1, uninstallComponents
        (healthyReconciler [plainComponent "a", uninstallFailingComponent "b",
          plainComponent "c"]) 5 UninstallTracker.empty [] = some (res, t, h1)
      ∧ ∀ i c, i ≠ 1 →
          (healthyReconciler [plainComponent "a", uninstallFailingComponent "b",
            plainComponent "c"]).GetComponents[i]? = some c →
          t.compMap c.Name = some ⟨compStateUninstallEnd⟩ :=
  C3_failure_isolation
    (healthyReconciler [plainComponent "a", uninstallFailingComponent "b",
      plainComponent "c"]) 1 [] 5 (by decide)
    (fun c hc h => by
      simp only [healthyReconciler, List.getElem?_cons_succ, List.getElem?_cons_zero,
        Option.some.injEq] at hc
      subst hc
      exact ⟨_, rfl⟩)
    (fun i c hi hc => by
      match i, hi, hc with
      | 0, _, hc =>
        simp only [healthyReconciler, List.getElem?_cons_zero, Option.some.injEq] at hc
        subst hc
        exact plainComponent_succeedsFully _ "a"
      | 2, _, hc =>
        simp only [healthyReconciler, List.getElem?_cons_succ, List.getElem?_cons_zero,
          Option.some.injEq] at hc
        subst hc
        exact plainComponent_succeedsFully _ "c"
      | n + 3, _, hc =>
        simp [healthyReconciler] at hc)
    rfl (fun _ => rfl) (by decide)

/-! ## C4: a failing pre-uninstall -/

theorem exec_pre_failed (r : Reconciler) (comp : Component) (s : componentState)
    (h : History) (e : GoError)
    (hmem : Event.PreUninstall comp.Name (some e)
      ∈ (executeComponentUninstallState r comp s h).2) :
    (executeComponentUninstallState r comp s h).1 = (compStatePreUninstall, some e)
      ∧ (executeComponentUninstallState r comp s h).2.countP Event.isUninstall = 0 := by
  obtain ⟨hs, b, hq⟩ := pre_event_state r comp s h _ _ hmem
  subst hs
  rw [exec_pre r comp h b hq] at hmem ⊢
  simp only [List.mem_cons, List.mem_singleton, List.not_mem_nil, or_false, reduceCtorEq,
    false_or, Event.PreUninstall.injEq, true_and] at hmem
  rw [← hmem]
  simp [Event.isUninstall]

/-- C4: a step in which the `PreUninstall` hook of the component returns an error
returns `compStatePreUninstall` together with that error and makes no `Uninstall`
call.  For the registered components A and B, where A reaches its pre-uninstall
(it supports operator uninstall, is not skipped, is installed and its status update
succeeds) and its `PreUninstall` hook fails, and B succeeds fully, one run of
`uninstallComponents` from the empty tracker returns the requeue result with no
error and leaves A in `compStatePreUninstall` and B in `compStateUninstallEnd`. -/
theorem C4_pre_uninstall_failure (r : Reconciler) (A B : Component) (h0 : History)
    (fuel : Nat)
    (hreg : r.GetComponents = [A, B]) (hne : A.Name ≠ B.Name)
    (hctx : r.NewContext h0 = none)
    (hq : ∀ h, (r.IsClusterProvisionedByRancher h).2 = none)
    (hAs : A.IsOperatorUninstallSupported = true)
    (hAk : ∀ h, ¬ (A.Name = r.ComponentName ∧ (r.IsClusterProvisionedByRancher h).1 = true))
    (hAi : ∀ h, A.IsInstalled h = (true, none))
    (hAu : ∀ msg cond h, r.updateComponentStatus A.Name msg cond h = none)
    (hAp : ∀ h, ∃ e, A.PreUninstall h = some e)
    (hB : succeedsFully r B) (hfuel : 5 ≤ fuel) :
    (∀ (comp : Component) (s : componentState) (h : History) (e : GoError),
      Event.PreUninstall comp.Name (some e) ∈ (executeComponentUninstallState r comp s h).2 →
      (executeComponentUninstallState r comp s h).1 = (compStatePreUninstall, some e)
        ∧ (executeComponentUninstallState r comp s h).2.countP Event.isUninstall = 0)
    ∧ ∃ t h1, uninstallComponents r fuel UninstallTracker.empty h0
          = some ((newRequeueWithDelay r h1, none), t, h1)
        ∧ t.compMap A.Name = some ⟨compStatePreUninstall⟩
        ∧ t.compMap B.Name = some ⟨compStateUninstallEnd⟩ := by
  refine ⟨fun comp s h e => exec_pre_failed r comp s h e, ?_⟩
  obtain ⟨f, rfl⟩ : ∃ f, fuel = f + 2 := ⟨fuel - 2, by omega⟩
  -- the processing of A
  have hA : ∃ hA e, uninstallSingleComponent r (f + 2) ⟨compStateUninstallStart⟩ A
      (h0 ++ [Event.NewContext none])
      = some ((newRequeueWithDelay r hA, some e), ⟨compStatePreUninstall⟩, hA) := by
    have e1 := exec_start_installed r A (h0 ++ [Event.NewContext none]) _
      (query_ok_eq r _ (hq _)) hAs (hAk _) (hAi _)
    rw [hAu] at e1
    simp only [] at e1
    rw [usc_ok r _ _ A _ start_ne_end (by rw [e1]), e1]
    simp only []
    have e2 := exec_pre r A (h0 ++ [Event.NewContext none]
      ++ [Event.IsClusterProvisionedByRancher
          (r.IsClusterProvisionedByRancher (h0 ++ [Event.NewContext none])).1 none,
        Event.IsInstalled A.Name true none,
        Event.updateComponentStatus A.Name "Uninstall started"
          ConditionType.CondUninstallStarted none,
        Event.Oncef ("Component " ++ A.Name ++ " is starting to uninstall")]) _
      (query_ok_eq r _ (hq _))
    obtain ⟨e, he⟩ := hAp ((h0 ++ [Event.NewContext none]
      ++ [Event.IsClusterProvisionedByRancher
          (r.IsClusterProvisionedByRancher (h0 ++ [Event.NewContext none])).1 none,
        Event.IsInstalled A.Name true none,
        Event.updateComponentStatus A.Name "Uninstall started"
          ConditionType.CondUninstallStarted none,
        Event.Oncef ("Component " ++ A.Name ++ " is starting to uninstall")])
      ++ [Event.IsClusterProvisionedByRancher (r.IsClusterProvisionedByRancher _).1 none,
        Event.Oncef ("Component " ++ A.Name ++ " is calling pre-uninstall")])
    rw [he] at e2
    simp only [] at e2
    rw [usc_err r _ _ A _ e pre_ne_end (by rw [e2]), e2]
    exact ⟨_, e, rfl⟩
  obtain ⟨hA1, e, hA2⟩ := hA
  obtain ⟨evs, hB1⟩ := usc_succeeds r B hA1 (f + 2) hq hB hfuel
  refine ⟨(((UninstallTracker.empty.store A.Name ⟨compStateUninstallStart⟩).store A.Name
    ⟨compStatePreUninstall⟩).store B.Name ⟨compStateUninstallStart⟩).store B.Name
    ⟨compStateUninstallEnd⟩, hA1 ++ evs, ?_, ?_, ?_⟩
  · unfold uninstallComponents
    simp only [hctx, hreg]
    rw [loop_cons r _ A [B] false _ _ _ _ _ (by
        rw [get_absent _ _ (by rfl : UninstallTracker.empty.compMap A.Name = none)]
        exact hA2),
      get_absent _ _ (by rfl : UninstallTracker.empty.compMap A.Name = none)]
    simp only []
    rw [loop_cons r _ B [] _ _ _ _ _ _ (by
        rw [get_absent _ _ (by
          rw [store_other _ _ _ _ hne.symm, store_other _ _ _ _ hne.symm]; rfl)]
        exact hB1),
      get_absent _ _ (by
          rw [store_other _ _ _ _ hne.symm, store_other _ _ _ _ hne.symm]; rfl)]
    simp only [loop_nil]
    simp
  · rw [store_other _ _ _ _ hne, store_other _ _ _ _ hne, store_same]
  · rw [store_same]

/-- C4 evaluated on the registry of a component whose pre-uninstall fails and a
component that succeeds. -/
theorem C4_pre_uninstall_failure_witness :
    (∀ (comp : Component) (s : componentState) (h : History) (e : GoError),
      Event.PreUninstall comp.Name (some e)
        ∈ (executeComponentUninstallState
            (healthyReconciler [preFailingComponent "a", plainComponent "b"]) comp s h).2 →
      (executeComponentUninstallState
          (healthyReconciler [preFailingComponent "a", plainComponent "b"]) comp s h).1
          = (compStatePreUninstall, some e)
        ∧ (executeComponentUninstallState
          (healthyReconciler [preFailingComponent "a", plainComponent "b"]) comp s h).2.countP
            Event.isUninstall = 0)
    ∧ ∃ t h1, uninstallComponents
            (healthyReconciler [preFailingComponent "a", plainComponent "b"]) 5
            UninstallTracker.empty []
          = some ((newRequeueWithDelay
              (healthyReconciler [preFailingComponent "a", plainComponent "b"]) h1, none),
              t, h1)
        ∧ t.compMap (preFailingComponent "a").Name = some ⟨compStatePreUninstall⟩
        ∧ t.compMap (plainComponent "b").Name = some ⟨compStateUninstallEnd⟩ :=
  C4_pre_uninstall_failure (healthyReconciler [preFailingComponent "a", plainComponent "b"])
    (preFailingComponent "a") (plainComponent "b") [] 5 rfl (by decide) rfl (fun _ => rfl) rfl
    (fun _ => by simp [healthyReconciler, preFailingComponent, plainComponent])
    (fun _ => rfl) (fun _ _ _ => rfl) (fun _ => ⟨_, rfl⟩)
    (plainComponent_succeedsFully _ "b") (by decide)

/-! ## C5: the state kept after a failure -/

theorem exec_done_failed (r : Reconciler) (comp : Component) (h : History) (e : GoError)
    (hmem : Event.updateComponentStatus comp.Name "Uninstall complete"
      ConditionType.CondUninstallComplete (some e)
      ∈ (executeComponentUninstallState r comp compStateUninstalleDone h).2) :
    (executeComponentUninstallState r comp compStateUninstalleDone h).1
      = (compStateUninstalleDone, some e) := by
  rcases hq : r.IsClusterProvisionedByRancher h with ⟨b, _ | qe⟩
  · rw [exec_done r comp h b hq] at hmem ⊢
    rcases hu : r.updateComponentStatus comp.Name "Uninstall complete"
      ConditionType.CondUninstallComplete (h ++ [Event.IsClusterProvisionedByRancher b none])
      with _ | ue
    · rw [hu] at hmem
      simp at hmem
    · rw [hu] at hmem
      simp at hmem
      simp [hmem]
  · rw [exec_query_err r comp _ h b qe hq] at hmem
    simp at hmem

theorem exec_wait_check_failed (r : Reconciler) (comp : Component) (h : History) (i : Bool)
    (e : GoError)
    (hmem : Event.IsInstalled comp.Name i (some e)
      ∈ (executeComponentUninstallState r comp compStateWaitUninstalled h).2) :
    (executeComponentUninstallState r comp compStateWaitUninstalled h).1
      = (compStateWaitUninstalled, some e) := by
  revert hmem
  unfold executeComponentUninstallState
  simp only [compStateUninstallStart, compStatePreUninstall, compStateUninstall,
    compStateWaitUninstalled, compStateUninstalleDone, compStateUninstallEnd]
  rcases r.IsClusterProvisionedByRancher h with ⟨b, _ | qe⟩
  · simp only [String.reduceEq, if_false, if_true]
    rcases comp.IsInstalled (h ++ [Event.IsClusterProvisionedByRancher b none])
      with ⟨j, _ | ie⟩
    · cases j
      · simp only [Bool.false_eq_true, if_false]
        rcases comp.PostUninstall _ with _ | pe
        · simp
        · by_cases hr : r.IsRetryableError pe = false <;> simp [hr]
      · simp
    · simp
      intro _ he
      exact he.symm
  · simp

/-- C5 (counterexample): the `IsInstalled` hook executed in Start fails; after
`uninstallSingleComponent` returns, the state of the component is End, not Start,
and no error and no requeue is returned. -/
theorem C5_counterexample :
    Event.IsInstalled "c" false (some ⟨"check failed"⟩)
        ∈ (executeComponentUninstallState (healthyReconciler []) (checkFailingComponent "c")
          compStateUninstallStart []).2
      ∧ (uninstallSingleComponent (healthyReconciler []) 3 ⟨compStateUninstallStart⟩
          (checkFailingComponent "c") []).map (fun x => (x.1, x.2.1))
        = some ((⟨false, 0⟩, none), ⟨compStateUninstallEnd⟩)
      ∧ compStateUninstallEnd ≠ compStateUninstallStart := by
  decide

/-- C5 (amended): when `uninstallSingleComponent` is entered in state PreUninstall
and the `PreUninstall` hook fails, or in state Done and the status update fails, or
in state WaitUninstalled and the `IsInstalled` hook fails, it returns the requeue
result with that error and the state of the component is still the state it was
entered in.  When it is entered in state Start and the `IsInstalled` hook fails, the
component ends: the state is End and no error is returned. -/
theorem C5_failed_step_keeps_state (r : Reconciler) (comp : Component) (h : History)
    (fuel : Nat) :
    (∀ e, Event.PreUninstall comp.Name (some e)
        ∈ (executeComponentUninstallState r comp compStatePreUninstall h).2 →
      ∃ h1, uninstallSingleComponent r (fuel + 1) ⟨compStatePreUninstall⟩ comp h
        = some ((newRequeueWithDelay r h1, some e), ⟨compStatePreUninstall⟩, h1))
    ∧ (∀ e, Event.updateComponentStatus comp.Name "Uninstall complete"
          ConditionType.CondUninstallComplete (some e)
        ∈ (executeComponentUninstallState r comp compStateUninstalleDone h).2 →
      ∃ h1, uninstallSingleComponent r (fuel + 1) ⟨compStateUninstalleDone⟩ comp h
        = some ((newRequeueWithDelay r h1, some e), ⟨compStateUninstalleDone⟩, h1))
    ∧ (∀ i e, Event.IsInstalled comp.Name i (some e)
        ∈ (executeComponentUninstallState r comp compStateWaitUninstalled h).2 →
      ∃ h1, uninstallSingleComponent r (fuel + 1) ⟨compStateWaitUninstalled⟩ comp h
        = some ((newRequeueWithDelay r h1, some e), ⟨compStateWaitUninstalled⟩, h1))
    ∧ (∀ i e, Event.IsInstalled comp.Name i (some e)
        ∈ (executeComponentUninstallState r comp compStateUninstallStart h).2 →
      ∃ h1, uninstallSingleComponent r (fuel + 1) ⟨compStateUninstallStart⟩ comp h
        = some ((⟨false, 0⟩, none), ⟨compStateUninstallEnd⟩, h1)) := by
  refine ⟨?_, ?_, ?_, ?_⟩
  · intro e hmem
    have hres := (exec_pre_failed r comp _ h e hmem).1
    rw [usc_err r fuel _ comp h e pre_ne_end (by rw [hres]), hres]
    exact ⟨_, rfl⟩
  · intro e hmem
    have hres := exec_done_failed r comp h e hmem
    rw [usc_err r fuel _ comp h e done_ne_end (by rw [hres]), hres]
    exact ⟨_, rfl⟩
  · intro i e hmem
    have hres := exec_wait_check_failed r comp h i e hmem
    rw [usc_err r fuel _ comp h e wait_ne_end (by rw [hres]), hres]
    exact ⟨_, rfl⟩
  · intro i e hmem
    obtain ⟨b, hq, hs, hk, hi⟩ := exec_start_asks r comp h i (some e) hmem
    have hres := exec_start_check_failed r comp h b i e hq hs hk hi
    rw [usc_ok r fuel _ comp h start_ne_end (by rw [hres]), hres]
    exact ⟨_, usc_end r fuel comp _⟩

/-- C5 (amended) evaluated on a failing pre-uninstall and on a failing installed
check at Start. -/
theorem C5_failed_step_keeps_state_witness :
    (∃ h1, uninstallSingleComponent (healthyReconciler []) (0 + 1) ⟨compStatePreUninstall⟩
        (preFailingComponent "a") []
      = some ((newRequeueWithDelay (healthyReconciler []) h1, some ⟨"pre-uninstall failed"⟩),
          ⟨compStatePreUninstall⟩, h1))
    ∧ (∃ h1, uninstallSingleComponent (healthyReconciler []) (0 + 1) ⟨compStateUninstallStart⟩
        (checkFailingComponent "c") []
      = some ((⟨false, 0⟩, none), ⟨compStateUninstallEnd⟩, h1)) :=
  ⟨(C5_failed_step_keeps_state (healthyReconciler []) (preFailingComponent "a") [] 0).1
      ⟨"pre-uninstall failed"⟩ (by decide),
    (C5_failed_step_keeps_state (healthyReconciler []) (checkFailingComponent "c") [] 0).2.2.2
      false ⟨"check failed"⟩ (by decide)⟩

/-! ## C6 and C7: the loop does not pause and may not return -/

/-- A component that stays installed is polled for ever in `compStateWaitUninstalled`:
no amount of fuel lets the loop return. -/
theorem usc_wait_diverges (r : Reconciler) (comp : Component)
    (hq : ∀ h, (r.IsClusterProvisionedByRancher h).2 = none)
    (hi : ∀ h, comp.IsInstalled h = (true, none)) :
    ∀ (fuel : Nat) (h : History),
      uninstallSingleComponent r fuel ⟨compStateWaitUninstalled⟩ comp h = none := by
  intro fuel
  induction fuel with
  | zero => intro h; exact usc_zero r _ comp h wait_ne_end
  | succ n ih =>
    intro h
    have e1 := exec_wait_installed r comp h _ (query_ok_eq r h (hq h)) (hi _)
    rw [usc_ok r n _ comp h wait_ne_end (by rw [e1]), e1]
    exact ih _

/-- C6 (the code at the failing input): over a component that is still installed at
the first poll and gone at the second, the step taken in `compStateWaitUninstalled`
at the first poll returns the same state with no error, and yet the run keeps
stepping the component: it polls again, reaches End in the same invocation after
three `IsInstalled` calls, and returns the result without requeue.  Over a component
that stays installed the loop in `compStateWaitUninstalled` never returns. -/
theorem C6_unchanged_state_does_not_pause :
    (executeComponentUninstallState (healthyReconciler [pollingComponent "c" 1])
        (pollingComponent "c" 1) compStateWaitUninstalled historyBeforeWait).1
        = (compStateWaitUninstalled, none)
      ∧ (uninstallComponents (healthyReconciler [pollingComponent "c" 1]) 10
          UninstallTracker.empty []).map
            (fun x => (x.1, x.2.1.compMap "c", installedChecks "c" x.2.2,
              decide (historyBeforeWait <+: x.2.2)))
        = some ((⟨false, 0⟩, none), some ⟨compStateUninstallEnd⟩, 3, true)
      ∧ ∀ fuel, uninstallSingleComponent (healthyReconciler [stuckComponent "c"]) fuel
          ⟨compStateWaitUninstalled⟩ (stuckComponent "c") historyBeforeWait = none := by
  refine ⟨by decide, by decide, fun fuel => ?_⟩
  exact usc_wait_diverges _ _ (fun _ => rfl) (fun _ => rfl) fuel _

/-- A run over a registry whose first component is in the empty state never
returns. -/
theorem run_diverges_on_empty_state (r : Reconciler) (c : Component) (rest : List Component)
    (t : UninstallTracker) (h : History) (hreg : r.GetComponents = c :: rest)
    (hctx : r.NewContext h = none)
    (hq : ∀ h, (r.IsClusterProvisionedByRancher h).2 = none)
    (ht : t.compMap c.Name = some ⟨""⟩) :
    ∀ fuel, uninstallComponents r fuel t h = none := by
  intro fuel
  unfold uninstallComponents
  simp only [hctx, hreg]
  rw [loop_cons_none r fuel c rest false t _ (by
    rw [get_present t c.Name ⟨""⟩ ht]
    exact usc_empty_state_diverges r c hq fuel _)]

/-- C7 (the code at the failing input): the `Uninstall` hook of the one registered
component fails in the first run, which returns and leaves the empty state in the
tracker; the second run, started from that tracker, never returns, whatever the
fuel, although every hook returns. -/
theorem C7_run_after_failed_uninstall_diverges :
    ∃ res t1 h1,
      uninstallComponents (healthyReconciler [uninstallFailingComponent "c"]) 5
          UninstallTracker.empty [] = some (res, t1, h1)
        ∧ t1.compMap "c" = some ⟨""⟩
        ∧ ∀ fuel, uninstallComponents (healthyReconciler [uninstallFailingComponent "c"])
            fuel t1 h1 = none := by
  have hfirst : (uninstallComponents (healthyReconciler [uninstallFailingComponent "c"]) 5
      UninstallTracker.empty []).map (fun x => x.2.1.compMap "c") = some (some ⟨""⟩) := by
    decide
  rcases hrun : uninstallComponents (healthyReconciler [uninstallFailingComponent "c"]) 5
      UninstallTracker.empty [] with _ | ⟨res, t1, h1⟩
  · rw [hrun] at hfirst
    simp at hfirst
  · rw [hrun] at hfirst
    simp only [Option.map_some', Option.some.injEq] at hfirst
    exact ⟨res, t1, h1, rfl, hfirst,
      run_diverges_on_empty_state _ (uninstallFailingComponent "c") [] t1 h1 rfl rfl
        (fun _ => rfl) hfirst⟩

/-! ## C8: the requeue decision of a run -/

theorem loop_results (r : Reconciler) (fuel : Nat) :
    ∀ (cs : List Component) (rq : Bool) (t : UninstallTracker) (h : History)
      (outs : List (Result × Option GoError)),
      componentResults r fuel cs t h = some outs →
      ∃ t1 h1, uninstallComponentsLoop r fuel cs rq t h
        = some (rq || outs.any (fun o => o.2.isSome || o.1.Requeue), t1, h1) := by
  intro cs
  induction cs with
  | nil =>
    intro rq t h outs ho
    simp only [componentResults, Option.some.injEq] at ho
    subst ho
    exact ⟨t, h, by simp [loop_nil]⟩
  | cons c rest ih =>
    intro rq t h outs ho
    rw [componentResults] at ho
    rcases hu : uninstallSingleComponent r fuel (t.getComponentUninstallContext c.Name).1 c h
      with _ | ⟨res, ctx, h1⟩
    · rw [hu] at ho
      simp at ho
    · rw [hu] at ho
      simp only [Option.map_eq_some'] at ho
      obtain ⟨outs1, ho1, rfl⟩ := ho
      obtain ⟨t1, h2, hl⟩ := ih (if res.2.isSome ∨ res.1.Requeue = true then true else rq)
        _ _ outs1 ho1
      refine ⟨t1, h2, ?_⟩
      rw [loop_cons r fuel c rest rq t h h1 res ctx hu, hl]
      congr 2
      cases rq <;> cases h3 : res.2.isSome <;> cases h4 : res.1.Requeue <;> simp [h3, h4]

/-- C8: let every component of a run be processed to a return, with `outs` the
results of `uninstallSingleComponent` in order.  Then `uninstallComponents` returns
with a nil error; it returns the requeue result of `newRequeueWithDelay` when at
least one component returned an error or a result with `Requeue` set, and the result
without requeue when none did.  The only error a run ever returns is the error of
the context creation, never the error of a component hook. -/
theorem C8_requeue_aggregation (r : Reconciler) (fuel : Nat) (t : UninstallTracker)
    (h : History) :
    (∀ res e t1 h1, uninstallComponents r fuel t h = some ((res, some e), t1, h1) →
      r.NewContext h = some e)
    ∧ (∀ outs, r.NewContext h = none →
      componentResults r fuel r.GetComponents t (h ++ [Event.NewContext none]) = some outs →
      ∃ res t1 h1, uninstallComponents r fuel t h = some ((res, none), t1, h1)
        ∧ ((∃ o ∈ outs, o.2 ≠ none ∨ o.1.Requeue = true) → res = newRequeueWithDelay r h1)
        ∧ ((∀ o ∈ outs, o.2 = none ∧ o.1.Requeue = false) → res = ⟨false, 0⟩)) := by
  constructor
  · intro res e t1 h1 hrun
    unfold uninstallComponents at hrun
    simp only [] at hrun
    rcases hc : r.NewContext h with _ | ce
    · rw [hc] at hrun
      simp only [] at hrun
      rcases hl : uninstallComponentsLoop r fuel r.GetComponents false t
        (h ++ [Event.NewContext none]) with _ | ⟨rq, t2, h2⟩
      · rw [hl] at hrun
        simp at hrun
      · rw [hl] at hrun
        cases rq <;> simp at hrun
    · rw [hc] at hrun
      simp only [Option.some.injEq, Prod.mk.injEq] at hrun
      rw [hrun.1.2]
  · intro outs hc ho
    obtain ⟨t1, h1, hl⟩ := loop_results r fuel r.GetComponents false t _ outs ho
    unfold uninstallComponents
    simp only [hc, hl, Bool.false_or]
    by_cases hany : outs.any (fun o => o.2.isSome || o.1.Requeue) = true
    · refine ⟨newRequeueWithDelay r h1, t1, h1, by simp [hany], fun _ => rfl, ?_⟩
      intro hall
      rw [List.any_eq_true] at hany
      obtain ⟨o, ho1, ho2⟩ := hany
      have := hall o ho1
      simp [this.1, this.2] at ho2
    · refine ⟨⟨false, 0⟩, t1, h1, by simp [hany], ?_, fun _ => rfl⟩
      rintro ⟨o, ho1, ho2⟩
      exfalso
      apply hany
      rw [List.any_eq_true]
      refine ⟨o, ho1, ?_⟩
      rcases ho2 with ho2 | ho2
      · cases h5 : o.2 with
        | none => exact absurd h5 ho2
        | some _ => simp
      · simp [ho2]

/-- C8 evaluated on a run in which the first component fails its pre-uninstall and
the second one is uninstalled. -/
theorem C8_requeue_aggregation_witness :
    ∃ res t1 h1, uninstallComponents
          (healthyReconciler [preFailingComponent "a", plainComponent "b"]) 5
          UninstallTracker.empty [] = some ((res, none), t1, h1)
      ∧ ((∃ o ∈ [((⟨true, 2⟩ : Result), some (⟨"pre-uninstall failed"⟩ : GoError)),
            (⟨false, 0⟩, none)], o.2 ≠ none ∨ o.1.Requeue = true) →
          res = newRequeueWithDelay
            (healthyReconciler [preFailingComponent "a", plainComponent "b"]) h1)
      ∧ ((∀ o ∈ [((⟨true, 2⟩ : Result), some (⟨"pre-uninstall failed"⟩ : GoError)),
            (⟨false, 0⟩, none)], o.2 = none ∧ o.1.Requeue = false) → res = ⟨false, 0⟩) :=
  (C8_requeue_aggregation (healthyReconciler [preFailingComponent "a", plainComponent "b"]) 5
    UninstallTracker.empty []).2 _ rfl (by decide)

/-! ## C9: the terminal state -/

theorem loop_append (r : Reconciler) (fuel : Nat) (l2 : List Component) :
    ∀ (l1 : List Component) (rq : Bool) (t : UninstallTracker) (h : History),
      uninstallComponentsLoop r fuel (l1 ++ l2) rq t h
        = (uninstallComponentsLoop r fuel l1 rq t h).bind
            (fun x => uninstallComponentsLoop r fuel l2 x.1 x.2.1 x.2.2) := by
  intro l1
  induction l1 with
  | nil => intro rq t h; simp [loop_nil]
  | cons c rest ih =>
    intro rq t h
    rcases hu : uninstallSingleComponent r fuel (t.getComponentUninstallContext c.Name).1 c h
      with _ | ⟨res, ctx, h1⟩
    · rw [List.cons_append, loop_cons_none r fuel c _ rq t h hu,
        loop_cons_none r fuel c _ rq t h hu]
      rfl
    · rw [List.cons_append, loop_cons r fuel c _ rq t h h1 res ctx hu,
        loop_cons r fuel c _ rq t h h1 res ctx hu]
      exact ih _ _ _

/-- Processing components none of which is named `n` leaves the tracker entry of `n`
unchanged and makes no call on `n`. -/
theorem loop_frame (r : Reconciler) (fuel : Nat) (n : String) :
    ∀ (cs : List Component) (rq rq1 : Bool) (t t1 : UninstallTracker) (h h1 : History),
      (∀ c ∈ cs, c.Name ≠ n) →
      uninstallComponentsLoop r fuel cs rq t h = some (rq1, t1, h1) →
      t1.compMap n = t.compMap n
        ∧ ∃ evs, h1 = h ++ evs ∧ ∀ e ∈ evs, e.component ≠ some n := by
  intro cs
  induction cs with
  | nil =>
    intro rq rq1 t t1 h h1 _ hl
    simp only [loop_nil, Option.some.injEq, Prod.mk.injEq] at hl
    obtain ⟨_, rfl, rfl⟩ := hl
    exact ⟨rfl, [], by simp, by simp⟩
  | cons c rest ih =>
    intro rq rq1 t t1 h h1 hn hl
    have hcn : c.Name ≠ n := hn c (List.mem_cons_self _ _)
    rcases hu : uninstallSingleComponent r fuel (t.getComponentUninstallContext c.Name).1 c h
      with _ | ⟨res, ctx, h2⟩
    · rw [loop_cons_none r fuel c _ rq t h hu] at hl
      cases hl
    · rw [loop_cons r fuel c _ rq t h h2 res ctx hu] at hl
      obtain ⟨ht, evs2, he2, hc2⟩ := ih _ _ _ _ _ _
        (fun c1 hc1 => hn c1 (List.mem_cons_of_mem _ hc1)) hl
      obtain ⟨evs1, he1, hc1⟩ := usc_frame r c fuel _ _ _ _ _ hu
      refine ⟨?_, evs1 ++ evs2, by rw [he2, he1, List.append_assoc], ?_⟩
      · rw [ht, store_other _ _ _ _ (Ne.symm hcn), get_other _ _ _ (Ne.symm hcn)]
      · intro e hmem
        rcases List.mem_append.1 hmem with hm | hm
        · rcases hc1 e hm with h3 | h3
          · rw [h3]; simp
          · rw [h3]
            simp only [ne_eq, Option.some.injEq]
            exact hcn
        · exact hc2 e hm

theorem postUninstallCalls_frame (n : String) (evs : History)
    (hc : ∀ e ∈ evs, e.component ≠ some n) : postUninstallCalls n evs = 0 := by
  unfold postUninstallCalls
  rw [List.countP_eq_zero]
  intro e he hp
  apply hc e he
  cases e <;> simp_all [Event.isPostUninstallOf, Event.component]

theorem uninstall_not_mem_frame (n : String) (evs : History)
    (hc : ∀ e ∈ evs, e.component ≠ some n) : Event.Uninstall n none ∉ evs := by
  intro hm
  exact hc _ hm rfl

theorem postUninstallCalls_append (n : String) (h es : History) :
    postUninstallCalls n (h ++ es) = postUninstallCalls n h + postUninstallCalls n es := by
  simp [postUninstallCalls]

/-- A run over a registry in which only `Y` is named `Y.Name` processes `Y` once,
from the context the tracker holds for it, and nothing else in the run touches the
tracker entry of `Y` or calls a hook of `Y`. -/
theorem run_focus (r : Reconciler) (fuel : Nat) (Y : Component) (pre post : List Component)
    (t t1 : UninstallTracker) (h h1 : History) (res1 : Result × Option GoError)
    (hreg : r.GetComponents = pre ++ Y :: post)
    (hnames : ∀ c ∈ pre ++ post, c.Name ≠ Y.Name)
    (hctx : r.NewContext h = none)
    (hrun : uninstallComponents r fuel t h = some (res1, t1, h1)) :
    ∃ evsA res ctx hB evsB,
      (∀ e ∈ evsA, e.component ≠ some Y.Name)
        ∧ uninstallSingleComponent r fuel (t.getComponentUninstallContext Y.Name).1 Y
            (h ++ [Event.NewContext none] ++ evsA) = some (res, ctx, hB)
        ∧ t1.compMap Y.Name = some ctx
        ∧ h1 = hB ++ evsB ∧ ∀ e ∈ evsB, e.component ≠ some Y.Name := by
  unfold uninstallComponents at hrun
  simp only [hctx, hreg] at hrun
  rcases hl : uninstallComponentsLoop r fuel (pre ++ Y :: post) false t
    (h ++ [Event.NewContext none]) with _ | ⟨rq, t2, h2⟩
  · rw [hl] at hrun
    simp at hrun
  · rw [hl] at hrun
    have ht : t2 = t1 ∧ h2 = h1 := by
      cases rq <;> simp at hrun <;> exact ⟨hrun.2.1, hrun.2.2⟩
    obtain ⟨rfl, rfl⟩ := ht
    rw [loop_append] at hl
    rcases hpre : uninstallComponentsLoop r fuel pre false t (h ++ [Event.NewContext none])
      with _ | ⟨rqa, ta, ha⟩
    · rw [hpre] at hl
      simp at hl
    · rw [hpre] at hl
      simp only [Option.some_bind] at hl
      obtain ⟨hta, evsA, heA, hcA⟩ := loop_frame r fuel Y.Name pre _ _ _ _ _ _
        (fun c hc => hnames c (List.mem_append_left _ hc)) hpre
      have hget : (ta.getComponentUninstallContext Y.Name).1
          = (t.getComponentUninstallContext Y.Name).1 := by
        unfold UninstallTracker.getComponentUninstallContext
        rw [hta]
        cases t.compMap Y.Name <;> rfl
      rcases hu : uninstallSingleComponent r fuel (ta.getComponentUninstallContext Y.Name).1 Y ha
        with _ | ⟨res, ctx, hB⟩
      · rw [loop_cons_none r fuel Y _ rqa ta ha hu] at hl
        cases hl
      · rw [loop_cons r fuel Y _ rqa ta ha hB res ctx hu] at hl
        obtain ⟨htb, evsB, heB, hcB⟩ := loop_frame r fuel Y.Name post _ _ _ _ _ _
          (fun c hc => hnames c (List.mem_append_right _ hc)) hl
        refine ⟨evsA, res, ctx, hB, evsB, hcA, ?_, ?_, heB, hcB⟩
        · rw [← hget, ← heA]
          exact hu
        · rw [htb, store_same]

/-- Two runs that return leave a component that takes part in the uninstall and
succeeds fully in End, with one call of its `PostUninstall` hook. -/
theorem two_runs_focus (r : Reconciler) (Y : Component) (pre post : List Component)
    (h0 h1 h2 : History) (fuel : Nat) (res1 res2 : Result × Option GoError)
    (t1 t2 : UninstallTracker)
    (hreg : r.GetComponents = pre ++ Y :: post)
    (hnames : ∀ c ∈ pre ++ post, c.Name ≠ Y.Name)
    (hctx : ∀ h, r.NewContext h = none)
    (hq : ∀ h, (r.IsClusterProvisionedByRancher h).2 = none)
    (hs : Y.IsOperatorUninstallSupported = true)
    (hk : ∀ h, ¬ (Y.Name = r.ComponentName ∧ (r.IsClusterProvisionedByRancher h).1 = true))
    (hgood : succeedsFully r Y)
    (hinst : ∀ h, Event.Uninstall Y.Name none ∉ h → (Y.IsInstalled h).1 = true)
    (hfresh : Event.Uninstall Y.Name none ∉ h0) (hfuel : 5 ≤ fuel)
    (hrun1 : uninstallComponents r fuel UninstallTracker.empty h0 = some (res1, t1, h1))
    (hrun2 : uninstallComponents r fuel t1 h1 = some (res2, t2, h2)) :
    t2.compMap Y.Name = some ⟨compStateUninstallEnd⟩
    ∧ postUninstallCalls Y.Name h2 = postUninstallCalls Y.Name h0 + 1 := by
  -- the first run takes Y from Start to End
  obtain ⟨evsA, res, ctx, hB, evsB, hcA, hu, ht1, heB, hcB⟩ :=
    run_focus r fuel Y pre post _ _ _ _ _ hreg hnames (hctx h0) hrun1
  rw [get_absent _ _ (by rfl : UninstallTracker.empty.compMap Y.Name = none)] at hu
  have hno : Event.Uninstall Y.Name none ∉ h0 ++ [Event.NewContext none] ++ evsA
      ++ [Event.IsClusterProvisionedByRancher
        (r.IsClusterProvisionedByRancher (h0 ++ [Event.NewContext none] ++ evsA)).1 none] := by
    simp only [List.mem_append, List.mem_singleton, reduceCtorEq, or_false, not_or]
    exact ⟨hfresh, uninstall_not_mem_frame _ _ hcA⟩
  obtain ⟨evsY, hfull, hcount⟩ := usc_full_uninstall r Y _ fuel hq hs (hk _)
    (Prod.ext (hinst _ hno) (hgood.2.2.2.2.1 _)) hgood hfuel
  rw [hfull] at hu
  simp only [Option.some.injEq, Prod.mk.injEq] at hu
  obtain ⟨_, rfl, rfl⟩ := hu
  -- the second run finds Y in End
  obtain ⟨evsA2, res2, ctx2, hB2, evsB2, hcA2, hu2, ht2, heB2, hcB2⟩ :=
    run_focus r fuel Y pre post _ _ _ _ _ hreg hnames (hctx h1) hrun2
  rw [get_present _ _ _ ht1, usc_end] at hu2
  simp only [Option.some.injEq, Prod.mk.injEq] at hu2
  obtain ⟨_, rfl, rfl⟩ := hu2
  refine ⟨ht2, ?_⟩
  rw [heB2, heB]
  simp only [postUninstallCalls_append, postUninstallCalls_frame _ _ hcA,
    postUninstallCalls_frame _ _ hcB, postUninstallCalls_frame _ _ hcA2,
    postUninstallCalls_frame _ _ hcB2]
  have h3 : postUninstallCalls Y.Name evsY = 1 := hcount
  have h4 : postUninstallCalls Y.Name [Event.NewContext none] = 0 := rfl
  omega

/-- A loop over components that are all in End changes neither the requeue flag nor
the history nor any tracker entry. -/
theorem loop_all_end (r : Reconciler) (fuel : Nat) :
    ∀ (cs : List Component) (rq : Bool) (t : UninstallTracker) (h : History),
      (∀ c ∈ cs, t.compMap c.Name = some ⟨compStateUninstallEnd⟩) →
      ∃ t1, uninstallComponentsLoop r fuel cs rq t h = some (rq, t1, h)
        ∧ ∀ n, t1.compMap n = t.compMap n := by
  intro cs
  induction cs with
  | nil => intro rq t h _; exact ⟨t, rfl, fun _ => rfl⟩
  | cons c rest ih =>
    intro rq t h hall
    have hc := hall c (List.mem_cons_self _ _)
    have hg := get_present t c.Name _ hc
    rw [loop_cons r fuel c rest rq t h _ _ _ (by rw [hg]; exact usc_end r fuel c h), hg]
    simp only [Option.isSome_none, Bool.false_eq_true, or_self, if_false]
    have hsame : ∀ n, (t.store c.Name ⟨compStateUninstallEnd⟩).compMap n = t.compMap n := by
      intro n
      by_cases hn : n = c.Name
      · subst hn; rw [store_same, hc]
      · exact store_other _ _ _ _ hn
    obtain ⟨t1, hl, ht1⟩ := ih rq (t.store c.Name ⟨compStateUninstallEnd⟩) h
      (fun c1 hc1 => by rw [hsame]; exact hall c1 (List.mem_cons_of_mem _ hc1))
    exact ⟨t1, hl, fun n => by rw [ht1, hsame]⟩

/-- Two runs from the empty tracker over components with distinct names that all
succeed fully both return. -/
theorem two_runs_return (r : Reconciler) (h0 : History) (fuel : Nat)
    (hnodup : (r.GetComponents.map (fun c => c.Name)).Nodup)
    (hall : ∀ c ∈ r.GetComponents, succeedsFully r c)
    (hctx : ∀ h, r.NewContext h = none)
    (hq : ∀ h, (r.IsClusterProvisionedByRancher h).2 = none) (hfuel : 5 ≤ fuel) :
    ∃ res1 t1 h1 res2 t2 h2,
      uninstallComponents r fuel UninstallTracker.empty h0 = some (res1, t1, h1)
        ∧ uninstallComponents r fuel t1 h1 = some (res2, t2, h2) := by
  obtain ⟨rq1, t1, h1, hl, hdone, _⟩ := loop_isolation r fuel hq hfuel r.GetComponents false
    UninstallTracker.empty (h0 ++ [Event.NewContext none]) hnodup (fun _ _ => rfl)
    (fun c hc => Or.inl (hall c hc))
  obtain ⟨t2, hl2, _⟩ := loop_all_end r fuel r.GetComponents false t1
    (h1 ++ [Event.NewContext none]) (fun c hc => hdone c hc (hall c hc))
  have hrun1 : ∃ res, uninstallComponents r fuel UninstallTracker.empty h0
      = some (res, t1, h1) := by
    unfold uninstallComponents
    simp only [hctx, hl]
    split <;> exact ⟨_, rfl⟩
  have hrun2 : ∃ res, uninstallComponents r fuel t1 h1
      = some (res, t2, h1 ++ [Event.NewContext none]) := by
    unfold uninstallComponents
    simp only [hctx, hl2]
    exact ⟨_, rfl⟩
  obtain ⟨res1, e1⟩ := hrun1
  obtain ⟨res2, e2⟩ := hrun2
  exact ⟨res1, t1, h1, res2, t2, _, e1, e2⟩

/-- C9 (counterexample): the one registered component is installed at Start and
gone after its `Uninstall`, and all its hooks succeed, but the status recorder fails
to record the completion.  After two runs of `uninstallComponents` from the empty
tracker its state is `compStateUninstalleDone`, not End; its `PostUninstall` hook
was called once. -/
theorem C9_counterexample :
    (plainComponent "y").IsInstalled [] = (true, none)
      ∧ (plainComponent "y").IsInstalled [Event.Uninstall "y" none] = (false, none)
      ∧ (∀ h, (plainComponent "y").PreUninstall h = none
          ∧ (plainComponent "y").Uninstall h = none
          ∧ (plainComponent "y").PostUninstall h = none
          ∧ ((plainComponent "y").IsInstalled h).2 = none)
      ∧ ((uninstallComponents (completeFailingReconciler [plainComponent "y"]) 5
            UninstallTracker.empty []).bind
          (fun x => uninstallComponents (completeFailingReconciler [plainComponent "y"]) 5
            x.2.1 x.2.2)).map
            (fun x => (x.2.1.compMap "y", postUninstallCalls "y" x.2.2))
        = some (some ⟨compStateUninstalleDone⟩, 1) := by
  refine ⟨by decide, by decide, fun _ => ⟨rfl, rfl, rfl, rfl⟩, by decide⟩

/-- C9 (amended): a component whose state is `compStateUninstallEnd` is not stepped
any more: `uninstallSingleComponent` returns at once with no error, the state End
and the history unchanged, so without any hook call or status update.  Consequently,
for a registered component Y that takes part in the uninstall (it supports operator
uninstall and is not skipped), is installed until its `Uninstall` hook has run and
not afterwards, with every hook, every status update, the context creation and the
provisioning query succeeding, after any two runs of `uninstallComponents` from the
empty tracker that return, the state of Y is End and its `PostUninstall` hook was
called exactly once; and the two runs do return when the registered components have
distinct names and the other components succeed fully as well. -/
theorem C9_end_is_terminal (r : Reconciler) (Y : Component) (pre post : List Component)
    (h0 : History) (fuel : Nat)
    (hreg : r.GetComponents = pre ++ Y :: post)
    (hnames : ∀ c ∈ pre ++ post, c.Name ≠ Y.Name)
    (hctx : ∀ h, r.NewContext h = none)
    (hq : ∀ h, (r.IsClusterProvisionedByRancher h).2 = none)
    (hs : Y.IsOperatorUninstallSupported = true)
    (hk : ∀ h, ¬ (Y.Name = r.ComponentName ∧ (r.IsClusterProvisionedByRancher h).1 = true))
    (hgood : succeedsFully r Y)
    (hinst : ∀ h, Event.Uninstall Y.Name none ∉ h → (Y.IsInstalled h).1 = true)
    (hfresh : Event.Uninstall Y.Name none ∉ h0) (hfuel : 5 ≤ fuel) :
    (∀ (fuel0 : Nat) (comp : Component) (h : History),
      uninstallSingleComponent r fuel0 ⟨compStateUninstallEnd⟩ comp h
        = some ((⟨false, 0⟩, none), ⟨compStateUninstallEnd⟩, h))
    ∧ (∀ res1 t1 h1 res2 t2 h2,
      uninstallComponents r fuel UninstallTracker.empty h0 = some (res1, t1, h1) →
      uninstallComponents r fuel t1 h1 = some (res2, t2, h2) →
      t2.compMap Y.Name = some ⟨compStateUninstallEnd⟩
        ∧ postUninstallCalls Y.Name h2 = postUninstallCalls Y.Name h0 + 1)
    ∧ ((r.GetComponents.map (fun c => c.Name)).Nodup →
      (∀ c ∈ pre ++ post, succeedsFully r c) →
      ∃ res1 t1 h1 res2 t2 h2,
        uninstallComponents r fuel UninstallTracker.empty h0 = some (res1, t1, h1)
          ∧ uninstallComponents r fuel t1 h1 = some (res2, t2, h2)) := by
  refine ⟨fun fuel0 comp h => usc_end r fuel0 comp h, ?_, ?_⟩
  · intro res1 t1 h1 res2 t2 h2 hrun1 hrun2
    exact two_runs_focus r Y pre post h0 h1 h2 fuel res1 res2 t1 t2 hreg hnames hctx hq hs hk
      hgood hinst hfresh hfuel hrun1 hrun2
  · intro hnodup hothers
    refine two_runs_return r h0 fuel hnodup ?_ hctx hq hfuel
    intro c hc
    rw [hreg] at hc
    rcases List.mem_append.1 hc with hc | hc
    · exact hothers c (List.mem_append_left _ hc)
    · rcases List.mem_cons.1 hc with rfl | hc
      · exact hgood
      · exact hothers c (List.mem_append_right _ hc)

/-- C9 (amended) evaluated on two runs over a registry of three components, for the
component in the middle. -/
theorem C9_end_is_terminal_witness :
    ∃ res1 t1 h1 res2 t2 h2,
      uninstallComponents
          (healthyReconciler [unsupportedComponent "x", plainComponent "y", plainComponent "z"])
          5 UninstallTracker.empty [] = some (res1, t1, h1)
        ∧ uninstallComponents
          (healthyReconciler [unsupportedComponent "x", plainComponent "y", plainComponent "z"])
          5 t1 h1 = some (res2, t2, h2)
        ∧ t2.compMap "y" = some ⟨compStateUninstallEnd⟩
        ∧ postUninstallCalls "y" h2 = postUninstallCalls "y" [] + 1 := by
  have hY := C9_end_is_terminal
    (healthyReconciler [unsupportedComponent "x", plainComponent "y", plainComponent "z"])
    (plainComponent "y") [unsupportedComponent "x"] [plainComponent "z"] [] 5
    rfl (by decide) (fun _ => rfl) (fun _ => rfl) rfl
    (fun _ => by simp [healthyReconciler, plainComponent])
    (plainComponent_succeedsFully _ "y")
    (fun h hn => by
      have hu : uninstalledIn "y" h = false := by
        cases hb : uninstalledIn "y" h with
        | false => rfl
        | true => exact absurd (mem_of_uninstalledIn "y" h hb) hn
      simp [plainComponent, hu])
    (by decide) (by decide)
  obtain ⟨res1, t1, h1, res2, t2, h2, e1, e2⟩ := hY.2.2 (by decide) (by
    intro c hc
    simp only [List.singleton_append, List.mem_cons, List.mem_singleton, List.not_mem_nil,
      or_false] at hc
    rcases hc with rfl | rfl
    · exact ⟨fun _ => rfl, fun _ => rfl, fun _ => rfl, fun _ _ _ => rfl, fun _ => rfl,
        fun h hm => by simp [unsupportedComponent, plainComponent, uninstalledIn_of_mem "x" h hm]⟩
    · exact plainComponent_succeedsFully _ "z")
  exact ⟨res1, t1, h1, res2, t2, h2, e1, e2, hY.2.1 res1 t1 h1 res2 t2 h2 e1 e2⟩

/-! ## C10: the wait state -/

/-- C10: in state `compStateWaitUninstalled`, when `IsInstalled` returns true the
step returns the same state with no error and makes no `PostUninstall` call; when
`IsInstalled` returns false the step calls `PostUninstall` exactly once, on this
component, and returns `compStateUninstalleDone` with no error if that call
succeeds. -/
theorem C10_wait_uninstalled (r : Reconciler) (comp : Component) (h : History) :
    (Event.IsInstalled comp.Name true none
        ∈ (executeComponentUninstallState r comp compStateWaitUninstalled h).2 →
      (executeComponentUninstallState r comp compStateWaitUninstalled h).1
          = (compStateWaitUninstalled, none)
        ∧ (executeComponentUninstallState r comp compStateWaitUninstalled h).2.countP
            Event.isPostUninstall = 0)
    ∧ (Event.IsInstalled comp.Name false none
        ∈ (executeComponentUninstallState r comp compStateWaitUninstalled h).2 →
      (executeComponentUninstallState r comp compStateWaitUninstalled h).2.countP
            Event.isPostUninstall = 1
        ∧ (executeComponentUninstallState r comp compStateWaitUninstalled h).2.countP
            (Event.isPostUninstallOf comp.Name) = 1
        ∧ (Event.PostUninstall comp.Name none
            ∈ (executeComponentUninstallState r comp compStateWaitUninstalled h).2 →
          (executeComponentUninstallState r comp compStateWaitUninstalled h).1
            = (compStateUninstalleDone, none))) := by
  unfold executeComponentUninstallState
  simp only [compStateUninstallStart, compStatePreUninstall, compStateUninstall,
    compStateWaitUninstalled, compStateUninstalleDone, compStateUninstallEnd]
  rcases r.IsClusterProvisionedByRancher h with ⟨b, _ | qe⟩
  · simp only [String.reduceEq, if_false, if_true]
    rcases comp.IsInstalled (h ++ [Event.IsClusterProvisionedByRancher b none]) with ⟨i, _ | ie⟩
    · cases i
      · simp only [Bool.false_eq_true, if_false]
        rcases comp.PostUninstall _ with _ | pe
        · simp [Event.isPostUninstall, Event.isPostUninstallOf]
        · by_cases hr : r.IsRetryableError pe = false <;>
            simp [hr, Event.isPostUninstall, Event.isPostUninstallOf]
      · simp [Event.isPostUninstall, Event.isPostUninstallOf]
    · simp [Event.isPostUninstall, Event.isPostUninstallOf]
  · simp [Event.isPostUninstall, Event.isPostUninstallOf]

/-- C10 evaluated on a component that is polled once while installed and once after
it is gone. -/
theorem C10_wait_uninstalled_witness :
    ((executeComponentUninstallState (healthyReconciler []) (pollingComponent "c" 0)
          compStateWaitUninstalled []).1 = (compStateWaitUninstalled, none)
        ∧ (executeComponentUninstallState (healthyReconciler []) (pollingComponent "c" 0)
          compStateWaitUninstalled []).2.countP Event.isPostUninstall = 0)
      ∧ (executeComponentUninstallState (healthyReconciler []) (pollingComponent "c" 0)
          compStateWaitUninstalled [Event.IsInstalled "c" true none]).1
        = (compStateUninstalleDone, none) :=
  ⟨(C10_wait_uninstalled (healthyReconciler []) (pollingComponent "c" 0) []).1 (by decide),
    ((C10_wait_uninstalled (healthyReconciler []) (pollingComponent "c" 0)
      [Event.IsInstalled "c" true none]).2 (by decide)).2.2 (by decide)⟩

/-! ## C11: a failing post-uninstall -/

theorem exec_post_failed (r : Reconciler) (comp : Component) (h : History) (e : GoError)
    (hmem : Event.PostUninstall comp.Name (some e)
      ∈ (executeComponentUninstallState r comp compStateWaitUninstalled h).2) :
    (executeComponentUninstallState r comp compStateWaitUninstalled h).1
      = (compStateWaitUninstalled, none) := by
  revert hmem
  unfold executeComponentUninstallState
  simp only [compStateUninstallStart, compStatePreUninstall, compStateUninstall,
    compStateWaitUninstalled, compStateUninstalleDone, compStateUninstallEnd]
  rcases r.IsClusterProvisionedByRancher h with ⟨b, _ | qe⟩
  · simp only [String.reduceEq, if_false, if_true]
    rcases comp.IsInstalled (h ++ [Event.IsClusterProvisionedByRancher b none])
      with ⟨j, _ | ie⟩
    · cases j
      · simp only [Bool.false_eq_true, if_false]
        rcases comp.PostUninstall _ with _ | pe
        · simp
        · by_cases hr : r.IsRetryableError pe = false <;> simp [hr]
      · simp
    · simp
  · simp

theorem exec_wait_gone_calls_post (r : Reconciler) (comp : Component) (h : History)
    (hmem : Event.IsInstalled comp.Name false none
      ∈ (executeComponentUninstallState r comp compStateWaitUninstalled h).2) :
    ∃ x, Event.PostUninstall comp.Name x
      ∈ (executeComponentUninstallState r comp compStateWaitUninstalled h).2 := by
  revert hmem
  unfold executeComponentUninstallState
  simp only [compStateUninstallStart, compStatePreUninstall, compStateUninstall,
    compStateWaitUninstalled, compStateUninstalleDone, compStateUninstallEnd]
  rcases r.IsClusterProvisionedByRancher h with ⟨b, _ | qe⟩
  · simp only [String.reduceEq, if_false, if_true]
    rcases comp.IsInstalled (h ++ [Event.IsClusterProvisionedByRancher b none])
      with ⟨j, _ | ie⟩
    · cases j
      · simp only [Bool.false_eq_true, if_false]
        rcases comp.PostUninstall _ with _ | pe
        · simp
        · by_cases hr : r.IsRetryableError pe = false <;> simp [hr]
      · simp
    · simp
  · simp

/-- C11 (counterexample): the `PostUninstall` hook of the component fails in a step
taken in `compStateWaitUninstalled`, which returns the same state and no error; in
the next step for the component the `IsInstalled` hook reports the component as
installed, and the step returns without calling `PostUninstall` again. -/
theorem C11_counterexample :
    Event.PostUninstall "c" (some ⟨"post-uninstall failed"⟩)
        ∈ (executeComponentUninstallState (healthyReconciler []) (postFailingComponent "c")
          compStateWaitUninstalled []).2
      ∧ (executeComponentUninstallState (healthyReconciler []) (postFailingComponent "c")
          compStateWaitUninstalled []).1 = (compStateWaitUninstalled, none)
      ∧ (executeComponentUninstallState (healthyReconciler []) (postFailingComponent "c")
          compStateWaitUninstalled
          ([] ++ (executeComponentUninstallState (healthyReconciler [])
            (postFailingComponent "c") compStateWaitUninstalled []).2)).2.countP
            Event.isPostUninstall = 0 := by
  decide

/-- C11 (amended): if the `PostUninstall` hook returns an error, retryable or not, in
`compStateWaitUninstalled`, the step returns `compStateWaitUninstalled` and no error:
the failure is not propagated and the component does not advance to Done.  A later
step for the component in that state in which `IsInstalled` again returns false
invokes `PostUninstall` again. -/
theorem C11_post_uninstall_failure (r : Reconciler) (comp : Component) (h h2 : History)
    (e : GoError)
    (hfail : Event.PostUninstall comp.Name (some e)
      ∈ (executeComponentUninstallState r comp compStateWaitUninstalled h).2)
    (hnext : Event.IsInstalled comp.Name false none
      ∈ (executeComponentUninstallState r comp compStateWaitUninstalled h2).2) :
    (executeComponentUninstallState r comp compStateWaitUninstalled h).1
        = (compStateWaitUninstalled, none)
      ∧ ∃ x, Event.PostUninstall comp.Name x
        ∈ (executeComponentUninstallState r comp compStateWaitUninstalled h2).2 :=
  ⟨exec_post_failed r comp h e hfail, exec_wait_gone_calls_post r comp h2 hnext⟩

/-- C11 (amended) evaluated on a component that is gone and whose post-uninstall
fails, on two steps taken one after the other. -/
theorem C11_post_uninstall_failure_witness :
    (executeComponentUninstallState (healthyReconciler [])
        { plainComponent "c" with
          IsInstalled := fun _ => (false, none)
          PostUninstall := fun _ => some ⟨"post-uninstall failed"⟩ }
        compStateWaitUninstalled []).1 = (compStateWaitUninstalled, none)
      ∧ ∃ x, Event.PostUninstall "c" x
        ∈ (executeComponentUninstallState (healthyReconciler [])
          { plainComponent "c" with
            IsInstalled := fun _ => (false, none)
            PostUninstall := fun _ => some ⟨"post-uninstall failed"⟩ }
          compStateWaitUninstalled
          [Event.IsClusterProvisionedByRancher false none, Event.IsInstalled "c" false none,
            Event.Progressf "Component c has been uninstalled, running post-uninstall",
            Event.PostUninstall "c" (some ⟨"post-uninstall failed"⟩),
            Event.Errorf "PostUninstall for component c failed: post-uninstall failed"]).2 :=
  C11_post_uninstall_failure (healthyReconciler [])
    { plainComponent "c" with
      IsInstalled := fun _ => (false, none)
      PostUninstall := fun _ => some ⟨"post-uninstall failed"⟩ }
    [] _ ⟨"post-uninstall failed"⟩ (by decide) (by decide)

/-! ## C12: the done state -/

theorem exec_done_ok (r : Reconciler) (comp : Component) (h : History)
    (hmem : Event.updateComponentStatus comp.Name "Uninstall complete"
      ConditionType.CondUninstallComplete none
      ∈ (executeComponentUninstallState r comp compStateUninstalleDone h).2) :
    (executeComponentUninstallState r comp compStateUninstalleDone h).1
      = (compStateUninstallEnd, none) := by
  rcases hq : r.IsClusterProvisionedByRancher h with ⟨b, _ | qe⟩
  · rw [exec_done r comp h b hq] at hmem ⊢
    rcases hu : r.updateComponentStatus comp.Name "Uninstall complete"
      ConditionType.CondUninstallComplete (h ++ [Event.IsClusterProvisionedByRancher b none])
      with _ | ue
    · rfl
    · rw [hu] at hmem
      simp at hmem
  · rw [exec_query_err r comp _ h b qe hq] at hmem
    simp at hmem

/-- C12: in state `compStateUninstalleDone` the step records the status "Uninstall
complete" with the condition `CondUninstallComplete`: when that status update
succeeds the step returns `compStateUninstallEnd` and no error, and when it fails
the step returns `compStateUninstalleDone` together with the error.  Every step in
`compStateUninstalleDone` makes that status update once the provisioning query has
succeeded, so a step from the returned state makes it again. -/
theorem C12_done_state (r : Reconciler) (comp : Component) (h : History) :
    (Event.updateComponentStatus comp.Name "Uninstall complete"
        ConditionType.CondUninstallComplete none
        ∈ (executeComponentUninstallState r comp compStateUninstalleDone h).2 →
      (executeComponentUninstallState r comp compStateUninstalleDone h).1
        = (compStateUninstallEnd, none))
    ∧ (∀ e, Event.updateComponentStatus comp.Name "Uninstall complete"
        ConditionType.CondUninstallComplete (some e)
        ∈ (executeComponentUninstallState r comp compStateUninstalleDone h).2 →
      (executeComponentUninstallState r comp compStateUninstalleDone h).1
        = (compStateUninstalleDone, some e))
    ∧ (∀ h2, (r.IsClusterProvisionedByRancher h2).2 = none →
      ∃ x, Event.updateComponentStatus comp.Name "Uninstall complete"
        ConditionType.CondUninstallComplete x
        ∈ (executeComponentUninstallState r comp compStateUninstalleDone h2).2) := by
  refine ⟨exec_done_ok r comp h, fun e => exec_done_failed r comp h e, fun h2 hq => ?_⟩
  rw [exec_done r comp h2 _ (query_ok_eq r h2 hq)]
  rcases r.updateComponentStatus comp.Name "Uninstall complete"
    ConditionType.CondUninstallComplete
    (h2 ++ [Event.IsClusterProvisionedByRancher (r.IsClusterProvisionedByRancher h2).1 none])
    with _ | ue
  · exact ⟨none, by simp⟩
  · exact ⟨some ue, by simp⟩

/-- C12 evaluated on a status recorder that succeeds and on one that fails. -/
theorem C12_done_state_witness :
    (executeComponentUninstallState (healthyReconciler []) (plainComponent "c")
        compStateUninstalleDone []).1 = (compStateUninstallEnd, none)
      ∧ (executeComponentUninstallState (completeFailingReconciler []) (plainComponent "c")
        compStateUninstalleDone []).1
        = (compStateUninstalleDone, some ⟨"status update failed"⟩) :=
  ⟨(C12_done_state (healthyReconciler []) (plainComponent "c") []).1 (by decide),
    (C12_done_state (completeFailingReconciler []) (plainComponent "c") []).2.1
      ⟨"status update failed"⟩ (by decide)⟩

/-! ## C13: the installed check at Start -/

theorem exec_start_no_status (r : Reconciler) (comp : Component) (h : History) (i : Bool)
    (e : Option GoError) (hie : i = false ∨ e ≠ none)
    (hmem : Event.IsInstalled comp.Name i e
      ∈ (executeComponentUninstallState r comp compStateUninstallStart h).2) :
    (executeComponentUninstallState r comp compStateUninstallStart h).1
        = (compStateUninstallEnd, none)
      ∧ (executeComponentUninstallState r comp compStateUninstallStart h).2.countP
          Event.isStatusUpdate = 0
      ∧ (executeComponentUninstallState r comp compStateUninstallStart h).2.countP
          Event.isUninstallHook = 0 := by
  obtain ⟨b, hq, hs, hk, hi⟩ := exec_start_asks r comp h i e hmem
  rcases e with _ | err
  · rcases hie with rfl | hne
    · rw [exec_start_not_installed r comp h b hq hs hk hi]
      simp [Event.isStatusUpdate, Event.isUninstallHook]
    · exact absurd rfl hne
  · rw [exec_start_check_failed r comp h b i err hq hs hk hi]
    simp [Event.isStatusUpdate, Event.isUninstallHook]

/-- C13 (counterexample): at Start the component supports operator uninstall and
`IsInstalled` returns true, but the status update "Uninstall started" fails; the
step returns the empty state and the error, not `compStatePreUninstall`. -/
theorem C13_counterexample :
    (plainComponent "c").IsOperatorUninstallSupported = true
      ∧ Event.IsInstalled "c" true none
        ∈ (executeComponentUninstallState (startedFailingReconciler []) (plainComponent "c")
          compStateUninstallStart []).2
      ∧ (executeComponentUninstallState (startedFailingReconciler []) (plainComponent "c")
          compStateUninstallStart []).1 = ("", some ⟨"status update failed"⟩)
      ∧ (executeComponentUninstallState (startedFailingReconciler []) (plainComponent "c")
          compStateUninstallStart []).1.1 ≠ compStatePreUninstall := by
  decide

/-- C13 (amended): in state `compStateUninstallStart`, if `IsInstalled` returns false
or returns an error (it is asked only for a component that supports operator
uninstall), the step returns `compStateUninstallEnd` with a nil error and makes no
status update and no `PreUninstall`, `Uninstall` or `PostUninstall` call; if
`IsInstalled` returns true the step makes the status update "Uninstall started" and,
when that update succeeds, returns `compStatePreUninstall` with a nil error. -/
theorem C13_start_installed_check (r : Reconciler) (comp : Component) (h : History) :
    (Event.IsInstalled comp.Name false none
        ∈ (executeComponentUninstallState r comp compStateUninstallStart h).2 →
      comp.IsOperatorUninstallSupported = true
        ∧ (executeComponentUninstallState r comp compStateUninstallStart h).1
          = (compStateUninstallEnd, none)
        ∧ (executeComponentUninstallState r comp compStateUninstallStart h).2.countP
          Event.isStatusUpdate = 0
        ∧ (executeComponentUninstallState r comp compStateUninstallStart h).2.countP
          Event.isUninstallHook = 0)
    ∧ (∀ i e, Event.IsInstalled comp.Name i (some e)
        ∈ (executeComponentUninstallState r comp compStateUninstallStart h).2 →
      (executeComponentUninstallState r comp compStateUninstallStart h).1
          = (compStateUninstallEnd, none)
        ∧ (executeComponentUninstallState r comp compStateUninstallStart h).2.countP
          Event.isStatusUpdate = 0
        ∧ (executeComponentUninstallState r comp compStateUninstallStart h).2.countP
          Event.isUninstallHook = 0)
    ∧ (Event.IsInstalled comp.Name true none
        ∈ (executeComponentUninstallState r comp compStateUninstallStart h).2 →
      (∃ x, Event.updateComponentStatus comp.Name "Uninstall started"
          ConditionType.CondUninstallStarted x
          ∈ (executeComponentUninstallState r comp compStateUninstallStart h).2)
        ∧ (Event.updateComponentStatus comp.Name "Uninstall started"
            ConditionType.CondUninstallStarted none
            ∈ (executeComponentUninstallState r comp compStateUninstallStart h).2 →
          (executeComponentUninstallState r comp compStateUninstallStart h).1
            = (compStatePreUninstall, none))) := by
  refine ⟨fun hmem => ?_, fun i e hmem => ?_, fun hmem => ?_⟩
  · exact ⟨(exec_start_asks r comp h _ _ hmem).choose_spec.2.1,
      exec_start_no_status r comp h false none (Or.inl rfl) hmem⟩
  · exact exec_start_no_status r comp h i (some e) (Or.inr (by simp)) hmem
  · obtain ⟨b, hq, hs, hk, hi⟩ := exec_start_asks r comp h _ _ hmem
    rw [exec_start_installed r comp h b hq hs hk hi]
    rcases hu : r.updateComponentStatus comp.Name "Uninstall started"
      ConditionType.CondUninstallStarted
      (h ++ [Event.IsClusterProvisionedByRancher b none,
        Event.IsInstalled comp.Name true none]) with _ | ue
    · exact ⟨⟨none, by simp⟩, fun _ => rfl⟩
    · refine ⟨⟨some ue, by simp⟩, fun hm => ?_⟩
      simp at hm

/-- C13 (amended) evaluated on a component that is not installed, on one whose check
fails and on one that is installed. -/
theorem C13_start_installed_check_witness :
    (executeComponentUninstallState (healthyReconciler []) (plainComponent "c")
        compStateUninstallStart [Event.Uninstall "c" none]).1 = (compStateUninstallEnd, none)
      ∧ (executeComponentUninstallState (healthyReconciler []) (checkFailingComponent "c")
        compStateUninstallStart []).1 = (compStateUninstallEnd, none)
      ∧ (executeComponentUninstallState (healthyReconciler []) (plainComponent "c")
        compStateUninstallStart []).1 = (compStatePreUninstall, none) :=
  ⟨((C13_start_installed_check (healthyReconciler []) (plainComponent "c")
      [Event.Uninstall "c" none]).1 (by decide)).2.1,
    ((C13_start_installed_check (healthyReconciler []) (checkFailingComponent "c") []).2.1
      false ⟨"check failed"⟩ (by decide)).1,
    ((C13_start_installed_check (healthyReconciler []) (plainComponent "c") []).2.2
      (by decide)).2 (by decide)⟩

/-! ## C14: the component of a cluster provisioned by Rancher -/

/-- C14: in state `compStateUninstallStart`, for the component named
`rancher.ComponentName` that supports operator uninstall, when
`IsClusterProvisionedByRancher` reports true the step returns
`compStateUninstallEnd` and no error; besides the query it only writes one log
entry, so it calls neither `IsInstalled`, nor an uninstall hook, nor the status
recorder. -/
theorem C14_rancher_provisioned_skip (r : Reconciler) (comp : Component) (h : History)
    (hname : comp.Name = r.ComponentName)
    (hs : comp.IsOperatorUninstallSupported = true)
    (hq : r.IsClusterProvisionedByRancher h = (true, none)) :
    executeComponentUninstallState r comp compStateUninstallStart h
        = ((compStateUninstallEnd, none),
          [Event.IsClusterProvisionedByRancher true none,
            Event.Oncef ("Cluster was provisioned by Rancher. Component "
              ++ r.ComponentName ++ " will not be uninstalled.")])
      ∧ (executeComponentUninstallState r comp compStateUninstallStart h).2.countP
          Event.isHookCall = 0
      ∧ (executeComponentUninstallState r comp compStateUninstallStart h).2.countP
          Event.isStatusUpdate = 0 := by
  rw [exec_start_skip r comp h true hq hs ⟨hname, rfl⟩]
  simp [Event.isHookCall, Event.isStatusUpdate]

/-- C14 evaluated on the Rancher component of a cluster provisioned by Rancher. -/
theorem C14_rancher_provisioned_skip_witness :
    executeComponentUninstallState (rancherProvisionedReconciler []) (plainComponent "rancher")
        compStateUninstallStart []
        = ((compStateUninstallEnd, none),
          [Event.IsClusterProvisionedByRancher true none,
            Event.Oncef ("Cluster was provisioned by Rancher. Component "
              ++ (rancherProvisionedReconciler []).ComponentName
              ++ " will not be uninstalled.")])
      ∧ (executeComponentUninstallState (rancherProvisionedReconciler [])
          (plainComponent "rancher") compStateUninstallStart []).2.countP Event.isHookCall = 0
      ∧ (executeComponentUninstallState (rancherProvisionedReconciler [])
          (plainComponent "rancher") compStateUninstallStart []).2.countP
          Event.isStatusUpdate = 0 :=
  C14_rancher_provisioned_skip (rancherProvisionedReconciler []) (plainComponent "rancher") []
    rfl rfl rfl

/-! ## C15: the classification of errors -/

/-- C15: two steps that differ only in what `IsRetryableError` answers return the
same next state and the same error, whatever the state, the component and the
history; they also make the same calls, and differ at most in the entries of the
error log. -/
theorem C15_retryable_classification (r : Reconciler) (comp : Component)
    (s : componentState) (h : History) (f : GoError → Bool) :
    (executeComponentUninstallState { r with IsRetryableError := f } comp s h).1
        = (executeComponentUninstallState r comp s h).1
      ∧ (executeComponentUninstallState { r with IsRetryableError := f } comp s h).2.filter
          (fun e => !e.isErrorf)
        = (executeComponentUninstallState r comp s h).2.filter (fun e => !e.isErrorf) := by
  unfold executeComponentUninstallState
  simp only []
  rcases r.IsClusterProvisionedByRancher h with ⟨b, _ | qe⟩
  · simp only []
    repeat' split
    all_goals simp_all [Event.isErrorf]
  · exact ⟨rfl, rfl⟩

/-! ## C16: the context of a component in the tracker -/

/-- C16: `getComponentUninstallContext` gets or creates.  On a tracker with no entry
for `compName` it returns a new context in state `compStateUninstallStart` and stores
it as the entry of `compName`; on a tracker with an entry for `compName` it returns
that entry and leaves it as it is; in both cases the entries of all other names are
unchanged. -/
theorem C16_get_or_create (vuc : UninstallTracker) (compName : String) :
    (vuc.compMap compName = none →
      (vuc.getComponentUninstallContext compName).1 = ⟨compStateUninstallStart⟩
        ∧ (vuc.getComponentUninstallContext compName).2.compMap compName
          = some ⟨compStateUninstallStart⟩)
    ∧ (∀ context, vuc.compMap compName = some context →
      (vuc.getComponentUninstallContext compName).1 = context
        ∧ (vuc.getComponentUninstallContext compName).2.compMap compName = some context)
    ∧ (∀ n, n ≠ compName →
      (vuc.getComponentUninstallContext compName).2.compMap n = vuc.compMap n) := by
  refine ⟨fun hn => ?_, fun context hn => ?_, fun n hne => get_other vuc compName n hne⟩
  · rw [get_absent vuc compName hn]
    exact ⟨rfl, store_same _ _ _⟩
  · rw [get_present vuc compName context hn]
    exact ⟨rfl, hn⟩

/-- C16 evaluated on the empty tracker and on a tracker with an entry. -/
theorem C16_get_or_create_witness :
    ((UninstallTracker.empty.getComponentUninstallContext "c").1 = ⟨compStateUninstallStart⟩
        ∧ (UninstallTracker.empty.getComponentUninstallContext "c").2.compMap "c"
          = some ⟨compStateUninstallStart⟩)
      ∧ (((UninstallTracker.empty.store "c" ⟨compStateUninstall⟩).getComponentUninstallContext
            "c").1 = ⟨compStateUninstall⟩
        ∧ ((UninstallTracker.empty.store "c" ⟨compStateUninstall⟩).getComponentUninstallContext
            "c").2.compMap "c" = some ⟨compStateUninstall⟩)
      ∧ ((UninstallTracker.empty.store "c" ⟨compStateUninstall⟩).getComponentUninstallContext
          "d").2.compMap "c" = some ⟨compStateUninstall⟩ :=
  ⟨(C16_get_or_create UninstallTracker.empty "c").1 rfl,
    (C16_get_or_create (UninstallTracker.empty.store "c" ⟨compStateUninstall⟩) "c").2.1 _
      (by decide),
    ((C16_get_or_create (UninstallTracker.empty.store "c" ⟨compStateUninstall⟩) "d").2.2 "c"
      (by decide)).trans (by decide)⟩

/-! ## C17: the order of processing -/

theorem loop_segments (r : Reconciler) (fuel : Nat) :
    ∀ (cs : List Component) (rq rq1 : Bool) (t t1 : UninstallTracker) (h h1 : History),
      uninstallComponentsLoop r fuel cs rq t h = some (rq1, t1, h1) →
      ∃ segs, componentSegments r fuel cs t h = some segs
        ∧ segs.length = cs.length
        ∧ h1 = h ++ segs.flatten
        ∧ ∀ (i : Nat) (c : Component) (seg : List Event), cs[i]? = some c → segs[i]? = some seg →
            ∀ e ∈ seg, e.component = none ∨ e.component = some c.Name := by
  intro cs
  induction cs with
  | nil =>
    intro rq rq1 t t1 h h1 hl
    simp only [loop_nil, Option.some.injEq, Prod.mk.injEq] at hl
    obtain ⟨_, _, rfl⟩ := hl
    exact ⟨[], rfl, rfl, by simp, by simp⟩
  | cons c rest ih =>
    intro rq rq1 t t1 h h1 hl
    rcases hu : uninstallSingleComponent r fuel (t.getComponentUninstallContext c.Name).1 c h
      with _ | ⟨res, ctx, h2⟩
    · rw [loop_cons_none r fuel c _ rq t h hu] at hl
      cases hl
    · rw [loop_cons r fuel c _ rq t h h2 res ctx hu] at hl
      obtain ⟨segs, hs, hlen, hh, hc⟩ := ih _ _ _ _ _ _ hl
      obtain ⟨evs, he, hce⟩ := usc_frame r c fuel _ _ _ _ _ hu
      have hdrop : h2.drop h.length = evs := by rw [he, List.drop_left]
      refine ⟨evs :: segs, ?_, by simp [hlen], ?_, ?_⟩
      · rw [componentSegments]
        simp only [hu, hs, Option.map_some', hdrop]
      · rw [hh, he, List.flatten_cons, List.append_assoc]
      · intro i c1 seg hci hsi
        cases i with
        | zero =>
          simp only [List.getElem?_cons_zero, Option.some.injEq] at hci hsi
          subst hci
          subst hsi
          exact hce
        | succ j =>
          simp only [List.getElem?_cons_succ] at hci hsi
          exact hc j c1 seg hci hsi

/-- C17: a run of `uninstallComponents` that gets its context and returns processes
the components in the order of the list of `registry.GetComponents()`, each one by
one call of `uninstallSingleComponent`: the history of the run is the history
before it, the context creation, and then one segment of events for each registered
component, in the order of the list, and the hook calls and status updates in the
segment at position `i` are all on the component at position `i`.  So every call on
the component at position `i` comes before every call on the component at position
`i + 1`.  Processing a component writes only the tracker entry of its name, and the
run leaves the entry of every name that is not registered as it was. -/
theorem C17_processing_order (r : Reconciler) (fuel : Nat) (t t1 : UninstallTracker)
    (h h1 : History) (res : Result × Option GoError)
    (hctx : r.NewContext h = none)
    (hrun : uninstallComponents r fuel t h = some (res, t1, h1)) :
    (∃ segs, componentSegments r fuel r.GetComponents t (h ++ [Event.NewContext none])
          = some segs
        ∧ segs.length = r.GetComponents.length
        ∧ h1 = h ++ [Event.NewContext none] ++ segs.flatten
        ∧ ∀ (i : Nat) (c : Component) (seg : List Event),
            r.GetComponents[i]? = some c → segs[i]? = some seg →
            ∀ e ∈ seg, e.component = none ∨ e.component = some c.Name)
    ∧ (∀ (t0 : UninstallTracker) (c : Component) (ctx : componentUninstallContext) (n : String),
        n ≠ c.Name →
        ((t0.getComponentUninstallContext c.Name).2.store c.Name ctx).compMap n
          = t0.compMap n)
    ∧ (∀ n, (∀ c ∈ r.GetComponents, c.Name ≠ n) → t1.compMap n = t.compMap n) := by
  unfold uninstallComponents at hrun
  simp only [hctx] at hrun
  rcases hl : uninstallComponentsLoop r fuel r.GetComponents false t
    (h ++ [Event.NewContext none]) with _ | ⟨rq, t2, h2⟩
  · rw [hl] at hrun
    simp at hrun
  · rw [hl] at hrun
    have ht : t2 = t1 ∧ h2 = h1 := by
      cases rq <;> simp at hrun <;> exact ⟨hrun.2.1, hrun.2.2⟩
    obtain ⟨rfl, rfl⟩ := ht
    refine ⟨loop_segments r fuel _ _ _ _ _ _ _ hl, ?_, ?_⟩
    · intro t0 c ctx n hne
      rw [store_other _ _ _ _ hne, get_other _ _ _ hne]
    · intro n hn
      exact (loop_frame r fuel n _ _ _ _ _ _ _ hn hl).1

/-- C17 evaluated on a run over two components. -/
theorem C17_processing_order_witness :
    ∃ res t1 h1 segs,
      uninstallComponents (healthyReconciler [plainComponent "a", plainComponent "b"]) 5
          UninstallTracker.empty [] = some (res, t1, h1)
        ∧ componentSegments (healthyReconciler [plainComponent "a", plainComponent "b"]) 5
            [plainComponent "a", plainComponent "b"] UninstallTracker.empty
            ([] ++ [Event.NewContext none]) = some segs
        ∧ segs.length = 2
        ∧ h1 = [] ++ [Event.NewContext none] ++ segs.flatten := by
  have hsome : (uninstallComponents (healthyReconciler [plainComponent "a", plainComponent "b"])
      5 UninstallTracker.empty []).isSome = true := by decide
  rcases hrun : uninstallComponents (healthyReconciler [plainComponent "a", plainComponent "b"])
      5 UninstallTracker.empty [] with _ | ⟨res, t1, h1⟩
  · rw [hrun] at hsome
    simp at hsome
  · obtain ⟨⟨segs, hs, hlen, hh, _⟩, _, _⟩ := C17_processing_order
      (healthyReconciler [plainComponent "a", plainComponent "b"]) 5 UninstallTracker.empty t1
      [] h1 res rfl hrun
    exact ⟨res, t1, h1, segs, rfl, hs, hlen, hh⟩


/-! ## C22: a run that returns without requeue -/

/-- A call of `uninstallSingleComponent` that returns no error and no requeue leaves
the context in End. -/
theorem usc_no_requeue_end (r : Reconciler) (comp : Component) :
    ∀ (fuel : Nat) (ctx ctx1 : componentUninstallContext) (h h1 : History)
      (res : Result × Option GoError),
      uninstallSingleComponent r fuel ctx comp h = some (res, ctx1, h1) →
      res.2 = none → res.1.Requeue = false → ctx1 = ⟨compStateUninstallEnd⟩ := by
  intro fuel
  induction fuel with
  | zero =>
    intro ctx ctx1 h h1 res hu _ _
    rw [uninstallSingleComponent] at hu
    split at hu
    · rename_i hend
      simp only [Option.some.injEq, Prod.mk.injEq] at hu
      rw [← hu.2.1]
      cases ctx
      simp only [componentUninstallContext.mk.injEq]
      exact hend
    · simp at hu
  | succ n ih =>
    intro ctx ctx1 h h1 res hu he hr
    rw [uninstallSingleComponent] at hu
    split at hu
    · rename_i hend
      simp only [Option.some.injEq, Prod.mk.injEq] at hu
      rw [← hu.2.1]
      cases ctx
      simp only [componentUninstallContext.mk.injEq]
      exact hend
    · simp only [] at hu
      split at hu
      · simp only [Option.some.injEq, Prod.mk.injEq] at hu
        rw [← hu.1] at he
        simp at he
      · exact ih _ _ _ _ _ hu he hr

/-- A loop that ends with the requeue flag down started with the flag down, has every
component it processed in End, and has left in End every entry that was in End. -/
theorem loop_no_requeue (r : Reconciler) (fuel : Nat) :
    ∀ (cs : List Component) (rq : Bool) (t t1 : UninstallTracker) (h h1 : History),
      uninstallComponentsLoop r fuel cs rq t h = some (false, t1, h1) →
      rq = false
        ∧ (∀ c ∈ cs, t1.compMap c.Name = some ⟨compStateUninstallEnd⟩)
        ∧ ∀ n, t.compMap n = some ⟨compStateUninstallEnd⟩ →
            t1.compMap n = some ⟨compStateUninstallEnd⟩ := by
  intro cs
  induction cs with
  | nil =>
    intro rq t t1 h h1 hl
    simp only [loop_nil, Option.some.injEq, Prod.mk.injEq] at hl
    obtain ⟨rfl, rfl, _⟩ := hl
    exact ⟨rfl, by simp, fun _ hn => hn⟩
  | cons c rest ih =>
    intro rq t t1 h h1 hl
    rcases hu : uninstallSingleComponent r fuel (t.getComponentUninstallContext c.Name).1 c h
      with _ | ⟨res, ctx, h2⟩
    · rw [loop_cons_none r fuel c _ rq t h hu] at hl
      cases hl
    · rw [loop_cons r fuel c _ rq t h h2 res ctx hu] at hl
      obtain ⟨hrq, hrest, hkeep⟩ := ih _ _ _ _ _ hl
      have hflag : ¬ (res.2.isSome ∨ res.1.Requeue = true) := by
        intro hf
        rw [if_pos hf] at hrq
        cases hrq
      rw [if_neg hflag] at hrq
      have he : res.2 = none := by
        cases hres : res.2 with
        | none => rfl
        | some e => exact absurd (Or.inl (by simp [hres])) hflag
      have hr : res.1.Requeue = false := by
        cases hres : res.1.Requeue with
        | false => rfl
        | true => exact absurd (Or.inr hres) hflag
      have hctx : ctx = ⟨compStateUninstallEnd⟩ := usc_no_requeue_end r c fuel _ _ _ _ _ hu he hr
      have hc : t1.compMap c.Name = some ⟨compStateUninstallEnd⟩ :=
        hkeep c.Name (by rw [store_same, hctx])
      refine ⟨hrq, ?_, ?_⟩
      · intro c1 hc1
        rcases List.mem_cons.1 hc1 with rfl | hm
        · exact hc
        · exact hrest c1 hm
      · intro n hn
        by_cases hne : n = c.Name
        · rw [hne]; exact hc
        · exact hkeep n (by rw [store_other _ _ _ _ hne, get_other _ _ _ hne]; exact hn)

/-- C22: if `uninstallComponents` returns a result without requeue and a nil error,
then every component of `registry.GetComponents()` has the tracker state
`compStateUninstallEnd`. -/
theorem C22_no_requeue_means_all_end (r : Reconciler) (fuel : Nat) (t t1 : UninstallTracker)
    (h h1 : History) (res : Result)
    (hrun : uninstallComponents r fuel t h = some ((res, none), t1, h1))
    (hres : res.Requeue = false) :
    ∀ c ∈ r.GetComponents, t1.compMap c.Name = some ⟨compStateUninstallEnd⟩ := by
  unfold uninstallComponents at hrun
  simp only [] at hrun
  split at hrun
  · simp at hrun
  · split at hrun
    · simp at hrun
    · rename_i rq t2 h2 hl
      split at hrun
      · simp only [Option.some.injEq, Prod.mk.injEq] at hrun
        rw [← hrun.1.1] at hres
        simp [newRequeueWithDelay] at hres
      · rename_i hrq
        simp only [Option.some.injEq, Prod.mk.injEq] at hrun
        have hf : rq = false := by simpa using hrq
        rw [hf, hrun.2.1] at hl
        exact (loop_no_requeue r fuel _ _ _ _ _ _ hl).2.1

/-- C22 evaluated on a run over a component that is uninstalled in the run and one
that does not support operator uninstall. -/
theorem C22_no_requeue_means_all_end_witness :
    ∃ t1 h1,
      uninstallComponents (healthyReconciler [plainComponent "a", unsupportedComponent "b"]) 5
          UninstallTracker.empty [] = some ((⟨false, 0⟩, none), t1, h1)
        ∧ t1.compMap "a" = some ⟨compStateUninstallEnd⟩
        ∧ t1.compMap "b" = some ⟨compStateUninstallEnd⟩ := by
  have hres : (uninstallComponents
      (healthyReconciler [plainComponent "a", unsupportedComponent "b"]) 5
      UninstallTracker.empty []).map (fun x => x.1) = some (⟨false, 0⟩, none) := by decide
  rcases hrun : uninstallComponents
      (healthyReconciler [plainComponent "a", unsupportedComponent "b"]) 5
      UninstallTracker.empty [] with _ | ⟨res, t1, h1⟩
  · rw [hrun] at hres
    simp at hres
  · rw [hrun] at hres
    simp only [Option.map_some', Option.some.injEq] at hres
    subst hres
    have hall := C22_no_requeue_means_all_end
      (healthyReconciler [plainComponent "a", unsupportedComponent "b"]) 5
      UninstallTracker.empty t1 [] h1 ⟨false, 0⟩ hrun rfl
    exact ⟨t1, h1, rfl, hall (plainComponent "a") (by simp [healthyReconciler]),
      hall (unsupportedComponent "b") (by simp [healthyReconciler])⟩

/-! ## C23: the states that the tracker holds -/

/-- C23 (the code at the failing input): the `Uninstall` hook of the one registered
component fails in a run of `uninstallComponents` from the empty tracker.  The run
returns, and the tracker entry of the component then holds the empty state, which is
none of the six declared states. -/
theorem C23_tracker_holds_undeclared_state :
    ∃ res t1 h1 ctx,
      uninstallComponents (healthyReconciler [uninstallFailingComponent "c"]) 5
          UninstallTracker.empty [] = some (res, t1, h1)
        ∧ t1.compMap "c" = some ctx
        ∧ ctx.state = ""
        ∧ ctx.state ∉ declaredStates := by
  have hfirst : (uninstallComponents (healthyReconciler [uninstallFailingComponent "c"]) 5
      UninstallTracker.empty []).map (fun x => x.2.1.compMap "c") = some (some ⟨""⟩) := by
    decide
  rcases hrun : uninstallComponents (healthyReconciler [uninstallFailingComponent "c"]) 5
      UninstallTracker.empty [] with _ | ⟨res, t1, h1⟩
  · rw [hrun] at hfirst
    simp at hfirst
  · rw [hrun] at hfirst
    simp only [Option.map_some', Option.some.injEq] at hfirst
    exact ⟨res, t1, h1, ⟨""⟩, rfl, hfirst, rfl, by decide⟩

/-! ## C24: the provisioning query comes first -/

/-- C24: `executeComponentUninstallState` asks `IsClusterProvisionedByRancher` before
it looks at the current state.  For every component and every current state, if the
query returns an error, the step returns the empty state with that error and its only
event is the query, so that it calls no component hook and makes no status update;
`uninstallSingleComponent`, entered in a state other than End, then returns that
error with the empty state in the context, and the loop of `uninstallComponents`
leaves the empty state in the tracker entry of the component. -/
theorem C24_query_error_first (r : Reconciler) (comp : Component) (s : componentState)
    (h : History) (b : Bool) (err : GoError)
    (hq : r.IsClusterProvisionedByRancher h = (b, some err)) :
    executeComponentUninstallState r comp s h
        = (("", some err), [Event.IsClusterProvisionedByRancher b (some err)])
      ∧ (executeComponentUninstallState r comp s h).2.countP Event.isHookCall = 0
      ∧ (executeComponentUninstallState r comp s h).2.countP Event.isStatusUpdate = 0
      ∧ (s ≠ compStateUninstallEnd → ∀ fuel,
          uninstallSingleComponent r (fuel + 1) ⟨s⟩ comp h
            = some ((newRequeueWithDelay r
                (h ++ [Event.IsClusterProvisionedByRancher b (some err)]), some err),
              ⟨""⟩, h ++ [Event.IsClusterProvisionedByRancher b (some err)]))
      ∧ (∀ (t : UninstallTracker) (fuel : Nat) (rq : Bool),
          (t.getComponentUninstallContext comp.Name).1 = ⟨s⟩ → s ≠ compStateUninstallEnd →
          ∃ t1, uninstallComponentsLoop r (fuel + 1) [comp] rq t h
              = some (true, t1, h ++ [Event.IsClusterProvisionedByRancher b (some err)])
            ∧ t1.compMap comp.Name = some ⟨""⟩) := by
  have hx := exec_query_err r comp s h b err hq
  have hu : s ≠ compStateUninstallEnd → ∀ fuel,
      uninstallSingleComponent r (fuel + 1) ⟨s⟩ comp h
        = some ((newRequeueWithDelay r
            (h ++ [Event.IsClusterProvisionedByRancher b (some err)]), some err),
          ⟨""⟩, h ++ [Event.IsClusterProvisionedByRancher b (some err)]) := by
    intro hs fuel
    rw [usc_err r fuel s comp h err hs (by rw [hx]), hx]
  refine ⟨hx, by rw [hx]; rfl, by rw [hx]; rfl, hu, ?_⟩
  intro t fuel rq hg hs
  refine ⟨(t.getComponentUninstallContext comp.Name).2.store comp.Name ⟨""⟩, ?_, store_same _ _ _⟩
  rw [loop_cons r (fuel + 1) comp [] rq t h _ _ _ (by rw [hg]; exact hu hs fuel), loop_nil]
  simp

/-- C24 evaluated on a reconciler whose provisioning query fails, for a component
that the tracker does not yet hold. -/
theorem C24_query_error_first_witness :
    executeComponentUninstallState (queryFailingReconciler []) (plainComponent "c")
        compStateUninstallStart []
        = (("", some ⟨"no cluster"⟩),
          [Event.IsClusterProvisionedByRancher false (some ⟨"no cluster"⟩)])
      ∧ ∃ t1, uninstallComponentsLoop (queryFailingReconciler []) 1 [plainComponent "c"] false
            UninstallTracker.empty []
          = some (true, t1, [] ++ [Event.IsClusterProvisionedByRancher false
              (some ⟨"no cluster"⟩)])
        ∧ t1.compMap "c" = some ⟨""⟩ :=
  ⟨(C24_query_error_first (queryFailingReconciler []) (plainComponent "c")
      compStateUninstallStart [] false ⟨"no cluster"⟩ rfl).1,
    (C24_query_error_first (queryFailingReconciler []) (plainComponent "c")
      compStateUninstallStart [] false ⟨"no cluster"⟩ rfl).2.2.2.2
      UninstallTracker.empty 0 false rfl (by decide)⟩
end reconcile

namespace mysql

/-! ## The time-windowed repair: lemmas -/

theorem repair_never (k : Constants) (now : Int) (cli : Cluster) :
    repairMySQLPodsWaitingReadinessGates k now ⟨none⟩ cli
      = { err := none, cluster := cli, comp := ⟨some now⟩, deleted := [] } := by
  simp [repairMySQLPodsWaitingReadinessGates]

theorem repair_waiting (k : Constants) (now last : Int) (cli : Cluster)
    (hw : now - last < k.cooldown) :
    repairMySQLPodsWaitingReadinessGates k now ⟨some last⟩ cli
      = { err := none, cluster := cli, comp := ⟨some last⟩, deleted := [] } := by
  simp [repairMySQLPodsWaitingReadinessGates, hw]

theorem repair_expired_healthy (k : Constants) (now last : Int) (cli : Cluster)
    (hh : allReadinessGatesTrue k cli = true) (he : k.cooldown ≤ now - last) :
    repairMySQLPodsWaitingReadinessGates k now ⟨some last⟩ cli
      = { err := none, cluster := cli, comp := ⟨none⟩, deleted := [] } := by
  have hn : ¬ (now - last < k.cooldown) := not_lt.mpr he
  simp [repairMySQLPodsWaitingReadinessGates, hh, hn]

theorem repair_expired_unhealthy (k : Constants) (now last : Int) (cli : Cluster)
    (hu : allReadinessGatesTrue k cli = false) (he : k.cooldown ≤ now - last) :
    repairMySQLPodsWaitingReadinessGates k now ⟨some last⟩ cli
      = { err := none
          cluster := deletePod cli k.operatorComponentNamespace k.operatorComponentName
          comp := ⟨none⟩
          deleted := [(k.operatorComponentNamespace, k.operatorComponentName)] } := by
  have hn : ¬ (now - last < k.cooldown) := not_lt.mpr he
  simp [repairMySQLPodsWaitingReadinessGates, hu, hn]

/-- On healthy pods the repair returns no error, deletes nothing and leaves the pods
as they are, whatever the timestamp. -/
theorem repair_healthy_no_action (k : Constants) (now : Int) (c : mysqlComponent)
    (cli : Cluster) (hh : allReadinessGatesTrue k cli = true) :
    (repairMySQLPodsWaitingReadinessGates k now c cli).err = none
      ∧ (repairMySQLPodsWaitingReadinessGates k now c cli).deleted = []
      ∧ (repairMySQLPodsWaitingReadinessGates k now c cli).cluster = cli := by
  rcases c with ⟨_ | last⟩
  · rw [repair_never]
    exact ⟨rfl, rfl, rfl⟩
  · by_cases hw : now - last < k.cooldown
    · rw [repair_waiting k now last cli hw]
      exact ⟨rfl, rfl, rfl⟩
    · rw [repair_expired_healthy k now last cli hh (not_lt.mp hw)]
      exact ⟨rfl, rfl, rfl⟩

theorem podExists_deletePod (cli : Cluster) (ns name : String) :
    podExists (deletePod cli ns name) ns name = false := by
  simp only [podExists, deletePod, List.any_eq_false, List.mem_filter]
  intro p hp
  have h2 := hp.2
  simp only [Bool.not_eq_true, Bool.not_eq_eq_eq_not, Bool.not_true] at h2
  simp [h2]

theorem test_pods_healthy (k : Constants) :
    allReadinessGatesTrue k [mySQLPod k ConditionStatus.ConditionTrue, mySQLOperatorPod k]
      = true := by
  simp [allReadinessGatesTrue, List.filter, isMySQLPod, mySQLPod, mySQLOperatorPod, gateIsTrue]
  split <;> simp

theorem test_operator_pod_exists (k : Constants) (gate2 : ConditionStatus) :
    podExists [mySQLPod k gate2, mySQLOperatorPod k]
      k.operatorComponentNamespace k.operatorComponentName = true := by
  simp [podExists, mySQLOperatorPod]

theorem test_pods_unhealthy (k : Constants) :
    allReadinessGatesTrue k [mySQLPod k ConditionStatus.ConditionFalse, mySQLOperatorPod k]
      = false := by
  simp [allReadinessGatesTrue, List.filter, isMySQLPod, mySQLPod, gateIsTrue]

/-- The test of the sources passes on the repair, for every reading of the clock,
when the cooldown is at most the two hours by which the test sets the timestamp
back. -/
theorem repair_passes_test (k : Constants) (t1 t2 t3 t4 : Int) (hc : k.cooldown ≤ Hour * 2) :
    TestRepairMySQLPodsWaitingReadinessGates k (repairMySQLPodsWaitingReadinessGates k)
      t1 t2 t3 t4 = true := by
  have hh := test_pods_healthy k
  have hu := test_pods_unhealthy k
  have he := test_operator_pod_exists k ConditionStatus.ConditionTrue
  have h1 := repair_never k t1 [mySQLPod k ConditionStatus.ConditionTrue, mySQLOperatorPod k]
  have h2 := repair_healthy_no_action k t2 ⟨some t1⟩
    [mySQLPod k ConditionStatus.ConditionTrue, mySQLOperatorPod k] hh
  have h3 := repair_expired_healthy k t3 (t3 - Hour * 2)
    [mySQLPod k ConditionStatus.ConditionTrue, mySQLOperatorPod k] hh (by omega)
  have h4 := repair_expired_unhealthy k t4 (t4 - Hour * 2)
    [mySQLPod k ConditionStatus.ConditionFalse, mySQLOperatorPod k] hu (by omega)
  have hd := podExists_deletePod
    [mySQLPod k ConditionStatus.ConditionFalse, mySQLOperatorPod k]
    k.operatorComponentNamespace k.operatorComponentName
  simp only [TestRepairMySQLPodsWaitingReadinessGates, h1, h2.1, h2.2.2, h3, h4, hd, he,
    mysqlComponent.IsZero]
  rfl

/-! ## C18: the cooldown of the repair -/

/-- C18: on pods that stay unhealthy, the first call of the repair, made at `t1`
with the timestamp at never, returns no error, deletes nothing, leaves the pods as
they are and sets the timestamp to `t1`; a second call at `t2`, before the cooldown
has elapsed since `t1`, returns no error, deletes nothing and leaves the timestamp
at `t1`; a call at `t3`, when the cooldown has elapsed since `t1`, returns no error,
deletes exactly the pod of the MySQL operator, which the client then no longer
finds, and resets the timestamp to never. -/
theorem C18_probe_cooldown (k : Constants) (t1 t2 t3 : Int) (cl1 cl2 cl3 : Cluster)
    (hu1 : allReadinessGatesTrue k cl1 = false)
    (hu2 : allReadinessGatesTrue k cl2 = false)
    (hu3 : allReadinessGatesTrue k cl3 = false)
    (hbefore : t2 - t1 < k.cooldown) (hafter : k.cooldown ≤ t3 - t1) :
    let o1 := repairMySQLPodsWaitingReadinessGates k t1 ⟨none⟩ cl1
    let o2 := repairMySQLPodsWaitingReadinessGates k t2 o1.comp cl2
    let o3 := repairMySQLPodsWaitingReadinessGates k t3 o2.comp cl3
    o1 = { err := none, cluster := cl1, comp := ⟨some t1⟩, deleted := [] }
    ∧ o2 = { err := none, cluster := cl2, comp := ⟨some t1⟩, deleted := [] }
    ∧ o3 = { err := none
             cluster := deletePod cl3 k.operatorComponentNamespace k.operatorComponentName
             comp := ⟨none⟩
             deleted := [(k.operatorComponentNamespace, k.operatorComponentName)] }
    ∧ podExists o3.cluster k.operatorComponentNamespace k.operatorComponentName = false := by
  intro o1 o2 o3
  -- the first two calls do not look at the pods
  have _ := hu1
  have _ := hu2
  have h1 : o1 = { err := none, cluster := cl1, comp := ⟨some t1⟩, deleted := [] } :=
    repair_never k t1 cl1
  have h2 : o2 = { err := none, cluster := cl2, comp := ⟨some t1⟩, deleted := [] } := by
    show repairMySQLPodsWaitingReadinessGates k t2 o1.comp cl2 = _
    rw [h1]
    exact repair_waiting k t2 t1 cl2 hbefore
  have h3 : o3 = { err := none
                   cluster := deletePod cl3 k.operatorComponentNamespace k.operatorComponentName
                   comp := ⟨none⟩
                   deleted := [(k.operatorComponentNamespace, k.operatorComponentName)] } := by
    show repairMySQLPodsWaitingReadinessGates k t3 o2.comp cl3 = _
    rw [h2]
    exact repair_expired_unhealthy k t3 t1 cl3 hu3 hafter
  refine ⟨h1, h2, h3, ?_⟩
  rw [h3]
  exact podExists_deletePod cl3 _ _

/-- The property C18 on the pods of the fourth call of the test, where the condition
`gate2` is false: the calls are made at 0, after half an hour and after two hours,
with a cooldown of one hour. -/
theorem C18_probe_cooldown_witness :
    let k := exampleConstants
    let cli : Cluster := [mySQLPod k ConditionStatus.ConditionFalse, mySQLOperatorPod k]
    let o1 := repairMySQLPodsWaitingReadinessGates k 0 ⟨none⟩ cli
    let o2 := repairMySQLPodsWaitingReadinessGates k (Hour / 2) o1.comp cli
    let o3 := repairMySQLPodsWaitingReadinessGates k (Hour * 2) o2.comp cli
    allReadinessGatesTrue k cli = false
    ∧ Hour / 2 - 0 < k.cooldown ∧ k.cooldown ≤ Hour * 2 - 0
    ∧ o1 = { err := none, cluster := cli, comp := ⟨some 0⟩, deleted := [] }
    ∧ o2 = { err := none, cluster := cli, comp := ⟨some 0⟩, deleted := [] }
    ∧ o3 = { err := none
             cluster := deletePod cli k.operatorComponentNamespace k.operatorComponentName
             comp := ⟨none⟩
             deleted := [(k.operatorComponentNamespace, k.operatorComponentName)] }
    ∧ podExists o3.cluster k.operatorComponentNamespace k.operatorComponentName = false :=
  ⟨by decide, by decide, by decide,
    C18_probe_cooldown exampleConstants 0 (Hour / 2) (Hour * 2)
      [mySQLPod exampleConstants ConditionStatus.ConditionFalse, mySQLOperatorPod exampleConstants]
      [mySQLPod exampleConstants ConditionStatus.ConditionFalse, mySQLOperatorPod exampleConstants]
      [mySQLPod exampleConstants ConditionStatus.ConditionFalse, mySQLOperatorPod exampleConstants]
      (by decide) (by decide) (by decide) (by decide) (by decide)⟩

/-! ## C19: the repair on healthy pods -/

/-- C19 (counterexample): at the first call of the test all readiness gates of the
MySQL pods are true and the timestamp is zero; the repair returns no error and
deletes nothing, but it sets the timestamp to the time of the call and does not
leave it at never.  Before the cooldown has elapsed a call on the same pods leaves
the timestamp as it is. -/
theorem C19_counterexample :
    allReadinessGatesTrue exampleConstants
        [mySQLPod exampleConstants ConditionStatus.ConditionTrue,
          mySQLOperatorPod exampleConstants] = true
      ∧ (repairMySQLPodsWaitingReadinessGates exampleConstants Hour ⟨none⟩
          [mySQLPod exampleConstants ConditionStatus.ConditionTrue,
            mySQLOperatorPod exampleConstants]).comp.LastTimeReadinessGateRepairStarted
        = some Hour
      ∧ (repairMySQLPodsWaitingReadinessGates exampleConstants Hour ⟨none⟩
          [mySQLPod exampleConstants ConditionStatus.ConditionTrue,
            mySQLOperatorPod exampleConstants]).comp.LastTimeReadinessGateRepairStarted
        ≠ none
      ∧ (repairMySQLPodsWaitingReadinessGates exampleConstants (Hour + 1) ⟨some Hour⟩
          [mySQLPod exampleConstants ConditionStatus.ConditionTrue,
            mySQLOperatorPod exampleConstants]).comp.LastTimeReadinessGateRepairStarted
        ≠ none := by
  decide

/-- C19 (amended): whenever all readiness gates of the MySQL pods are true, the
repair, called at any time with any timestamp, so also when the cooldown has elapsed,
returns no error, deletes nothing and leaves the pods of the client as they are, so
that a pod of the MySQL operator that the client found before is still found.  A
call with the timestamp at never sets it to the time of the call; a call before the
cooldown has elapsed leaves the timestamp as it is; a call when the cooldown has
elapsed resets the timestamp to never. -/
theorem C19_probe_healthy (k : Constants) (now : Int) (c : mysqlComponent) (cli : Cluster)
    (hh : allReadinessGatesTrue k cli = true) :
    let o := repairMySQLPodsWaitingReadinessGates k now c cli
    o.err = none ∧ o.deleted = [] ∧ o.cluster = cli
    ∧ podExists o.cluster k.operatorComponentNamespace k.operatorComponentName
        = podExists cli k.operatorComponentNamespace k.operatorComponentName
    ∧ (c.LastTimeReadinessGateRepairStarted = none →
        o.comp.LastTimeReadinessGateRepairStarted = some now)
    ∧ (∀ last, c.LastTimeReadinessGateRepairStarted = some last → now - last < k.cooldown →
        o.comp.LastTimeReadinessGateRepairStarted = some last)
    ∧ (∀ last, c.LastTimeReadinessGateRepairStarted = some last → k.cooldown ≤ now - last →
        o.comp.LastTimeReadinessGateRepairStarted = none) := by
  intro o
  obtain ⟨h1, h2, h3⟩ := repair_healthy_no_action k now c cli hh
  refine ⟨h1, h2, h3, by rw [h3], ?_, ?_, ?_⟩
  · intro hc
    have hc1 : c = ⟨none⟩ := by cases c; simpa using hc
    show (repairMySQLPodsWaitingReadinessGates k now c cli).comp.1 = _
    rw [hc1, repair_never]
  · intro last hc hw
    have hc1 : c = ⟨some last⟩ := by cases c; simpa using hc
    show (repairMySQLPodsWaitingReadinessGates k now c cli).comp.1 = _
    rw [hc1, repair_waiting k now last cli hw]
  · intro last hc he
    have hc1 : c = ⟨some last⟩ := by cases c; simpa using hc
    show (repairMySQLPodsWaitingReadinessGates k now c cli).comp.1 = _
    rw [hc1, repair_expired_healthy k now last cli hh he]

/-- The property C19 at the third call of the test: all readiness gates are true and
the timestamp lies two hours back, with a cooldown of one hour. -/
theorem C19_probe_healthy_witness :
    let k := exampleConstants
    let cli : Cluster := [mySQLPod k ConditionStatus.ConditionTrue, mySQLOperatorPod k]
    let o := repairMySQLPodsWaitingReadinessGates k (Hour * 5) ⟨some (Hour * 5 - Hour * 2)⟩ cli
    allReadinessGatesTrue k cli = true
    ∧ podExists cli k.operatorComponentNamespace k.operatorComponentName = true
    ∧ o.err = none ∧ o.deleted = [] ∧ o.cluster = cli
    ∧ podExists o.cluster k.operatorComponentNamespace k.operatorComponentName
        = podExists cli k.operatorComponentNamespace k.operatorComponentName
    ∧ o.comp.LastTimeReadinessGateRepairStarted = none :=
  have h := C19_probe_healthy exampleConstants (Hour * 5) ⟨some (Hour * 5 - Hour * 2)⟩
    [mySQLPod exampleConstants ConditionStatus.ConditionTrue, mySQLOperatorPod exampleConstants]
    (by decide)
  ⟨by decide, by decide, h.1, h.2.1, h.2.2.1, h.2.2.2.1,
    h.2.2.2.2.2.2 (Hour * 5 - Hour * 2) rfl (by decide)⟩

/-! ## C20: the first call of the repair -/

/-- C20: a call of the repair at `t1` with the timestamp at zero, on any pods, returns
no error, sets the timestamp to `t1`, so that it is no longer zero, and deletes
nothing, so that the pod of the MySQL operator is left in place; a following call at
`t2`, before the cooldown has elapsed since `t1`, on any pods, also returns no error
and deletes nothing, and leaves the timestamp at `t1`. -/
theorem C20_probe_first_call (k : Constants) (t1 t2 : Int) (cl1 cl2 : Cluster)
    (hbefore : t2 - t1 < k.cooldown) :
    let o1 := repairMySQLPodsWaitingReadinessGates k t1 ⟨none⟩ cl1
    let o2 := repairMySQLPodsWaitingReadinessGates k t2 o1.comp cl2
    (o1.err = none ∧ o1.comp.IsZero = false
      ∧ o1.comp.LastTimeReadinessGateRepairStarted = some t1
      ∧ o1.deleted = [] ∧ o1.cluster = cl1
      ∧ podExists o1.cluster k.operatorComponentNamespace k.operatorComponentName
          = podExists cl1 k.operatorComponentNamespace k.operatorComponentName)
    ∧ (o2.err = none ∧ o2.deleted = [] ∧ o2.cluster = cl2
      ∧ podExists o2.cluster k.operatorComponentNamespace k.operatorComponentName
          = podExists cl2 k.operatorComponentNamespace k.operatorComponentName
      ∧ o2.comp.LastTimeReadinessGateRepairStarted = some t1) := by
  intro o1 o2
  have h1 : o1 = { err := none, cluster := cl1, comp := ⟨some t1⟩, deleted := [] } :=
    repair_never k t1 cl1
  have h2 : o2 = { err := none, cluster := cl2, comp := ⟨some t1⟩, deleted := [] } := by
    show repairMySQLPodsWaitingReadinessGates k t2 o1.comp cl2 = _
    rw [h1]
    exact repair_waiting k t2 t1 cl2 hbefore
  rw [h1, h2]
  exact ⟨⟨rfl, rfl, rfl, rfl, rfl, rfl⟩, rfl, rfl, rfl, rfl, rfl⟩

/-- The property C20 on the pods of the first two calls of the test, whose readiness
gates are all true, with the second call one nanosecond after the first. -/
theorem C20_probe_first_call_witness :
    let k := exampleConstants
    let cli : Cluster := [mySQLPod k ConditionStatus.ConditionTrue, mySQLOperatorPod k]
    let o1 := repairMySQLPodsWaitingReadinessGates k Hour ⟨none⟩ cli
    let o2 := repairMySQLPodsWaitingReadinessGates k (Hour + 1) o1.comp cli
    Hour + 1 - Hour < k.cooldown
    ∧ podExists cli k.operatorComponentNamespace k.operatorComponentName = true
    ∧ (o1.err = none ∧ o1.comp.IsZero = false
      ∧ o1.comp.LastTimeReadinessGateRepairStarted = some Hour
      ∧ o1.deleted = [] ∧ o1.cluster = cli
      ∧ podExists o1.cluster k.operatorComponentNamespace k.operatorComponentName
          = podExists cli k.operatorComponentNamespace k.operatorComponentName)
    ∧ (o2.err = none ∧ o2.deleted = [] ∧ o2.cluster = cli
      ∧ podExists o2.cluster k.operatorComponentNamespace k.operatorComponentName
          = podExists cli k.operatorComponentNamespace k.operatorComponentName
      ∧ o2.comp.LastTimeReadinessGateRepairStarted = some Hour) :=
  ⟨by decide, by decide,
    C20_probe_first_call exampleConstants Hour (Hour + 1)
      [mySQLPod exampleConstants ConditionStatus.ConditionTrue, mySQLOperatorPod exampleConstants]
      [mySQLPod exampleConstants ConditionStatus.ConditionTrue, mySQLOperatorPod exampleConstants]
      (by decide)⟩

end mysql

namespace mysql

/-! ## C21: the repair arms itself again -/

end mysql

namespace fluentoperator

/-! ## C25: the nil pointer in the validation of an update -/

theorem checkEnabled_same (c : fluentOperatorComponent) (vz : Verrazzano) :
    c.checkEnabled vz vz = none := by
  simp [fluentOperatorComponent.checkEnabled]

/-- C25 (the code at the failing input): `ValidateUpdateV1Beta1` stops with a nil
pointer dereference exactly when `checkEnabled` returns nil, the pointer
`new.Spec.Components.Velero` is not nil and the pointer
`new.Spec.Components.FluentOperator` is nil.  So it stops, and returns neither an
error nor nil, whenever the old and the new resource are the same resource with
Velero configured and the Fluent Operator not, whatever the functions called from
outside answer. -/
theorem C25_velero_without_fluent_operator_stops :
    (∀ (c : fluentOperatorComponent) (old new : Verrazzano),
      c.ValidateUpdateV1Beta1 old new = Except.error RuntimeError.nilPointerDereference
        ↔ (c.checkEnabled old new = none ∧ new.Spec.Components.Velero.isSome = true
          ∧ new.Spec.Components.FluentOperator = none))
    ∧ (∀ (c : fluentOperatorComponent) (velero : VeleroComponent),
        c.ValidateUpdateV1Beta1
            { Spec := { Components := { Velero := some velero, FluentOperator := none } } }
            { Spec := { Components := { Velero := some velero, FluentOperator := none } } }
          = Except.error RuntimeError.nilPointerDereference)
    ∧ acceptingComponent.ValidateUpdateV1Beta1 veleroOnly veleroOnly
        = Except.error RuntimeError.nilPointerDereference := by
  have hiff : ∀ (c : fluentOperatorComponent) (old new : Verrazzano),
      c.ValidateUpdateV1Beta1 old new = Except.error RuntimeError.nilPointerDereference
        ↔ (c.checkEnabled old new = none ∧ new.Spec.Components.Velero.isSome = true
          ∧ new.Spec.Components.FluentOperator = none) := by
    intro c old new
    unfold fluentOperatorComponent.ValidateUpdateV1Beta1
    rcases hc : c.checkEnabled old new with _ | e
    · rcases hv : new.Spec.Components.Velero with _ | v
      · simp
      · rcases hf : new.Spec.Components.FluentOperator with _ | f
        · simp
        · rcases ho : c.ValidateInstallOverridesV1Beta1 f.ValueOverrides with _ | e2 <;> simp [ho]
    · simp
  refine ⟨hiff, fun c velero => ?_, ?_⟩
  · exact (hiff c _ _).2 ⟨checkEnabled_same c _, rfl, rfl⟩
  · exact (hiff _ _ _).2 ⟨checkEnabled_same _ _, rfl, rfl⟩

end fluentoperator
